import Mathlib

/-!
# Frame scheduling manager (`src/managers/FrameSchedulingManager.cpp`)

A shallow embedding of `CFrameSchedulingManager`.

* Pointers (`CMonitor*`, `wlr_buffer*`) are natural numbers; the monitor objects live in a
  heap `World.monitors`.
* `m_vSchedulingData` is a list of records.  A handler that obtains `DATA = dataFor(..)`
  works on the record it points to and the result is written back to the slot the pointer
  refers to (`storeFor`, `storeForBuffer`, `List.set`).
* The outbound calls `g_pHyprRenderer->renderMonitor` and `g_pCompositor->leaveUnsafeState`
  are recorded in logs of the world, so that renderer invocations can be counted.  The
  renderer and the compositor are collaborators outside this file; what they do to their own
  state between two calls is a `Call.surroundings`, and they do not call back into the
  manager while a handler runs.
* `float` and `double` values are rationals, and every conversion and arithmetic operation
  rounds to the nearest value of the format, ties to even (`toFloat`, `toDouble`).  `int`
  values are unbounded integers (signed overflow is undefined behaviour in the source and
  not modelled).
* An address of a slot of `m_vSchedulingData` is a `SlotAddress`; it reads a record only
  while the vector has its storage of the time the address was taken.
* `RASSERT` is a fatal assertion: a handler that fails it ends in `Except.error`.
-/

namespace FrameSched

/-! ## Data model -/

/-- A `CMonitor*`. -/
abbrev MonitorPtr := Nat

/-- A `wlr_buffer*`. -/
abbrev BufferPtr := Nat

/-- A `pixman_box32`. -/
structure pixman_box32 where
  x1 : Int
  y1 : Int
  x2 : Int
  y2 : Int
  deriving DecidableEq, Repr

/-- A `pixman_region32_t`: a list of rectangles. -/
abbrev pixman_region32_t := List pixman_box32

/-- The pixman query `pixman_region32_not_empty`. -/
def pixman_region32_not_empty (r : pixman_region32_t) : Bool := !r.isEmpty

/-- Length of the ring of previous damage regions (`WLR_DAMAGE_RING_PREVIOUS_LEN`, wlroots). -/
def WLR_DAMAGE_RING_PREVIOUS_LEN : Nat := 2

/-- The `wlr_damage_ring` of a monitor: `current` and the array `previous[]`
(an index outside the list reads an empty region). -/
structure wlr_damage_ring where
  current : pixman_region32_t
  previous : List pixman_region32_t
  deriving DecidableEq, Repr

/-- The kinds of wlroots backend an output can come from. -/
inductive wlr_backend where
  | drm
  | wayland
  | x11
  | headless
  deriving DecidableEq, Repr

/-- The wlroots query `wlr_backend_is_drm`. -/
def wlr_backend_is_drm : wlr_backend → Bool
  | .drm => true
  | _ => false

/-- A `wlr_output`: its address and its backend. -/
structure wlr_output where
  addr : Nat
  backend : wlr_backend
  deriving DecidableEq, Repr

/-- The member `CMonitor::tearingState`. -/
structure STearingState where
  activelyTearing : Bool
  busy : Bool
  frameScheduledWhileBusy : Bool
  nextRenderTorn : Bool
  deriving DecidableEq, Repr

/-- The members of `CMonitor` this file reads or writes.  `solitaryClient` is a nullable
`CWindow*`; `refreshRate` is a `float`. -/
structure CMonitor where
  output : wlr_output
  tearingState : STearingState
  solitaryClient : Option Nat
  forceFullFrames : Int
  damage : wlr_damage_ring
  m_bEnabled : Bool
  refreshRate : ℚ
  deriving DecidableEq, Repr

/-- A `timespec`. -/
structure timespec where
  tv_sec : Int
  tv_nsec : Int
  deriving DecidableEq, Repr

/-- The duration `seconds{tv_sec} + nanoseconds{tv_nsec}` in nanoseconds. -/
def timespec.toNanos (t : timespec) : Int := t.tv_sec * 1000000000 + t.tv_nsec

/-- The `wlr_output_event_present` fields read by `onPresent`: `when` and `refresh` (ns). -/
structure wlr_output_event_present where
  when : timespec
  refresh : Int
  deriving DecidableEq, Repr

/-- The address of a slot of `m_vSchedulingData`: the allocation (the storage of the vector
at the time the address was taken) and the index of the slot in that storage. -/
structure SlotAddress where
  allocation : Nat
  index : Nat
  deriving DecidableEq, Repr

/-- Modelled from the spec: the timer primitive (`wl_event_source`, libwayland), "an arm-once
deadline timer owned by this record".  `armed = some ms` is a pending one-shot deadline of
`ms` milliseconds, `none` a disarmed timer.  `data` is the `void* data` handed to
`wl_event_loop_add_timer` when the timer was created; the event loop passes it to the
callback at every expiry. -/
structure wl_event_source where
  armed : Option Int
  data : SlotAddress := { allocation := 0, index := 0 }
  deriving DecidableEq, Repr

/-- Modelled from the spec: `wl_event_source_timer_update`, "arm a one-shot deadline in
milliseconds from now"; a delay of `0` disarms the timer. -/
def wl_event_source_timer_update (source : wl_event_source) (ms_delay : Int) : wl_event_source :=
  if ms_delay = 0 then { source with armed := none } else { source with armed := some ms_delay }

/-- Modelled from the spec: the helper class `CTimer` behind `lastPresent` (declared in
`helpers/Timer.hpp`), a "monotonic timestamp of the last completed presentation", in
nanoseconds. -/
structure CTimer where
  m_tpLastReset : Int
  deriving DecidableEq, Repr

/-- Modelled from the spec: the record type `SSchedulingData` (declared in
`FrameSchedulingManager.hpp`) with the members the source file uses and their default
member initialisers: every flag false, `forceFrames = 0`, no buffers, epoch time points. -/
structure SSchedulingData where
  pMonitor : MonitorPtr
  event : wl_event_source := { armed := none }
  legacyScheduler : Bool := false
  activelyPushing : Bool := false
  lastPresent : CTimer := { m_tpLastReset := 0 }
  forceFrames : Int := 0
  rendered : Bool := false
  gpuReady : Bool := false
  delayed : Bool := false
  delayedFrameSubmitted : Bool := false
  nextVblank : Int := 0
  buffers : List BufferPtr := []
  deriving DecidableEq, Repr

/-- The members of `g_pCompositor` read by `renderMonitor`.  `m_sWLRSession` is a nullable
pointer to a session whose `active` flag is the payload. -/
structure CCompositor where
  m_sWLRSession : Option Bool
  m_bSessionActive : Bool
  m_bUnsafeState : Bool
  m_vMonitors : List MonitorPtr
  m_pUnsafeOutput : MonitorPtr
  deriving DecidableEq, Repr

/-- Everything the handlers read or write: the record store, the monitor heap, the
compositor, the two clocks (nanoseconds), the outcome of the renderer's solitary recheck,
and the logs of outbound calls.  The store is a `std::vector`: `allocation` names its
current storage, `capacity` is the number of slots of that storage, and `growth` is the
capacity the standard library chooses when a vector of the given size has to grow. -/
structure World where
  m_vSchedulingData : List SSchedulingData
  allocation : Nat
  capacity : Nat
  growth : Nat → Nat
  monitors : MonitorPtr → CMonitor
  g_pCompositor : CCompositor
  clockMonotonic : timespec
  systemClock : Int
  recheckSolitaryForMonitor : CMonitor → Option Nat
  renderCalls : List MonitorPtr
  leaveUnsafeStateCalls : Nat

/-- How a handler can end abnormally. -/
inductive Fault where
  | assertionFailed
  | invalidPointer
  deriving DecidableEq, Repr

/-- The macro `RASSERT(expr, reason, ...)`.  Its definition lies outside the translated
file; it is the project's assertion macro, which logs `reason` and aborts the process when
`expr` is false (had it returned instead, the statement after it would dereference the
null `DATA`).  A failed assertion ends the handler with `Fault.assertionFailed`. -/
def RASSERT {α : Type} (expr : Option α) : Except Fault α :=
  match expr with
  | some a => .ok a
  | none => .error Fault.assertionFailed

/-- `CTimer::reset`. -/
def CTimer.reset (_t : CTimer) (w : World) : CTimer :=
  { m_tpLastReset := w.clockMonotonic.toNanos }

/-- `CTimer::getMillis`: whole milliseconds since the last reset. -/
def CTimer.getMillis (t : CTimer) (w : World) : Int :=
  Int.tdiv (w.clockMonotonic.toNanos - t.m_tpLastReset) 1000000

/-! ## Record lookup -/

/-- `dataFor(CMonitor*)`: the first record of the output. -/
def dataFor (store : List SSchedulingData) (pMonitor : MonitorPtr) : Option SSchedulingData :=
  store.find? (fun d => d.pMonitor == pMonitor)

/-- `dataFor(wlr_buffer*)`: the first record whose `buffers` holds the buffer. -/
def dataForBuffer (store : List SSchedulingData) (pBuffer : BufferPtr) :
    Option SSchedulingData :=
  store.find? (fun d => d.buffers.contains pBuffer)

/-- Replace the first element selected by `sel`: a write through the pointer a lookup
by `sel` returned. -/
def replaceFirst (sel : SSchedulingData → Bool) (d' : SSchedulingData) :
    List SSchedulingData → List SSchedulingData
  | [] => []
  | d :: ds => if sel d then d' :: ds else d :: replaceFirst sel d' ds

/-- Write a record back through the pointer `dataFor(pMonitor)` returned. -/
def World.storeFor (w : World) (pMonitor : MonitorPtr) (DATA : SSchedulingData) : World :=
  { w with m_vSchedulingData :=
      replaceFirst (fun d => d.pMonitor == pMonitor) DATA w.m_vSchedulingData }

/-- Write a record back through the pointer `dataFor(pBuffer)` returned. -/
def World.storeForBuffer (w : World) (pBuffer : BufferPtr) (DATA : SSchedulingData) : World :=
  { w with m_vSchedulingData :=
      replaceFirst (fun d => d.buffers.contains pBuffer) DATA w.m_vSchedulingData }

/-! ## Registration and buffer tracking -/

/-- The storage for one more element (`std::vector::emplace_back`): a vector with a free
slot keeps its storage, a full one moves to a new allocation of a larger capacity, after
which every address taken in the old storage dangles. -/
def World.reserveSlot (w : World) : World :=
  if w.m_vSchedulingData.length < w.capacity then w
  else { w with allocation := w.allocation + 1,
                capacity := max (w.growth w.m_vSchedulingData.length)
                  (w.m_vSchedulingData.length + 1) }

/-- The slot an address refers to: an address taken in the current storage and inside the
vector reads the slot with its index; any other address dangles. -/
def World.slotAt (w : World) (a : SlotAddress) : Option Nat :=
  if a.allocation = w.allocation ∧ a.index < w.m_vSchedulingData.length then some a.index
  else none

/-- `CFrameSchedulingManager::registerMonitor`.  The timer is created with the address of
the new slot as its callback data (lines 15 and 16). -/
def registerMonitor (w : World) (pMonitor : MonitorPtr) : World :=
  match dataFor w.m_vSchedulingData pMonitor with
  | some _ => w
  | none =>
    let w := w.reserveSlot
    let slot : SlotAddress :=
      { allocation := w.allocation, index := w.m_vSchedulingData.length }
    let DATA : SSchedulingData := { pMonitor := pMonitor }
    let DATA := { DATA with event := { armed := none, data := slot } }
    let DATA := { DATA with
      legacyScheduler := !wlr_backend_is_drm (w.monitors pMonitor).output.backend }
    { w with m_vSchedulingData := w.m_vSchedulingData ++ [DATA] }

/-- `CFrameSchedulingManager::unregisterMonitor`: `std::erase_if` moves the records that
follow an erased one to lower slots of the same storage. -/
def unregisterMonitor (w : World) (pMonitor : MonitorPtr) : World :=
  { w with m_vSchedulingData :=
      w.m_vSchedulingData.filter (fun d => !(d.pMonitor == pMonitor)) }

/-- `CFrameSchedulingManager::registerBuffer`. -/
def registerBuffer (w : World) (pBuffer : BufferPtr) (pMonitor : MonitorPtr) :
    Except Fault World :=
  match RASSERT (dataFor w.m_vSchedulingData pMonitor) with
  | .error e => .error e
  | .ok DATA =>
    if DATA.buffers.contains pBuffer then .ok w
    else .ok (w.storeFor pMonitor { DATA with buffers := DATA.buffers ++ [pBuffer] })

/-- `CFrameSchedulingManager::dropBuffer`. -/
def dropBuffer (w : World) (pBuffer : BufferPtr) : World :=
  let erase := fun (d : SSchedulingData) =>
    { d with buffers := d.buffers.filter (fun b => !(b == pBuffer)) }
  { w with m_vSchedulingData := w.m_vSchedulingData.map erase }

/-! ## Render dispatch -/

/-- Overwrite the monitor object at `pMonitor`. -/
def World.setMonitor (w : World) (pMonitor : MonitorPtr) (m : CMonitor) : World :=
  { w with monitors := Function.update w.monitors pMonitor m }

/-- The outbound call `g_pHyprRenderer->renderMonitor(pMonitor)`: one renderer invocation,
recorded in the log. -/
def World.callRenderer (w : World) (pMonitor : MonitorPtr) : World :=
  { w with renderCalls := w.renderCalls ++ [pMonitor] }

/-- The outbound call `g_pCompositor->leaveUnsafeState()`, recorded in the log. -/
def World.leaveUnsafeState (w : World) : World :=
  { w with leaveUnsafeStateCalls := w.leaveUnsafeStateCalls + 1 }

/-- The session test of `renderMonitor` (line 189): the render must be abandoned. -/
def sessionInactive (C : CCompositor) : Bool :=
  (C.m_sWLRSession == some false) || !C.m_bSessionActive || C.m_bUnsafeState

/-- `CFrameSchedulingManager::renderMonitor(SSchedulingData*)`: returns the world and the
record `data` points to. -/
def renderMonitor (w : World) (data : SSchedulingData) : World × SSchedulingData :=
  let pMonitor := data.pMonitor
  let C := w.g_pCompositor
  if sessionInactive C then
    if C.m_bUnsafeState && C.m_vMonitors.any (fun m =>
        (w.monitors m).output.addr != (w.monitors C.m_pUnsafeOutput).output.addr) then
      (w.leaveUnsafeState, data)
    else (w, data)
  else if !(w.monitors pMonitor).m_bEnabled then (w, data)
  else
    let m := w.monitors pMonitor
    let m := { m with solitaryClient := w.recheckSolitaryForMonitor m }
    let m := { m with tearingState := { m.tearingState with busy := false } }
    if m.tearingState.activelyTearing && m.solitaryClient.isSome then
      if !m.tearingState.frameScheduledWhileBusy then (w.setMonitor pMonitor m, data)
      else
        let m := { m with tearingState := { m.tearingState with nextRenderTorn := true } }
        let m := { m with tearingState :=
          { m.tearingState with frameScheduledWhileBusy := false } }
        ((w.setMonitor pMonitor m).callRenderer pMonitor, { data with rendered := true })
    else
      ((w.setMonitor pMonitor m).callRenderer pMonitor, { data with rendered := true })

/-! ## Present cycle -/

/-- The damage check of `onPresent` (lines 126 to 131). -/
def hasDamage (pMonitor : CMonitor) : Bool :=
  let hasDamage := pixman_region32_not_empty pMonitor.damage.current
  if !hasDamage then
    (List.range WLR_DAMAGE_RING_PREVIOUS_LEN).foldl
      (fun h i => h || pixman_region32_not_empty (pMonitor.damage.previous.getD i []))
      hasDamage
  else hasDamage

/-- The conversion of a `float` to `int`: truncation toward zero. -/
def truncToInt (q : ℚ) : Int := if 0 ≤ q then ⌊q⌋ else ⌈q⌉

/-- The number of halvings that bring `n` below 2, at most `fuel` of them. -/
def log2Aux : Nat → Nat → Nat
  | 0, _ => 0
  | fuel + 1, n => if n < 2 then 0 else log2Aux fuel (n / 2) + 1

/-- The position of the leading bit of a positive `n`. -/
def log2Floor (n : Nat) : Nat := log2Aux n n

/-- The binary exponent of a positive rational `x`: the `t` with `2 ^ t ≤ x < 2 ^ (t + 1)`. -/
def floorLog2 (x : ℚ) : Int :=
  if (2 : ℚ) ^ ((log2Floor x.num.natAbs : Int) - (log2Floor x.den : Int)) ≤ x
  then (log2Floor x.num.natAbs : Int) - (log2Floor x.den : Int)
  else (log2Floor x.num.natAbs : Int) - (log2Floor x.den : Int) - 1

/-- Rounding to the nearest whole number, a tie to the even one. -/
def roundHalfEven (x : ℚ) : Int :=
  if x - ⌊x⌋ < 1 / 2 then ⌊x⌋
  else if 1 / 2 < x - ⌊x⌋ then ⌊x⌋ + 1
  else if ⌊x⌋ % 2 = 0 then ⌊x⌋ else ⌊x⌋ + 1

/-- Rounding to the nearest binary floating-point number with a significand of `p` bits,
ties to even (the IEEE 754 default).  The exponent range is unbounded: overflow and
subnormal numbers are not modelled. -/
def roundBinary (p : Nat) (x : ℚ) : ℚ :=
  if x = 0 then 0
  else (roundHalfEven (x / 2 ^ (floorLog2 |x| - (p - 1))) : ℚ) * 2 ^ (floorLog2 |x| - (p - 1))

/-- The value of type `float` (binary32) nearest to `x`. -/
def toFloat (x : ℚ) : ℚ := roundBinary 24 x

/-- The value of type `double` (binary64) nearest to `x`. -/
def toDouble (x : ℚ) : ℚ := roundBinary 53 x

/-- The duration `LASTVBLANK` of `onPresent` (lines 146 to 149), in nanoseconds:
the monotonic clock minus `presentationData->when`. -/
def LASTVBLANK (w : World) (presentationData : wlr_output_event_present) : Int :=
  w.clockMonotonic.toNanos - presentationData.when.toNanos

/-- The vblank computation of `onPresent` (lines 141 to 156): the local `float
msUntilVblank` and the record with `nextVblank` updated when there is feedback.
With feedback, the period in milliseconds and the difference are computed in `double`
(`/ 1000000.0`, `/ 1000.0`) and the difference is stored in the `float`; the operand of
`int{..}` is a conditional of an `int` and a `float`, hence a `float`.  Without feedback the
whole millisecond count is converted to `float`. -/
def vblankComputation (w : World) (pMonitor : CMonitor)
    (presentationData : Option wlr_output_event_present) (DATA : SSchedulingData) :
    ℚ × SSchedulingData :=
  match presentationData with
  | some pd =>
    let msUntilVblank : ℚ :=
      toFloat (toDouble
        ((if pd.refresh ≠ 0 then toDouble ((pd.refresh : ℚ) / 1000000)
          else toDouble (pMonitor.refreshRate / 1000))
        - toDouble ((Int.tdiv (LASTVBLANK w pd) 1000000 : Int) : ℚ)))
    let period : Int :=
      truncToInt (if pd.refresh ≠ 0 then toFloat (pd.refresh : ℚ)
        else toFloat (toFloat 1000000000 / pMonitor.refreshRate))
    let DATA := { DATA with nextVblank := w.systemClock + LASTVBLANK w pd + period }
    (msUntilVblank, DATA)
  | none =>
    (toFloat ((Int.tdiv (DATA.nextVblank - w.systemClock) 1000000 : Int) : ℚ), DATA)

/-- The timer update of `onPresent` (lines 158 to 161).  The sum `msUntilVblank + 1` is a
`float`; `std::floor` of it is a whole number, which the `int` parameter receives. -/
def armTimer (msUntilVblank : ℚ) (DATA : SSchedulingData) : SSchedulingData :=
  if msUntilVblank > 0 then
    let DATA := { DATA with event := wl_event_source_timer_update DATA.event 0 }
    { DATA with event :=
        wl_event_source_timer_update DATA.event ⌊toFloat (msUntilVblank + 1)⌋ }
  else DATA

/-- The state reset of `onPresent` (lines 115 to 123): `lastPresent.reset()`, then
`delayed = false`, the decrement of a positive `forceFrames`, `rendered = false`,
`gpuReady = false`, `activelyPushing = true`. -/
def stateReset (w : World) (DATA : SSchedulingData) : SSchedulingData :=
  let DATA : SSchedulingData := { DATA with lastPresent := DATA.lastPresent.reset w }
  let DATA : SSchedulingData := { DATA with delayed := false }
  let DATA : SSchedulingData :=
    if DATA.forceFrames > 0 then { DATA with forceFrames := DATA.forceFrames - 1 }
    else DATA
  let DATA : SSchedulingData := { DATA with rendered := false }
  let DATA : SSchedulingData := { DATA with gpuReady := false }
  { DATA with activelyPushing := true }

/-- `CFrameSchedulingManager::onPresent`. -/
def onPresent (w : World) (pMonitor : MonitorPtr)
    (presentationData : Option wlr_output_event_present) : Except Fault World :=
  match RASSERT (dataFor w.m_vSchedulingData pMonitor) with
  | .error e => .error e
  | .ok DATA =>
    if (w.monitors pMonitor).tearingState.activelyTearing || DATA.legacyScheduler then
      .ok (w.storeFor pMonitor { DATA with activelyPushing := false })
    else if DATA.delayedFrameSubmitted then
      .ok (w.storeFor pMonitor { DATA with delayedFrameSubmitted := false })
    else
      let forceFrames : Int := DATA.forceFrames + (w.monitors pMonitor).forceFullFrames
      let DATA : SSchedulingData := stateReset w DATA
      if !hasDamage (w.monitors pMonitor) && decide (forceFrames ≤ 0) then
        .ok (w.storeFor pMonitor { DATA with activelyPushing := false })
      else
        let vb := vblankComputation w (w.monitors pMonitor) presentationData DATA
        let DATA := armTimer vb.1 vb.2
        let r := renderMonitor w DATA
        .ok (r.1.storeFor pMonitor r.2)

/-- The record handed to `renderMonitor` by a present cycle that reaches line 165: the
state reset, the vblank computation and the timer update applied to `DATA`. -/
def cycleRecord (w : World) (pMonitor : MonitorPtr)
    (presentationData : Option wlr_output_event_present) (DATA : SSchedulingData) :
    SSchedulingData :=
  armTimer (vblankComputation w (w.monitors pMonitor) presentationData (stateReset w DATA)).1
    (vblankComputation w (w.monitors pMonitor) presentationData (stateReset w DATA)).2

/-- `CFrameSchedulingManager::onFrameNeeded`. -/
def onFrameNeeded (w : World) (pMonitor : MonitorPtr) : Except Fault World :=
  match RASSERT (dataFor w.m_vSchedulingData pMonitor) with
  | .error e => .error e
  | .ok DATA =>
    if (w.monitors pMonitor).tearingState.activelyTearing || DATA.legacyScheduler then .ok w
    else if DATA.activelyPushing && decide (DATA.lastPresent.getMillis w < 100) then
      if DATA.forceFrames < 1 then
        .ok (w.storeFor pMonitor { DATA with forceFrames := DATA.forceFrames + 1 })
      else .ok w
    else onPresent w pMonitor none

/-- `CFrameSchedulingManager::onFrame`. -/
def onFrame (w : World) (pMonitor : MonitorPtr) : Except Fault World :=
  match RASSERT (dataFor w.m_vSchedulingData pMonitor) with
  | .error e => .error e
  | .ok DATA =>
    if !DATA.legacyScheduler then .ok w
    else
      let r := renderMonitor w DATA
      .ok (r.1.storeFor pMonitor r.2)

/-! ## GPU completion and the vblank timer -/

/-- `CFrameSchedulingManager::gpuDone`. -/
def gpuDone (w : World) (pBuffer : BufferPtr) : Except Fault World :=
  match RASSERT (dataForBuffer w.m_vSchedulingData pBuffer) with
  | .error e => .error e
  | .ok DATA =>
    if !DATA.delayed then .ok w
    else
      let w := w.callRenderer DATA.pMonitor
      .ok (w.storeForBuffer pBuffer { DATA with delayedFrameSubmitted := true })

/-- `CFrameSchedulingManager::onVblankTimer`, on the record `data` points to: the record
afterwards and the returned `int`. -/
def onVblankTimer (DATA : SSchedulingData) : SSchedulingData × Int :=
  if DATA.rendered && DATA.gpuReady then (DATA, 0)
  else if DATA.rendered && !DATA.gpuReady then ({ DATA with delayed := true }, 0)
  else (DATA, 0)

/-- The timer callback `onPresentTimer(void* data)`; `data` is the address of a slot of
the current storage of `m_vSchedulingData`, here its index.  An address outside the vector
is a fault. -/
def onPresentTimer (w : World) (data : Nat) : Except Fault (World × Int) :=
  match w.m_vSchedulingData[data]? with
  | none => .error Fault.invalidPointer
  | some DATA =>
    let r := onVblankTimer DATA
    .ok ({ w with m_vSchedulingData := w.m_vSchedulingData.set data r.1 }, r.2)

/-- Modelled from the spec: the event loop's "timer-fire callback, opaque deadline expiry,
routed to `onVblankTimer`", and "unregistering an output cancels its timer", so that only
timers of stored records expire.  The one-shot timer of the record in slot `slot` expires
only if it is armed; it is disarmed, and `onPresentTimer` runs on the callback data the timer
was created with: the address the record had when it was registered, which is the record
itself only while the vector has neither moved its records nor changed its storage.  A
dangling address is a fault. -/
def timerExpiry (w : World) (slot : Nat) : Except Fault World :=
  match w.m_vSchedulingData[slot]? with
  | none => .ok w
  | some DATA =>
    match DATA.event.armed with
    | none => .ok w
    | some _ =>
      let w := { w with m_vSchedulingData :=
        w.m_vSchedulingData.set slot { DATA with event := { DATA.event with armed := none } } }
      match w.slotAt DATA.event.data with
      | none => .error Fault.invalidPointer
      | some data =>
        match onPresentTimer w data with
        | .error e => .error e
        | .ok r => .ok r.1

/-- `CFrameSchedulingManager::isMonitorUsingLegacyScheduler`. -/
def isMonitorUsingLegacyScheduler (w : World) (pMonitor : MonitorPtr) : Bool :=
  match dataFor w.m_vSchedulingData pMonitor with
  | none => true
  | some DATA => DATA.legacyScheduler

/-! ## Sequences of calls -/

/-- What the collaborators own: monitor objects, compositor state, clocks and the
renderer's solitary recheck. -/
structure Surroundings where
  monitors : MonitorPtr → CMonitor
  g_pCompositor : CCompositor
  clockMonotonic : timespec
  systemClock : Int
  recheckSolitaryForMonitor : CMonitor → Option Nat

/-- The collaborators change their own state; the record store and the logs stay. -/
def World.withSurroundings (w : World) (e : Surroundings) : World :=
  { w with monitors := e.monitors, g_pCompositor := e.g_pCompositor,
           clockMonotonic := e.clockMonotonic, systemClock := e.systemClock,
           recheckSolitaryForMonitor := e.recheckSolitaryForMonitor }

/-- One event seen by the manager: a call of one of its handlers, an expiry of a record's
timer, or a change the collaborators make to their own state between two calls. -/
inductive Call where
  | registerMonitor (pMonitor : MonitorPtr)
  | unregisterMonitor (pMonitor : MonitorPtr)
  | onFrameNeeded (pMonitor : MonitorPtr)
  | onPresent (pMonitor : MonitorPtr) (presentationData : Option wlr_output_event_present)
  | onFrame (pMonitor : MonitorPtr)
  | gpuDone (pBuffer : BufferPtr)
  | registerBuffer (pBuffer : BufferPtr) (pMonitor : MonitorPtr)
  | dropBuffer (pBuffer : BufferPtr)
  | onVblankTimer (data : Nat)
  | timerExpiry (slot : Nat)
  | surroundings (e : Surroundings)

/-- Run one call. -/
def step (w : World) : Call → Except Fault World
  | .registerMonitor p => .ok (registerMonitor w p)
  | .unregisterMonitor p => .ok (unregisterMonitor w p)
  | .onFrameNeeded p => onFrameNeeded w p
  | .onPresent p pd => onPresent w p pd
  | .onFrame p => onFrame w p
  | .gpuDone b => gpuDone w b
  | .registerBuffer b p => registerBuffer w b p
  | .dropBuffer b => .ok (dropBuffer w b)
  | .onVblankTimer data =>
    match onPresentTimer w data with
    | .error e => .error e
    | .ok r => .ok r.1
  | .timerExpiry slot => timerExpiry w slot
  | .surroundings e => .ok (w.withSurroundings e)

/-- Run a sequence of calls; a fault ends the run. -/
def run (w : World) : List Call → Except Fault World
  | [] => .ok w
  | c :: cs =>
    match step w c with
    | .error e => .error e
    | .ok w' => run w' cs

/-! ## Record-level view of the calls

Every handler changes at most one record at a time (`dropBuffer` changes all of them in
the same way, and a timer expiry disarms the timer of one record and runs the callback on
the record its callback data points at).  `RecordStep c d d'` lists, for a call `c`, the
ways in which it can turn a stored record `d` into `d'`, together with the guards under
which it does so; `step_records` and `step_pointwise` below prove that the list is
complete. -/

/-- The record a call of `registerMonitor(pMonitor)` appends to the slot at `slot`. -/
def freshRecord (pMonitor : MonitorPtr) (legacyScheduler : Bool) (slot : SlotAddress) :
    SSchedulingData :=
  { pMonitor := pMonitor, event := { armed := none, data := slot },
    legacyScheduler := legacyScheduler }

/-- What `onPresent(pMonitor, presentationData)` can do to the record of the output. -/
inductive PresentStep (w : World) (p : MonitorPtr) (fb : Option wlr_output_event_present) :
    SSchedulingData → SSchedulingData → Prop where
  | gated (d : SSchedulingData) :
      ((w.monitors p).tearingState.activelyTearing = true ∨ d.legacyScheduler = true) →
      PresentStep w p fb d { d with activelyPushing := false }
  | consume (d : SSchedulingData) :
      d.legacyScheduler = false → d.delayedFrameSubmitted = true →
      PresentStep w p fb d { d with delayedFrameSubmitted := false }
  | skip (d : SSchedulingData) :
      d.legacyScheduler = false → d.delayedFrameSubmitted = false →
      PresentStep w p fb d { stateReset w d with activelyPushing := false }
  | render (d : SSchedulingData) :
      d.legacyScheduler = false → d.delayedFrameSubmitted = false →
      PresentStep w p fb d (renderMonitor w (cycleRecord w p fb d)).2

/-- What a call can do to a stored record. -/
inductive RecordStep : Call → SSchedulingData → SSchedulingData → Prop where
  | needForce (p : MonitorPtr) (d : SSchedulingData) :
      d.legacyScheduler = false → d.activelyPushing = true → d.forceFrames < 1 →
      RecordStep (.onFrameNeeded p) d { d with forceFrames := d.forceFrames + 1 }
  | needPresent (w : World) (p : MonitorPtr) (d n : SSchedulingData) :
      d.legacyScheduler = false → PresentStep w p none d n →
      RecordStep (.onFrameNeeded p) d n
  | present (w : World) (p : MonitorPtr) (fb : Option wlr_output_event_present)
      (d n : SSchedulingData) :
      PresentStep w p fb d n → RecordStep (.onPresent p fb) d n
  | frame (w : World) (p : MonitorPtr) (d : SSchedulingData) :
      d.legacyScheduler = true → RecordStep (.onFrame p) d (renderMonitor w d).2
  | gpu (b : BufferPtr) (d : SSchedulingData) :
      d.delayed = true → RecordStep (.gpuDone b) d { d with delayedFrameSubmitted := true }
  | addBuffer (b : BufferPtr) (p : MonitorPtr) (d : SSchedulingData) :
      d.buffers.contains b = false →
      RecordStep (.registerBuffer b p) d { d with buffers := d.buffers ++ [b] }
  | eraseBuffer (b : BufferPtr) (d : SSchedulingData) :
      RecordStep (.dropBuffer b) d
        { d with buffers := d.buffers.filter (fun x => !(x == b)) }
  | vblank (i : Nat) (d : SSchedulingData) :
      RecordStep (.onVblankTimer i) d (onVblankTimer d).1
  | expire (i : Nat) (d : SSchedulingData) (ms : Int) :
      d.event.armed = some ms →
      RecordStep (.timerExpiry i) d
        (onVblankTimer { d with event := { d.event with armed := none } }).1
  | disarm (i : Nat) (d : SSchedulingData) (ms : Int) :
      d.event.armed = some ms →
      RecordStep (.timerExpiry i) d { d with event := { d.event with armed := none } }
  | fired (i : Nat) (d : SSchedulingData) :
      RecordStep (.timerExpiry i) d (onVblankTimer d).1

/-- The record property "`forceFrames` is 0 or 1". -/
def forceSaturated (d : SSchedulingData) : Prop := d.forceFrames = 0 ∨ d.forceFrames = 1

/-- The record property "a legacy record is not pushing, not delayed, and its timer is
not armed". -/
def legacyQuiet (d : SSchedulingData) : Prop :=
  d.legacyScheduler = true →
    d.activelyPushing = false ∧ d.delayed = false ∧ d.event.armed = none

/-- The call is a direct call of the timer callback, not the expiry of an armed timer. -/
def Call.isDirectTimerCall : Call → Bool
  | .onVblankTimer _ => true
  | _ => false

/-- The call runs the timer callback, directly or as the expiry of a timer. -/
def Call.isTimerCall : Call → Bool
  | .onVblankTimer _ => true
  | .timerExpiry _ => true
  | _ => false

/-- The call is `unregisterMonitor`. -/
def Call.isUnregisterMonitor : Call → Bool
  | .unregisterMonitor _ => true
  | _ => false

/-- The call is `registerMonitor` or `unregisterMonitor`. -/
def Call.isRegistration : Call → Bool
  | .registerMonitor _ => true
  | .unregisterMonitor _ => true
  | _ => false

/-- The call is `onFrame`. -/
def Call.isOnFrame : Call → Bool
  | .onFrame _ => true
  | _ => false

/-- The call is a hotplug call (`registerMonitor`, `unregisterMonitor`) or a change of the
surroundings. -/
def Call.isHotplug : Call → Bool
  | .registerMonitor _ => true
  | .unregisterMonitor _ => true
  | .surroundings _ => true
  | _ => false

/-- Whether output `M` counts as registered after the calls `cs`, when it did (`init`)
before: the kind of the last `registerMonitor`/`unregisterMonitor` call naming `M` decides,
and without such a call nothing changes. -/
def registeredAfter (init : Bool) (cs : List Call) (M : MonitorPtr) : Bool :=
  cs.foldl (fun acc c =>
    match c with
    | .registerMonitor p => if p = M then true else acc
    | .unregisterMonitor p => if p = M then false else acc
    | _ => acc) init

/-- The call is `onPresent` or `onFrameNeeded`, the two handlers that can run the state
reset of a present cycle. -/
def Call.isPresentOrNeeded : Call → Bool
  | .onPresent _ _ => true
  | .onFrameNeeded _ => true
  | _ => false

/-- The condition of C19 under which render dispatch reaches the renderer: the session is
active and safe, the output is enabled, and it is not the case that the output is actively
tearing with a solitary client (as rechecked) while `frameScheduledWhileBusy` is false. -/
def dispatchReachesRenderer (w : World) (data : SSchedulingData) : Bool :=
  let m := w.monitors data.pMonitor
  !sessionInactive w.g_pCompositor && m.m_bEnabled &&
    !(m.tearingState.activelyTearing && (w.recheckSolitaryForMonitor m).isSome &&
      !m.tearingState.frameScheduledWhileBusy)

/-- The local `msUntilVblank` of an `onPresent(pMonitor, presentationData)` that reaches the
vblank computation on the record `DATA`. -/
def msUntilVblank (w : World) (pMonitor : MonitorPtr)
    (presentationData : Option wlr_output_event_present) (DATA : SSchedulingData) : ℚ :=
  (vblankComputation w (w.monitors pMonitor) presentationData (stateReset w DATA)).1

/-- The record property "a legacy record is not pushing". -/
def legacyIdle (d : SSchedulingData) : Prop :=
  d.legacyScheduler = true → d.activelyPushing = false

/-- The callback data of every timer of a stored record is the address of the slot that
holds the record, unless it was taken in an earlier storage of the vector (and dangles). -/
def timersOwnSlots (w : World) : Prop :=
  ∀ (i : Nat) (d : SSchedulingData), w.m_vSchedulingData[i]? = some d →
    d.event.data.allocation ≤ w.allocation ∧
      (d.event.data.allocation = w.allocation → d.event.data.index = i)

/-! ## Example worlds -/

/-- An enabled DRM monitor without damage, tearing or forced frames. -/
def idleMonitor : CMonitor :=
  { output := { addr := 0, backend := .drm },
    tearingState := { activelyTearing := false, busy := false,
                      frameScheduledWhileBusy := false, nextRenderTorn := false },
    solitaryClient := none,
    forceFullFrames := 0,
    damage := { current := [], previous := [[], []] },
    m_bEnabled := true,
    refreshRate := 60 }

/-- A world without records in which every monitor address holds `idleMonitor`, the
session is active, both clocks read 1.005 s, and the vector doubles its capacity when it
grows. -/
def emptyWorld : World :=
  { m_vSchedulingData := [],
    allocation := 0,
    capacity := 0,
    growth := fun size => 2 * size,
    monitors := fun _ => idleMonitor,
    g_pCompositor := { m_sWLRSession := some true, m_bSessionActive := true,
                       m_bUnsafeState := false, m_vMonitors := [1, 2],
                       m_pUnsafeOutput := 0 },
    clockMonotonic := { tv_sec := 1, tv_nsec := 5000000 },
    systemClock := 1005000000,
    recheckSolitaryForMonitor := fun m => m.solitaryClient,
    renderCalls := [],
    leaveUnsafeStateCalls := 0 }

/-- The monitor `idleMonitor` with fresh damage. -/
def damagedMonitor : CMonitor :=
  { idleMonitor with
    damage := { current := [{ x1 := 0, y1 := 0, x2 := 1, y2 := 1 }], previous := [[], []] } }

/-- The monitor `idleMonitor` while it is actively tearing. -/
def tearingMonitor : CMonitor :=
  { idleMonitor with
    tearingState := { idleMonitor.tearingState with activelyTearing := true } }

/-- The surroundings of `emptyWorld` with every monitor address holding `m`. -/
def surroundingsWith (m : CMonitor) : Surroundings :=
  { monitors := fun _ => m,
    g_pCompositor := emptyWorld.g_pCompositor,
    clockMonotonic := emptyWorld.clockMonotonic,
    systemClock := emptyWorld.systemClock,
    recheckSolitaryForMonitor := emptyWorld.recheckSolitaryForMonitor }

/-- Presentation feedback: previous vblank at 1.000 s, refresh period 16667000 ns. -/
def feedback60 : wlr_output_event_present :=
  { when := { tv_sec := 1, tv_nsec := 0 }, refresh := 16667000 }

/-- The store and the renderer log at the end of a run. -/
def observe (r : Except Fault World) : Option (List SSchedulingData × List MonitorPtr) :=
  match r with
  | .ok w => some (w.m_vSchedulingData, w.renderCalls)
  | .error _ => none

/-- A record of output 1 that tracks buffer 7, whose frame was rendered and then missed
its vblank. -/
def delayedRecord : SSchedulingData :=
  { pMonitor := 1, activelyPushing := true, rendered := true, delayed := true, buffers := [7] }

/-- The world `emptyWorld` with the single record `delayedRecord`, in a storage of one
slot. -/
def delayedWorld : World :=
  { emptyWorld with m_vSchedulingData := [delayedRecord], capacity := 1 }

/-- Output 1 renders a damaged frame on a present with feedback, its armed timer expires
before the GPU is ready, the output starts tearing, the GPU completes buffer 7, and the
next present arrives. -/
def tearingRecoveryTrace : List Call :=
  [.registerMonitor 1, .registerBuffer 7 1, .surroundings (surroundingsWith damagedMonitor),
   .onPresent 1 (some feedback60), .timerExpiry 0,
   .surroundings (surroundingsWith tearingMonitor), .gpuDone 7, .onPresent 1 (some feedback60)]

/-- Output 1 renders a damaged frame on a present with feedback, its armed timer expires
before the GPU is ready, the GPU completes buffer 7, the present of the recovery render
arrives, and the GPU completes buffer 7 once more. -/
def repeatedRecoveryTrace : List Call :=
  [.registerMonitor 1, .registerBuffer 7 1, .surroundings (surroundingsWith damagedMonitor),
   .onPresent 1 (some feedback60), .timerExpiry 0, .gpuDone 7,
   .onPresent 1 (some feedback60), .gpuDone 7]

/-- Output 1 starts a present cycle for a damaged frame and is then asked for a frame three
times within the throttle window. -/
def throttledTrace : List Call :=
  [.surroundings (surroundingsWith damagedMonitor), .onPresent 1 (some feedback60),
   .onFrameNeeded 1, .onFrameNeeded 1, .onFrameNeeded 1]

/-- A record of output 1 in the middle of a present cycle started 5 ms ago. -/
def pushingRecord : SSchedulingData :=
  { pMonitor := 1, activelyPushing := true, lastPresent := { m_tpLastReset := 1000000000 },
    rendered := true }

/-- The world `emptyWorld` with the single record `pushingRecord`, in a storage of one
slot. -/
def pushingWorld : World :=
  { emptyWorld with m_vSchedulingData := [pushingRecord], capacity := 1 }

/-- Output 1 renders a damaged frame, its armed timer expires before the GPU is ready, the
GPU completes buffer 7 (recovery render), the damage is gone, and the next present
arrives. -/
def damageFreeRecoveryTrace : List Call :=
  [.registerMonitor 1, .registerBuffer 7 1, .surroundings (surroundingsWith damagedMonitor),
   .onPresent 1 (some feedback60), .timerExpiry 0, .gpuDone 7,
   .surroundings (surroundingsWith idleMonitor), .onPresent 1 (some feedback60)]

/-- The monitor `idleMonitor` on a nested Wayland backend, which has no presentation
feedback. -/
def nestedMonitor : CMonitor :=
  { idleMonitor with output := { addr := 0, backend := .wayland } }

/-- A legacy output 3 is registered with buffer 7 and renders on its frame signal; then the
timer callback is called on its record although its timer was never armed, and the GPU
completes buffer 7. -/
def legacyTimerTrace : List Call :=
  [.surroundings (surroundingsWith nestedMonitor), .registerMonitor 3, .registerBuffer 7 3,
   .onFrame 3, .onVblankTimer 0, .gpuDone 7]

/-- Outputs 1 and 2 are plugged in, 1 is registered a second time, 1 is unplugged twice,
and 2 is registered again. -/
def hotplugTrace : List Call :=
  [.registerMonitor 1, .registerMonitor 2, .registerMonitor 1, .unregisterMonitor 1,
   .unregisterMonitor 1, .registerMonitor 2]

/-- Output 1 is registered and a present with feedback arrives for a damaged frame 5 ms
after the vblank the feedback reports. -/
def feedbackTrace : List Call :=
  [.registerMonitor 1, .surroundings (surroundingsWith damagedMonitor),
   .onPresent 1 (some feedback60)]

/-- Buffer 7 is registered for output 1 and then for output 2; output 2 renders a damaged
frame, its armed timer (slot 1) expires before the GPU is ready, and the GPU completes
buffer 7. -/
def aliasedBufferTrace : List Call :=
  [.registerMonitor 1, .registerMonitor 2, .registerBuffer 7 1, .registerBuffer 7 2,
   .surroundings (surroundingsWith damagedMonitor), .onPresent 2 (some feedback60),
   .timerExpiry 1, .gpuDone 7]

/-- The surroundings 200 ms after those of `emptyWorld`, with damage on every monitor. -/
def laterSurroundings : Surroundings :=
  { surroundingsWith damagedMonitor with
    clockMonotonic := { tv_sec := 1, tv_nsec := 205000000 },
    systemClock := 1205000000 }

/-- Output 1 starts a present cycle for a damaged frame; 200 ms pass without a present
event; then a frame is requested. -/
def staleCycleTrace : List Call :=
  [.registerMonitor 1, .surroundings (surroundingsWith damagedMonitor), .onFrameNeeded 1,
   .surroundings laterSurroundings, .onFrameNeeded 1]

/-- The surroundings of `emptyWorld` after the session has been switched away
(`m_bSessionActive = false`). -/
def suspendedSurroundings : Surroundings :=
  { surroundingsWith idleMonitor with
    g_pCompositor := { emptyWorld.g_pCompositor with m_bSessionActive := false } }

/-- Output 1 renders a damaged frame, its armed timer expires before the GPU is ready, the
session is switched away, and the GPU completes buffer 7. -/
def suspendedRecoveryTrace : List Call :=
  [.registerMonitor 1, .registerBuffer 7 1, .surroundings (surroundingsWith damagedMonitor),
   .onPresent 1 (some feedback60), .timerExpiry 0, .surroundings suspendedSurroundings,
   .gpuDone 7]

/-- A monitor that is actively tearing for the solitary client 5, with a frame scheduled
while it was busy. -/
def tornMonitor : CMonitor :=
  { idleMonitor with
    tearingState := { activelyTearing := true, busy := true,
                      frameScheduledWhileBusy := true, nextRenderTorn := false },
    solitaryClient := some 5 }

/-- The world `emptyWorld` with the monitor `tornMonitor` at every address. -/
def tornWorld : World := emptyWorld.withSurroundings (surroundingsWith tornMonitor)

/-- Presentation feedback that reports no refresh period: previous vblank at 1.000 s,
`refresh = 0`. -/
def unreportedFeedback : wlr_output_event_present :=
  { when := { tv_sec := 1, tv_nsec := 0 }, refresh := 0 }

/-- The surroundings of `emptyWorld` with output 5 on a nested backend and every other
monitor address holding `damagedMonitor`. -/
def mixedSurroundings : Surroundings :=
  { surroundingsWith damagedMonitor with
    monitors := fun p => if p = 5 then nestedMonitor else damagedMonitor }

/-- Outputs 1, 2 and 3 are registered and output 2 is unplugged, which moves the record of
output 3 from slot 2 to slot 1; the legacy output 5 is registered into slot 2 with buffer 7
and renders on its frame signal; output 3 renders a damaged frame on a present with
feedback, its armed timer (slot 1) expires, and the GPU completes buffer 7. -/
def staleTimerTrace : List Call :=
  [.surroundings mixedSurroundings, .registerMonitor 1, .registerMonitor 2,
   .registerMonitor 3, .unregisterMonitor 2, .registerMonitor 5, .registerBuffer 7 5,
   .onFrame 5, .onPresent 3 (some feedback60), .timerExpiry 1, .gpuDone 7]

/-- The legacy output 5 is registered before output 1, with buffer 7, and renders on its
frame signal; output 1 renders a damaged frame on a present with feedback, its armed timer
(slot 1, created after the vector took its second storage) expires before the GPU is
ready, and the GPU completes buffer 7. -/
def legacyFirstTrace : List Call :=
  [.surroundings mixedSurroundings, .registerMonitor 5, .registerMonitor 1,
   .registerBuffer 7 5, .onFrame 5, .onPresent 1 (some feedback60), .timerExpiry 1,
   .gpuDone 7]

/-- The world after `registerMonitor(1)` and `registerMonitor(2)`. -/
def twoOutputs : World := registerMonitor (registerMonitor emptyWorld 1) 2

/-- The world `twoOutputs` with fresh damage on every monitor. -/
def damagedWorld : World := twoOutputs.withSurroundings (surroundingsWith damagedMonitor)

/-- The record of output 1 in `twoOutputs` and `damagedWorld`: the fresh record of the
first registration, whose timer holds the address of slot 0 of the first storage. -/
def firstRecord : SSchedulingData := freshRecord 1 false { allocation := 1, index := 0 }

/-- The `msUntilVblank` of a present with `feedback60` for the record of output 1 in
`damagedWorld`. -/
def feedbackMs : ℚ := msUntilVblank damagedWorld 1 (some feedback60) firstRecord

/-- Presentation feedback: previous vblank at 1.005 s, the time of the clocks of
`emptyWorld`, refresh period 33999999 ns. -/
def feedback34 : wlr_output_event_present :=
  { when := { tv_sec := 1, tv_nsec := 5000000 }, refresh := 33999999 }


/-! ## Lemmas on lookup and write-back -/

theorem reserveSlot_store (w : World) :
    w.reserveSlot.m_vSchedulingData = w.m_vSchedulingData := by
  unfold World.reserveSlot
  split_ifs <;> rfl

theorem reserveSlot_monitors (w : World) : w.reserveSlot.monitors = w.monitors := by
  unfold World.reserveSlot
  split_ifs <;> rfl

theorem reserveSlot_renderCalls (w : World) : w.reserveSlot.renderCalls = w.renderCalls := by
  unfold World.reserveSlot
  split_ifs <;> rfl

theorem reserveSlot_allocation (w : World) : w.allocation ≤ w.reserveSlot.allocation := by
  unfold World.reserveSlot
  split_ifs
  · exact le_rfl
  · exact Nat.le_succ _

theorem find?_cons_ite {α : Type} (p : α → Bool) (a : α) (as : List α) :
    (a :: as).find? p = if p a = true then some a else as.find? p := by
  cases h : p a <;> simp [List.find?_cons, h]

theorem replaceFirst_cons (sel : SSchedulingData → Bool) (d' a : SSchedulingData)
    (as : List SSchedulingData) :
    replaceFirst sel d' (a :: as) =
      if sel a = true then d' :: as else a :: replaceFirst sel d' as := rfl

theorem mem_replaceFirst {sel : SSchedulingData → Bool} {d' x : SSchedulingData}
    {s : List SSchedulingData} (h : x ∈ replaceFirst sel d' s) : x ∈ s ∨ x = d' := by
  induction s with
  | nil => simp [replaceFirst] at h
  | cons a as ih =>
    rw [replaceFirst_cons] at h
    split at h
    · rcases List.mem_cons.1 h with h | h
      · exact Or.inr h
      · exact Or.inl (List.mem_cons_of_mem _ h)
    · rcases List.mem_cons.1 h with h | h
      · exact Or.inl (h ▸ List.mem_cons_self _ _)
      · rcases ih h with h | h
        · exact Or.inl (List.mem_cons_of_mem _ h)
        · exact Or.inr h

theorem replaceFirst_found {sel : SSchedulingData → Bool} {d : SSchedulingData}
    {s : List SSchedulingData} (h : s.find? sel = some d) : replaceFirst sel d s = s := by
  induction s with
  | nil => rfl
  | cons a as ih =>
    rw [replaceFirst_cons]
    rw [find?_cons_ite] at h
    by_cases ha : sel a = true
    · rw [if_pos ha] at h ⊢
      rw [Option.some.inj h]
    · rw [if_neg ha] at h ⊢
      rw [ih h]

theorem replaceFirst_absent {sel : SSchedulingData → Bool} {d' : SSchedulingData}
    {s : List SSchedulingData} (h : s.find? sel = none) : replaceFirst sel d' s = s := by
  induction s with
  | nil => rfl
  | cons a as ih =>
    rw [replaceFirst_cons]
    rw [find?_cons_ite] at h
    by_cases ha : sel a = true
    · rw [if_pos ha] at h
      exact absurd h (by simp)
    · rw [if_neg ha] at h ⊢
      rw [ih h]

theorem map_pMonitor_replaceFirst {sel : SSchedulingData → Bool} {d' : SSchedulingData}
    {s : List SSchedulingData} (h : ∀ d ∈ s, sel d = true → d.pMonitor = d'.pMonitor) :
    (replaceFirst sel d' s).map (fun d => d.pMonitor) = s.map (fun d => d.pMonitor) := by
  induction s with
  | nil => rfl
  | cons a as ih =>
    rw [replaceFirst_cons]
    by_cases ha : sel a = true
    · rw [if_pos ha]
      simp [h a (List.mem_cons_self _ _) ha]
    · rw [if_neg ha]
      simp only [List.map_cons]
      rw [ih (fun d hd => h d (List.mem_cons_of_mem _ hd))]

theorem dataFor_cons (a : SSchedulingData) (as : List SSchedulingData) (p : MonitorPtr) :
    dataFor (a :: as) p = if a.pMonitor = p then some a else dataFor as p := by
  unfold dataFor
  rw [find?_cons_ite]
  simp

theorem dataForBuffer_cons (a : SSchedulingData) (as : List SSchedulingData) (b : BufferPtr) :
    dataForBuffer (a :: as) b = if b ∈ a.buffers then some a else dataForBuffer as b := by
  unfold dataForBuffer
  rw [find?_cons_ite]
  simp

theorem replaceFor_cons (p : MonitorPtr) (d' a : SSchedulingData) (as : List SSchedulingData) :
    replaceFirst (fun x => x.pMonitor == p) d' (a :: as) =
      if a.pMonitor = p then d' :: as
      else a :: replaceFirst (fun x => x.pMonitor == p) d' as := by
  rw [replaceFirst_cons]
  simp

theorem dataFor_replaceFirst_self {p : MonitorPtr} {d d' : SSchedulingData}
    {s : List SSchedulingData} (h : dataFor s p = some d) (hp : d'.pMonitor = p) :
    dataFor (replaceFirst (fun x => x.pMonitor == p) d' s) p = some d' := by
  induction s with
  | nil => simp [dataFor] at h
  | cons a as ih =>
    rw [replaceFor_cons]
    rw [dataFor_cons] at h
    by_cases ha : a.pMonitor = p
    · rw [if_pos ha, dataFor_cons, if_pos hp]
    · rw [if_neg ha] at h ⊢
      rw [dataFor_cons, if_neg ha]
      exact ih h

theorem dataFor_replaceFirst_other {p q : MonitorPtr} {d' : SSchedulingData}
    {s : List SSchedulingData} (hq : q ≠ p) (hp : d'.pMonitor = p) :
    dataFor (replaceFirst (fun x => x.pMonitor == p) d' s) q = dataFor s q := by
  induction s with
  | nil => rfl
  | cons a as ih =>
    rw [replaceFor_cons]
    by_cases ha : a.pMonitor = p
    · have h1 : ¬ a.pMonitor = q := fun h => hq (h ▸ ha ▸ rfl)
      have h2 : ¬ d'.pMonitor = q := fun h => hq (h ▸ hp ▸ rfl)
      rw [if_pos ha, dataFor_cons, dataFor_cons, if_neg h1, if_neg h2]
    · rw [if_neg ha, dataFor_cons, dataFor_cons, ih]

theorem dataFor_pMonitor {p : MonitorPtr} {d : SSchedulingData} {s : List SSchedulingData}
    (h : dataFor s p = some d) : d.pMonitor = p := by
  have := List.find?_some h
  simpa using this

theorem dataFor_mem {p : MonitorPtr} {d : SSchedulingData} {s : List SSchedulingData}
    (h : dataFor s p = some d) : d ∈ s := List.mem_of_find?_eq_some h

theorem dataForBuffer_mem {b : BufferPtr} {d : SSchedulingData} {s : List SSchedulingData}
    (h : dataForBuffer s b = some d) : d ∈ s := List.mem_of_find?_eq_some h

theorem dataForBuffer_holds {b : BufferPtr} {d : SSchedulingData} {s : List SSchedulingData}
    (h : dataForBuffer s b = some d) : b ∈ d.buffers := by
  have := List.find?_some h
  simpa using this

/-- The lookup by buffer never returns a record placed after another holder of the buffer. -/
theorem dataForBuffer_not_later {s : List SSchedulingData} {A B : MonitorPtr} {b : BufferPtr}
    {dA r : SSchedulingData} (hA : dataFor s A = some dA) (hb : b ∈ dA.buffers)
    (hlt : (s.map (fun d => d.pMonitor)).indexOf A < (s.map (fun d => d.pMonitor)).indexOf B)
    (hr : dataForBuffer s b = some r) : r.pMonitor ≠ B := by
  induction s with
  | nil => simp [dataFor] at hA
  | cons a as ih =>
    rw [dataFor_cons] at hA
    rw [dataForBuffer_cons] at hr
    simp only [List.map_cons, List.indexOf_cons] at hlt
    by_cases ha : a.pMonitor = A
    · rw [if_pos ha] at hA
      have : a = dA := Option.some.inj hA
      subst this
      rw [if_pos hb] at hr
      have : a = r := Option.some.inj hr
      subst this
      intro hB
      rw [ha] at hB
      subst hB
      simp [ha] at hlt
    · rw [if_neg ha] at hA
      by_cases hB : a.pMonitor = B
      · simp [hB] at hlt
      · have h1 : (a.pMonitor == A) = false := beq_false_of_ne ha
        have h2 : (a.pMonitor == B) = false := beq_false_of_ne hB
        rw [h1, h2] at hlt
        simp only [cond_false, Nat.add_lt_add_iff_right] at hlt
        by_cases hab : b ∈ a.buffers
        · rw [if_pos hab] at hr
          have : a = r := Option.some.inj hr
          subst this
          exact hB
        · rw [if_neg hab] at hr
          exact ih hA hlt hr


theorem registerBuffer_ok {w : World} {b : BufferPtr} {p : MonitorPtr} {d : SSchedulingData}
    (h : dataFor w.m_vSchedulingData p = some d) :
    ∃ w1 d1, registerBuffer w b p = .ok w1 ∧ dataFor w1.m_vSchedulingData p = some d1 ∧
      b ∈ d1.buffers ∧
      (∀ q, q ≠ p → dataFor w1.m_vSchedulingData q = dataFor w.m_vSchedulingData q) ∧
      w1.m_vSchedulingData.map (fun d => d.pMonitor) =
        w.m_vSchedulingData.map (fun d => d.pMonitor) := by
  unfold registerBuffer
  rw [h]
  simp only [RASSERT]
  by_cases hc : d.buffers.contains b = true
  · rw [if_pos hc]
    exact ⟨w, d, rfl, h, by simpa using hc, fun _ _ => rfl, rfl⟩
  · rw [if_neg hc]
    refine ⟨_, { d with buffers := d.buffers ++ [b] }, rfl, ?_, by simp, ?_, ?_⟩
    · exact dataFor_replaceFirst_self h (dataFor_pMonitor (d := d) h)
    · intro q hq
      exact dataFor_replaceFirst_other hq (dataFor_pMonitor (d := d) h)
    · apply map_pMonitor_replaceFirst
      intro x _ hx
      have : x.pMonitor = p := by simpa using hx
      rw [this]
      exact (dataFor_pMonitor h).symm

/-! ## C1: one buffer registered for two outputs -/

/-- C1 (as amended): `registerBuffer(b, A)` followed by `registerBuffer(b, B)` for two
distinct registered outputs both succeed and leave `b` in the buffers list of A's record and
of B's record; the lookup by buffer `dataFor(wlr_buffer*)` returns a record holding `b`, and
when A's record comes before B's in the store it is not B's record. -/
theorem C1_registerBuffer_two_outputs (w : World) (A B : MonitorPtr) (b : BufferPtr)
    (dA dB : SSchedulingData)
    (hA : dataFor w.m_vSchedulingData A = some dA)
    (hB : dataFor w.m_vSchedulingData B = some dB) (hAB : A ≠ B) :
    ∃ w1 w2 rA rB r, registerBuffer w b A = .ok w1 ∧ registerBuffer w1 b B = .ok w2 ∧
      dataFor w2.m_vSchedulingData A = some rA ∧ b ∈ rA.buffers ∧
      dataFor w2.m_vSchedulingData B = some rB ∧ b ∈ rB.buffers ∧
      dataForBuffer w2.m_vSchedulingData b = some r ∧ b ∈ r.buffers ∧
      ((w.m_vSchedulingData.map (fun d => d.pMonitor)).indexOf A <
          (w.m_vSchedulingData.map (fun d => d.pMonitor)).indexOf B → r.pMonitor ≠ B) := by
  obtain ⟨w1, rA, h1, hA1, hbA, hoth1, hmap1⟩ := registerBuffer_ok (b := b) hA
  have hB1 : dataFor w1.m_vSchedulingData B = some dB := by
    rw [hoth1 B (Ne.symm hAB)]; exact hB
  obtain ⟨w2, rB, h2, hB2, hbB, hoth2, hmap2⟩ := registerBuffer_ok (b := b) hB1
  have hA2 : dataFor w2.m_vSchedulingData A = some rA := by
    rw [hoth2 A hAB]; exact hA1
  cases hr : dataForBuffer w2.m_vSchedulingData b with
  | none =>
    have hnone := List.find?_eq_none.1 hr rA (dataFor_mem hA2)
    exact absurd (by simpa using hbA) hnone
  | some r =>
    refine ⟨w1, w2, rA, rB, r, h1, h2, hA2, hbA, hB2, hbB, hr, dataForBuffer_holds hr, ?_⟩
    intro hlt
    rw [← hmap1, ← hmap2] at hlt
    exact dataForBuffer_not_later hA2 hbA hlt hr

/-- C1, witness: outputs 1 and 2 registered in this order, buffer 7. -/
theorem C1_registerBuffer_two_outputs_witness :
    ∃ w1 w2 rA rB r, registerBuffer twoOutputs 7 1 = .ok w1 ∧ registerBuffer w1 7 2 = .ok w2 ∧
      dataFor w2.m_vSchedulingData 1 = some rA ∧ 7 ∈ rA.buffers ∧
      dataFor w2.m_vSchedulingData 2 = some rB ∧ 7 ∈ rB.buffers ∧
      dataForBuffer w2.m_vSchedulingData 7 = some r ∧ 7 ∈ r.buffers ∧
      ((twoOutputs.m_vSchedulingData.map (fun d => d.pMonitor)).indexOf 1 <
          (twoOutputs.m_vSchedulingData.map (fun d => d.pMonitor)).indexOf 2 →
        r.pMonitor ≠ 2) :=
  C1_registerBuffer_two_outputs twoOutputs 1 2 7
    (freshRecord 1 false { allocation := 1, index := 0 })
    (freshRecord 2 false { allocation := 2, index := 1 })
    (by decide) (by decide) (by decide)

/-- C1, counterexample: with output 1 registered before output 2, after
`registerBuffer(7, 1)` and `registerBuffer(7, 2)` buffer 7 is in the buffers list of both
records and the lookup by buffer returns the record of output 1, not of output 2. -/
theorem C1_counterexample :
    ∃ w1 w2, registerBuffer twoOutputs 7 1 = .ok w1 ∧ registerBuffer w1 7 2 = .ok w2 ∧
      (w2.m_vSchedulingData.filter (fun d => d.buffers.contains 7)).length = 2 ∧
      (dataForBuffer w2.m_vSchedulingData 7).map (fun d => d.pMonitor) = some 1 :=
  ⟨_, _, rfl, rfl, by decide, by decide⟩


theorem dataFor_replaceFirst_buffer {s : List SSchedulingData} {p : MonitorPtr} {b : BufferPtr}
    {d n : SSchedulingData} (hp : dataFor s p = some d) (hb : dataForBuffer s b = some d)
    (hd : n.pMonitor = p) :
    dataFor (replaceFirst (fun x => x.buffers.contains b) n s) p = some n := by
  induction s with
  | nil => simp [dataFor] at hp
  | cons a as ih =>
    rw [dataFor_cons] at hp
    rw [dataForBuffer_cons] at hb
    rw [replaceFirst_cons]
    by_cases ha : a.pMonitor = p
    · rw [if_pos ha] at hp
      have hda : a = d := Option.some.inj hp
      subst hda
      by_cases hab : b ∈ a.buffers
      · have : a.buffers.contains b = true := by simpa using hab
        rw [if_pos this, dataFor_cons, if_pos hd]
      · rw [if_neg hab] at hb
        exact absurd (dataForBuffer_holds hb) hab
    · rw [if_neg ha] at hp
      by_cases hab : b ∈ a.buffers
      · rw [if_pos hab] at hb
        have hda : a = d := Option.some.inj hb
        subst hda
        exact absurd (dataFor_pMonitor hp) ha
      · rw [if_neg hab] at hb
        have : ¬ a.buffers.contains b = true := by simpa using hab
        rw [if_neg this, dataFor_cons, if_neg ha]
        exact ih hp hb

theorem gpuDone_delayed {w : World} {b : BufferPtr} {d : SSchedulingData}
    (hb : dataForBuffer w.m_vSchedulingData b = some d) (hd : d.delayed = true) :
    gpuDone w b = .ok ((w.callRenderer d.pMonitor).storeForBuffer b
      { d with delayedFrameSubmitted := true }) := by
  unfold gpuDone
  rw [hb]
  simp [RASSERT, hd]

theorem onPresent_gated {w : World} {p : MonitorPtr} {d : SSchedulingData}
    (fb : Option wlr_output_event_present)
    (hp : dataFor w.m_vSchedulingData p = some d)
    (hg : (w.monitors p).tearingState.activelyTearing = true ∨ d.legacyScheduler = true) :
    onPresent w p fb = .ok (w.storeFor p { d with activelyPushing := false }) := by
  unfold onPresent
  rw [hp]
  simp only [RASSERT]
  rw [if_pos (by simpa using hg)]

theorem onPresent_consumes {w : World} {p : MonitorPtr} {d : SSchedulingData}
    (fb : Option wlr_output_event_present)
    (hp : dataFor w.m_vSchedulingData p = some d)
    (ht : (w.monitors p).tearingState.activelyTearing = false)
    (hl : d.legacyScheduler = false) (hs : d.delayedFrameSubmitted = true) :
    onPresent w p fb = .ok (w.storeFor p { d with delayedFrameSubmitted := false }) := by
  unfold onPresent
  rw [hp]
  simp only [RASSERT]
  rw [if_neg (by simp [ht, hl]), if_pos hs]

theorem dataFor_storeFor {w : World} {p : MonitorPtr} {d n : SSchedulingData}
    (hp : dataFor w.m_vSchedulingData p = some d) (hd : n.pMonitor = p) :
    dataFor (w.storeFor p n).m_vSchedulingData p = some n :=
  dataFor_replaceFirst_self hp hd

/-! ## C2: delayed-frame recovery -/

/-- C2 (as amended): on a record with `rendered = true` and `gpuReady = false`
`onVblankTimer` sets `delayed = true`, changes nothing else and returns 0; for a record
with `delayed = true` that the lookup by buffer resolves `b` to, `gpuDone(b)` performs
exactly one renderer invocation, for that record's output, and sets `delayedFrameSubmitted`;
the next `onPresent` for that output, whatever the collaborators did in between, performs
no renderer invocation; it clears `delayedFrameSubmitted` when the output is not actively
tearing and the record is not legacy, and otherwise leaves it set and clears
`activelyPushing`. -/
theorem C2_delayed_frame_recovery :
    (∀ DATA : SSchedulingData, DATA.rendered = true → DATA.gpuReady = false →
      onVblankTimer DATA = ({ DATA with delayed := true }, 0)) ∧
    (∀ (w : World) (b : BufferPtr) (p : MonitorPtr) (DATA : SSchedulingData)
      (e : Surroundings) (fb : Option wlr_output_event_present),
      dataForBuffer w.m_vSchedulingData b = some DATA →
      dataFor w.m_vSchedulingData p = some DATA → DATA.delayed = true →
      ∃ w2 w3, gpuDone w b = .ok w2 ∧ w2.renderCalls = w.renderCalls ++ [p] ∧
        dataFor w2.m_vSchedulingData p = some { DATA with delayedFrameSubmitted := true } ∧
        onPresent (w2.withSurroundings e) p fb = .ok w3 ∧
        w3.renderCalls = w2.renderCalls ∧
        (((e.monitors p).tearingState.activelyTearing = false ∧
            DATA.legacyScheduler = false) →
          dataFor w3.m_vSchedulingData p =
            some { DATA with delayedFrameSubmitted := false }) ∧
        (((e.monitors p).tearingState.activelyTearing = true ∨
            DATA.legacyScheduler = true) →
          dataFor w3.m_vSchedulingData p =
            some { DATA with delayedFrameSubmitted := true, activelyPushing := false })) := by
  constructor
  · intro DATA hr hg
    simp [onVblankTimer, hr, hg]
  · intro w b p DATA e fb hb hp hd
    have hpm : DATA.pMonitor = p := dataFor_pMonitor hp
    have h2 : dataFor ((w.callRenderer DATA.pMonitor).storeForBuffer b
        { DATA with delayedFrameSubmitted := true }).m_vSchedulingData p =
        some { DATA with delayedFrameSubmitted := true } :=
      dataFor_replaceFirst_buffer hp hb hpm
    have hr : ((w.callRenderer DATA.pMonitor).storeForBuffer b
        { DATA with delayedFrameSubmitted := true }).renderCalls = w.renderCalls ++ [p] := by
      simp [World.storeForBuffer, World.callRenderer, hpm]
    by_cases hg : (e.monitors p).tearingState.activelyTearing = true ∨ DATA.legacyScheduler = true
    · refine ⟨_, _, gpuDone_delayed hb hd, hr, h2,
        onPresent_gated fb (w := World.withSurroundings _ e) h2 hg, rfl, ?_, ?_⟩
      · rintro ⟨ht, hl⟩
        rcases hg with hg | hg
        · rw [ht] at hg; exact absurd hg (by decide)
        · rw [hl] at hg; exact absurd hg (by decide)
      · intro _
        exact dataFor_storeFor (w := World.withSurroundings _ e) h2 hpm
    · have ht : (e.monitors p).tearingState.activelyTearing = false := by
        cases h : (e.monitors p).tearingState.activelyTearing
        · rfl
        · exact absurd (Or.inl h) hg
      have hl : DATA.legacyScheduler = false := by
        cases h : DATA.legacyScheduler
        · rfl
        · exact absurd (Or.inr h) hg
      refine ⟨_, _, gpuDone_delayed hb hd, hr, h2,
        onPresent_consumes fb (w := World.withSurroundings _ e) h2 ht hl rfl, rfl, ?_, ?_⟩
      · intro _
        exact dataFor_storeFor (w := World.withSurroundings _ e) h2 hpm
      · intro h
        exact absurd h hg


/-- C2, witness: the record `delayedRecord` of output 1 with buffer 7. -/
theorem C2_delayed_frame_recovery_witness :
    onVblankTimer { pMonitor := 1, rendered := true } =
      ({ pMonitor := 1, rendered := true, delayed := true }, 0) ∧
    ∃ w2 w3, gpuDone delayedWorld 7 = .ok w2 ∧ w2.renderCalls = delayedWorld.renderCalls ++ [1] ∧
      dataFor w2.m_vSchedulingData 1 =
        some { delayedRecord with delayedFrameSubmitted := true } ∧
      onPresent (w2.withSurroundings (surroundingsWith idleMonitor)) 1 none = .ok w3 ∧
      w3.renderCalls = w2.renderCalls ∧
      ((((surroundingsWith idleMonitor).monitors 1).tearingState.activelyTearing = false ∧
          delayedRecord.legacyScheduler = false) →
        dataFor w3.m_vSchedulingData 1 =
          some { delayedRecord with delayedFrameSubmitted := false }) ∧
      ((((surroundingsWith idleMonitor).monitors 1).tearingState.activelyTearing = true ∨
          delayedRecord.legacyScheduler = true) →
        dataFor w3.m_vSchedulingData 1 =
          some { delayedRecord with delayedFrameSubmitted := true, activelyPushing := false }) :=
  ⟨C2_delayed_frame_recovery.1 { pMonitor := 1, rendered := true } rfl rfl,
   C2_delayed_frame_recovery.2 delayedWorld 7 1 delayedRecord (surroundingsWith idleMonitor) none
     (by decide) (by decide) (by decide)⟩

/-- C2, counterexample: in `tearingRecoveryTrace` the record of output 1 has
`rendered = true`, `gpuReady = false` when its timer expires; `gpuDone(7)` then renders and
sets `delayedFrameSubmitted`, and the next `onPresent`, arriving while the output is
actively tearing, returns with `delayedFrameSubmitted` still set.  In `aliasedBufferTrace`
the delayed record of output 2 tracks buffer 7, but `gpuDone(7)` resolves to the record of
output 1 and performs no renderer invocation. -/
theorem C2_counterexample :
    (observe (run emptyWorld (tearingRecoveryTrace.take 4))).map
        (fun r => (r.1.map (fun d => (d.rendered, d.gpuReady, d.delayed)), r.2)) =
      some ([(true, false, false)], [1]) ∧
    (observe (run emptyWorld (tearingRecoveryTrace.take 7))).map
        (fun r => (r.1.map (fun d => (d.delayed, d.delayedFrameSubmitted)), r.2)) =
      some ([(true, true)], [1, 1]) ∧
    (observe (run emptyWorld tearingRecoveryTrace)).map
        (fun r => (r.1.map (fun d => d.delayedFrameSubmitted), r.2)) =
      some ([true], [1, 1]) ∧
    (observe (run emptyWorld (aliasedBufferTrace.take 7))).map
        (fun r => (r.1.map (fun d => (d.delayed, d.buffers)), r.2)) =
      some ([(false, [7]), (true, [7])], [2]) ∧
    (observe (run emptyWorld aliasedBufferTrace)).map
        (fun r => (r.1.map (fun d => (d.delayed, d.delayedFrameSubmitted)), r.2)) =
      some ([(false, false), (true, false)], [2]) := by
  refine ⟨by decide!, by decide!, by decide!, by decide!, by decide!⟩

/-! ## Lemmas on the handlers -/

/-- A write through the pointer found by one lookup is seen by another lookup that found
the same record. -/
theorem find?_replaceFirst {sel1 sel2 : SSchedulingData → Bool} {d n : SSchedulingData}
    {s : List SSchedulingData} (h1 : s.find? sel1 = some d) (h2 : s.find? sel2 = some d)
    (hd : sel2 n = true) : (replaceFirst sel1 n s).find? sel2 = some n := by
  induction s with
  | nil => simp at h1
  | cons a as ih =>
    rw [replaceFirst_cons]
    rw [find?_cons_ite] at h1 h2
    by_cases ha1 : sel1 a = true
    · rw [if_pos ha1, find?_cons_ite, if_pos hd]
    · rw [if_neg ha1] at h1 ⊢
      by_cases ha2 : sel2 a = true
      · rw [if_pos ha2] at h2
        have hda : a = d := Option.some.inj h2
        subst hda
        exact absurd (List.find?_some h1) ha1
      · rw [if_neg ha2] at h2
        rw [find?_cons_ite, if_neg ha2]
        exact ih h1 h2

theorem dataForBuffer_storeForBuffer {w : World} {b : BufferPtr} {d n : SSchedulingData}
    (hb : dataForBuffer w.m_vSchedulingData b = some d) (hd : b ∈ n.buffers) :
    dataForBuffer (w.storeForBuffer b n).m_vSchedulingData b = some n :=
  find?_replaceFirst hb hb (by simpa using hd)

theorem dataForBuffer_storeFor {w : World} {b : BufferPtr} {p : MonitorPtr}
    {d n : SSchedulingData} (hp : dataFor w.m_vSchedulingData p = some d)
    (hb : dataForBuffer w.m_vSchedulingData b = some d) (hd : b ∈ n.buffers) :
    dataForBuffer (w.storeFor p n).m_vSchedulingData b = some n :=
  find?_replaceFirst hp hb (by simpa using hd)

theorem renderMonitor_store (w : World) (d : SSchedulingData) :
    (renderMonitor w d).1.m_vSchedulingData = w.m_vSchedulingData := by
  unfold renderMonitor
  simp only
  split_ifs <;> rfl

/-- `renderMonitor` either leaves the record and the renderer log alone, or invokes the
renderer once for the record's output and sets `rendered`. -/
theorem renderMonitor_cases (w : World) (d : SSchedulingData) :
    ((renderMonitor w d).1.renderCalls = w.renderCalls ∧ (renderMonitor w d).2 = d) ∨
    ((renderMonitor w d).1.renderCalls = w.renderCalls ++ [d.pMonitor] ∧
      (renderMonitor w d).2 = { d with rendered := true }) := by
  unfold renderMonitor
  simp only
  split_ifs
  · exact Or.inl ⟨rfl, rfl⟩
  · exact Or.inl ⟨rfl, rfl⟩
  · exact Or.inl ⟨rfl, rfl⟩
  · exact Or.inl ⟨rfl, rfl⟩
  · exact Or.inr ⟨rfl, rfl⟩
  · exact Or.inr ⟨rfl, rfl⟩

theorem armTimer_fields (ms : ℚ) (d : SSchedulingData) :
    (armTimer ms d).pMonitor = d.pMonitor ∧ (armTimer ms d).delayed = d.delayed ∧
    (armTimer ms d).forceFrames = d.forceFrames ∧
    (armTimer ms d).legacyScheduler = d.legacyScheduler ∧
    (armTimer ms d).buffers = d.buffers ∧
    (armTimer ms d).delayedFrameSubmitted = d.delayedFrameSubmitted ∧
    (armTimer ms d).activelyPushing = d.activelyPushing ∧
    (armTimer ms d).gpuReady = d.gpuReady := by
  unfold armTimer
  split_ifs <;> simp

theorem vblankComputation_fields (w : World) (m : CMonitor)
    (fb : Option wlr_output_event_present) (d : SSchedulingData) :
    (vblankComputation w m fb d).2.pMonitor = d.pMonitor ∧
    (vblankComputation w m fb d).2.delayed = d.delayed ∧
    (vblankComputation w m fb d).2.forceFrames = d.forceFrames ∧
    (vblankComputation w m fb d).2.legacyScheduler = d.legacyScheduler ∧
    (vblankComputation w m fb d).2.buffers = d.buffers ∧
    (vblankComputation w m fb d).2.delayedFrameSubmitted = d.delayedFrameSubmitted ∧
    (vblankComputation w m fb d).2.activelyPushing = d.activelyPushing ∧
    (vblankComputation w m fb d).2.gpuReady = d.gpuReady ∧
    (vblankComputation w m fb d).2.event = d.event := by
  unfold vblankComputation
  cases fb <;> simp

theorem stateReset_fields (w : World) (d : SSchedulingData) :
    (stateReset w d).pMonitor = d.pMonitor ∧ (stateReset w d).delayed = false ∧
    (stateReset w d).forceFrames = (if d.forceFrames > 0 then d.forceFrames - 1
      else d.forceFrames) ∧
    (stateReset w d).legacyScheduler = d.legacyScheduler ∧
    (stateReset w d).buffers = d.buffers ∧
    (stateReset w d).delayedFrameSubmitted = d.delayedFrameSubmitted ∧
    (stateReset w d).activelyPushing = true ∧
    (stateReset w d).gpuReady = false ∧
    (stateReset w d).rendered = false ∧
    (stateReset w d).event = d.event := by
  unfold stateReset
  simp only
  split_ifs <;> simp

theorem onPresent_skip {w : World} {p : MonitorPtr} {d : SSchedulingData}
    (fb : Option wlr_output_event_present)
    (hp : dataFor w.m_vSchedulingData p = some d)
    (ht : (w.monitors p).tearingState.activelyTearing = false)
    (hl : d.legacyScheduler = false) (hs : d.delayedFrameSubmitted = false)
    (hd : hasDamage (w.monitors p) = false)
    (hf : d.forceFrames + (w.monitors p).forceFullFrames ≤ 0) :
    onPresent w p fb =
      .ok (w.storeFor p { stateReset w d with activelyPushing := false }) := by
  unfold onPresent
  rw [hp]
  simp only [RASSERT]
  rw [if_neg (by simp [ht, hl]), if_neg (by simp [hs]), if_pos (by simp [hd, hf])]

theorem onPresent_render {w : World} {p : MonitorPtr} {d : SSchedulingData}
    (fb : Option wlr_output_event_present)
    (hp : dataFor w.m_vSchedulingData p = some d)
    (ht : (w.monitors p).tearingState.activelyTearing = false)
    (hl : d.legacyScheduler = false) (hs : d.delayedFrameSubmitted = false)
    (hd : hasDamage (w.monitors p) = true ∨
      0 < d.forceFrames + (w.monitors p).forceFullFrames) :
    onPresent w p fb =
      .ok ((renderMonitor w (cycleRecord w p fb d)).1.storeFor p
        (renderMonitor w (cycleRecord w p fb d)).2) := by
  unfold onPresent
  rw [hp]
  simp only [RASSERT]
  rw [if_neg (by simp [ht, hl]), if_neg (by simp [hs]), if_neg]
  · rfl
  · rcases hd with hd | hd
    · simp [hd]
    · simp only [Bool.and_eq_true, decide_eq_true_eq, not_and, not_le]
      intro _
      exact hd


/-- An `onPresent` that passes the tearing, legacy and `delayedFrameSubmitted` gates
returns normally and leaves the record of the output with `delayed = false`. -/
theorem onPresent_clears_delayed {w : World} {p : MonitorPtr} {d : SSchedulingData}
    (fb : Option wlr_output_event_present)
    (hp : dataFor w.m_vSchedulingData p = some d)
    (ht : (w.monitors p).tearingState.activelyTearing = false)
    (hl : d.legacyScheduler = false) (hs : d.delayedFrameSubmitted = false) :
    ∃ w5 d5, onPresent w p fb = .ok w5 ∧ dataFor w5.m_vSchedulingData p = some d5 ∧
      d5.delayed = false := by
  have hpm : d.pMonitor = p := dataFor_pMonitor hp
  by_cases hdmg : hasDamage (w.monitors p) = false ∧
      d.forceFrames + (w.monitors p).forceFullFrames ≤ 0
  · refine ⟨_, _, onPresent_skip fb hp ht hl hs hdmg.1 hdmg.2, dataFor_storeFor hp ?_, ?_⟩
    · exact (stateReset_fields _ _).1.trans hpm
    · exact (stateReset_fields _ _).2.1
  · have hdmg' : hasDamage (w.monitors p) = true ∨
        0 < d.forceFrames + (w.monitors p).forceFullFrames := by
      by_cases h : hasDamage (w.monitors p) = true
      · exact Or.inl h
      · right
        have h' : hasDamage (w.monitors p) = false := by simpa using h
        by_contra hc
        exact hdmg ⟨h', not_lt.1 hc⟩
    have h5 := onPresent_render fb hp ht hl hs hdmg'
    have hcyc : (cycleRecord w p fb d).pMonitor = p ∧ (cycleRecord w p fb d).delayed = false := by
      unfold cycleRecord
      refine ⟨?_, ?_⟩
      · rw [(armTimer_fields _ _).1, (vblankComputation_fields _ _ _ _).1,
          (stateReset_fields _ _).1]
        exact hpm
      · rw [(armTimer_fields _ _).2.1, (vblankComputation_fields _ _ _ _).2.1,
          (stateReset_fields _ _).2.1]
    have hp' : dataFor (renderMonitor w (cycleRecord w p fb d)).1.m_vSchedulingData p =
        some d := by
      rw [renderMonitor_store]; exact hp
    rcases renderMonitor_cases w (cycleRecord w p fb d) with hc | hc
    · refine ⟨_, _, h5, dataFor_storeFor hp' ?_, ?_⟩
      · rw [hc.2]; exact hcyc.1
      · rw [hc.2]; exact hcyc.2
    · refine ⟨_, _, h5, dataFor_storeFor hp' ?_, ?_⟩
      · rw [hc.2]; exact hcyc.1
      · rw [hc.2]; exact hcyc.2

/-! ## C3: the delayed flag across a recovery -/

/-- C3 (as amended): for a non-legacy record with `delayed = true` whose output is not
actively tearing, after `gpuDone(b)` has performed the recovery render and the following
`onPresent` has consumed `delayedFrameSubmitted`, `delayed` is still true (only
`delayedFrameSubmitted` changed), and a further `gpuDone(b)` performs one more renderer
invocation and sets `delayedFrameSubmitted` again; `delayed` is cleared by the next
`onPresent` that passes the tearing, legacy and `delayedFrameSubmitted` gates. -/
theorem C3_delayed_survives_recovery (w : World) (b : BufferPtr) (p : MonitorPtr)
    (DATA : SSchedulingData) (e : Surroundings) (fb : Option wlr_output_event_present)
    (hb : dataForBuffer w.m_vSchedulingData b = some DATA)
    (hp : dataFor w.m_vSchedulingData p = some DATA)
    (hd : DATA.delayed = true) (hl : DATA.legacyScheduler = false)
    (ht : (e.monitors p).tearingState.activelyTearing = false) :
    ∃ w2 w3 w4, gpuDone w b = .ok w2 ∧ w2.renderCalls = w.renderCalls ++ [p] ∧
      onPresent (w2.withSurroundings e) p fb = .ok w3 ∧
      w3.renderCalls = w2.renderCalls ∧
      dataFor w3.m_vSchedulingData p = some { DATA with delayedFrameSubmitted := false } ∧
      gpuDone w3 b = .ok w4 ∧ w4.renderCalls = w3.renderCalls ++ [p] ∧
      dataFor w4.m_vSchedulingData p = some { DATA with delayedFrameSubmitted := true } ∧
      (∀ (fb' : Option wlr_output_event_present), ∃ w5 d5,
        onPresent w3 p fb' = .ok w5 ∧ dataFor w5.m_vSchedulingData p = some d5 ∧
        d5.delayed = false) := by
  have hpm : DATA.pMonitor = p := dataFor_pMonitor hp
  have hbm : b ∈ DATA.buffers := dataForBuffer_holds hb
  -- after the first gpuDone
  obtain ⟨w2, hw2⟩ : ∃ w2, w2 = (w.callRenderer DATA.pMonitor).storeForBuffer b
      { DATA with delayedFrameSubmitted := true } := ⟨_, rfl⟩
  have h2 : gpuDone w b = .ok w2 := hw2 ▸ gpuDone_delayed hb hd
  have hp2 : dataFor w2.m_vSchedulingData p =
      some { DATA with delayedFrameSubmitted := true } :=
    hw2 ▸ dataFor_replaceFirst_buffer hp hb hpm
  have hb2 : dataForBuffer w2.m_vSchedulingData b =
      some { DATA with delayedFrameSubmitted := true } :=
    hw2 ▸ dataForBuffer_storeForBuffer (w := w.callRenderer DATA.pMonitor) hb hbm
  have hr2 : w2.renderCalls = w.renderCalls ++ [p] := by
    rw [hw2]; simp [World.storeForBuffer, World.callRenderer, hpm]
  clear hw2
  -- after the consuming onPresent
  obtain ⟨w3, hw3⟩ : ∃ w3, w3 = (w2.withSurroundings e).storeFor p
      { DATA with delayedFrameSubmitted := false } := ⟨_, rfl⟩
  have hp2' : dataFor (w2.withSurroundings e).m_vSchedulingData p =
      some { DATA with delayedFrameSubmitted := true } := hp2
  have hb2' : dataForBuffer (w2.withSurroundings e).m_vSchedulingData b =
      some { DATA with delayedFrameSubmitted := true } := hb2
  have h3 : onPresent (w2.withSurroundings e) p fb = .ok w3 := by
    rw [hw3]
    exact onPresent_consumes (d := { DATA with delayedFrameSubmitted := true }) fb hp2' ht hl rfl
  have hp3 : dataFor w3.m_vSchedulingData p =
      some { DATA with delayedFrameSubmitted := false } := by
    rw [hw3]
    exact dataFor_storeFor (d := { DATA with delayedFrameSubmitted := true }) hp2' hpm
  have hb3 : dataForBuffer w3.m_vSchedulingData b =
      some { DATA with delayedFrameSubmitted := false } := by
    rw [hw3]
    exact dataForBuffer_storeFor (d := { DATA with delayedFrameSubmitted := true })
      hp2' hb2' hbm
  have hr3 : w3.renderCalls = w2.renderCalls := by rw [hw3]; rfl
  have hm3 : w3.monitors = e.monitors := by rw [hw3]; rfl
  clear hw3
  -- the second gpuDone
  have h4 := gpuDone_delayed hb3 hd
  have hp4 := dataFor_replaceFirst_buffer
    (n := { DATA with delayedFrameSubmitted := true }) hp3 hb3 hpm
  refine ⟨w2, w3, _, h2, hr2, h3, hr3, hp3, h4, ?_, hp4, ?_⟩
  · simp [World.storeForBuffer, World.callRenderer, hpm]
  · intro fb'
    have ht3 : (w3.monitors p).tearingState.activelyTearing = false := by rw [hm3]; exact ht
    exact onPresent_clears_delayed fb' hp3 ht3 hl rfl

/-- C3, witness: the record `delayedRecord` of output 1 with buffer 7. -/
theorem C3_delayed_survives_recovery_witness :
    ∃ w2 w3 w4, gpuDone delayedWorld 7 = .ok w2 ∧
      w2.renderCalls = delayedWorld.renderCalls ++ [1] ∧
      onPresent (w2.withSurroundings (surroundingsWith idleMonitor)) 1 none = .ok w3 ∧
      w3.renderCalls = w2.renderCalls ∧
      dataFor w3.m_vSchedulingData 1 =
        some { delayedRecord with delayedFrameSubmitted := false } ∧
      gpuDone w3 7 = .ok w4 ∧ w4.renderCalls = w3.renderCalls ++ [1] ∧
      dataFor w4.m_vSchedulingData 1 =
        some { delayedRecord with delayedFrameSubmitted := true } ∧
      (∀ (fb' : Option wlr_output_event_present), ∃ w5 d5,
        onPresent w3 1 fb' = .ok w5 ∧ dataFor w5.m_vSchedulingData 1 = some d5 ∧
        d5.delayed = false) :=
  C3_delayed_survives_recovery delayedWorld 7 1 delayedRecord (surroundingsWith idleMonitor)
    none (by decide) (by decide) (by decide) (by decide) (by decide)

/-- C3, counterexample: in `repeatedRecoveryTrace`, after `gpuDone(7)` has performed the
recovery render (second renderer invocation) and the following `onPresent` has consumed
`delayedFrameSubmitted`, `delayed` is still true, and the further `gpuDone(7)` performs a
third renderer invocation. -/
theorem C3_counterexample :
    (observe (run emptyWorld (repeatedRecoveryTrace.take 6))).map
        (fun r => (r.1.map (fun d => (d.delayed, d.delayedFrameSubmitted)), r.2)) =
      some ([(true, true)], [1, 1]) ∧
    (observe (run emptyWorld (repeatedRecoveryTrace.take 7))).map
        (fun r => (r.1.map (fun d => (d.delayed, d.delayedFrameSubmitted)), r.2)) =
      some ([(true, false)], [1, 1]) ∧
    (observe (run emptyWorld repeatedRecoveryTrace)).map
        (fun r => (r.1.map (fun d => (d.delayed, d.delayedFrameSubmitted)), r.2)) =
      some ([(true, true)], [1, 1, 1]) := by
  refine ⟨by decide!, by decide!, by decide!⟩


/-! ## Every call changes records only through `RecordStep` -/

theorem mem_storeFor {w : World} {p : MonitorPtr} {n x : SSchedulingData}
    (h : x ∈ (w.storeFor p n).m_vSchedulingData) : x ∈ w.m_vSchedulingData ∨ x = n :=
  mem_replaceFirst h

theorem mem_storeForBuffer {w : World} {b : BufferPtr} {n x : SSchedulingData}
    (h : x ∈ (w.storeForBuffer b n).m_vSchedulingData) : x ∈ w.m_vSchedulingData ∨ x = n :=
  mem_replaceFirst h

/-- The records after `onPresent` are the records before, except that the record of the
output may have made a `PresentStep`. -/
theorem onPresent_records {w w' : World} {p : MonitorPtr}
    {fb : Option wlr_output_event_present} (h : onPresent w p fb = .ok w') :
    ∀ x ∈ w'.m_vSchedulingData, x ∈ w.m_vSchedulingData ∨
      ∃ d, dataFor w.m_vSchedulingData p = some d ∧ PresentStep w p fb d x := by
  intro x hx
  cases hp : dataFor w.m_vSchedulingData p with
  | none => simp [onPresent, hp, RASSERT] at h
  | some d =>
    by_cases hg : (w.monitors p).tearingState.activelyTearing = true ∨ d.legacyScheduler = true
    · rw [onPresent_gated fb hp hg] at h
      have hw := Except.ok.inj h
      subst hw
      rcases mem_storeFor hx with hx | hx
      · exact Or.inl hx
      · exact Or.inr ⟨d, rfl, hx ▸ PresentStep.gated d hg⟩
    · have ht : (w.monitors p).tearingState.activelyTearing = false := by
        cases h' : (w.monitors p).tearingState.activelyTearing
        · rfl
        · exact absurd (Or.inl h') hg
      have hl : d.legacyScheduler = false := by
        cases h' : d.legacyScheduler
        · rfl
        · exact absurd (Or.inr h') hg
      cases hs : d.delayedFrameSubmitted with
      | true =>
        rw [onPresent_consumes fb hp ht hl hs] at h
        have hw := Except.ok.inj h
        subst hw
        rcases mem_storeFor hx with hx | hx
        · exact Or.inl hx
        · exact Or.inr ⟨d, rfl, hx ▸ PresentStep.consume d hl hs⟩
      | false =>
        by_cases hdmg : hasDamage (w.monitors p) = false ∧
            d.forceFrames + (w.monitors p).forceFullFrames ≤ 0
        · rw [onPresent_skip fb hp ht hl hs hdmg.1 hdmg.2] at h
          have hw := Except.ok.inj h
          subst hw
          rcases mem_storeFor hx with hx | hx
          · exact Or.inl hx
          · exact Or.inr ⟨d, rfl, hx ▸ PresentStep.skip d hl hs⟩
        · have hdmg' : hasDamage (w.monitors p) = true ∨
              0 < d.forceFrames + (w.monitors p).forceFullFrames := by
            by_cases h1 : hasDamage (w.monitors p) = true
            · exact Or.inl h1
            · right
              have h2 : hasDamage (w.monitors p) = false := by simpa using h1
              by_contra hc
              exact hdmg ⟨h2, not_lt.1 hc⟩
          rw [onPresent_render fb hp ht hl hs hdmg'] at h
          have hw := Except.ok.inj h
          subst hw
          rcases mem_storeFor hx with hx | hx
          · rw [renderMonitor_store] at hx
            exact Or.inl hx
          · exact Or.inr ⟨d, rfl, hx ▸ PresentStep.render d hl hs⟩


theorem onVblankTimer_snd (d : SSchedulingData) : (onVblankTimer d).2 = 0 := by
  unfold onVblankTimer
  split_ifs <;> rfl

/-- The records after a call are the records before, a freshly registered record, or the
result of a `RecordStep` of the call on a record before. -/
theorem step_records {w w' : World} {c : Call} (h : step w c = .ok w') :
    ∀ x ∈ w'.m_vSchedulingData, x ∈ w.m_vSchedulingData ∨
      (∃ p l a, c = .registerMonitor p ∧ x = freshRecord p l a) ∨
      ∃ d ∈ w.m_vSchedulingData, RecordStep c d x := by
  intro x hx
  cases c with
  | registerMonitor p =>
    simp only [step, registerMonitor] at h
    have hw := Except.ok.inj h
    subst hw
    cases hp : dataFor w.m_vSchedulingData p with
    | some d => rw [hp] at hx; exact Or.inl hx
    | none =>
      rw [hp] at hx
      rcases List.mem_append.1 hx with hx | hx
      · rw [reserveSlot_store] at hx; exact Or.inl hx
      · exact Or.inr (Or.inl ⟨p, _, _, rfl, List.mem_singleton.1 hx⟩)
  | unregisterMonitor p =>
    simp only [step, unregisterMonitor] at h
    have hw := Except.ok.inj h
    subst hw
    exact Or.inl (List.mem_filter.1 hx).1
  | onFrameNeeded p =>
    simp only [step] at h
    cases hp : dataFor w.m_vSchedulingData p with
    | none => simp [onFrameNeeded, hp, RASSERT] at h
    | some d =>
      have hd : d ∈ w.m_vSchedulingData := dataFor_mem hp
      unfold onFrameNeeded at h
      rw [hp] at h
      simp only [RASSERT] at h
      split_ifs at h with h1 h2 h3
      · rw [← Except.ok.inj h] at hx; exact Or.inl hx
      · rw [← Except.ok.inj h] at hx
        rcases mem_storeFor hx with hx | hx
        · exact Or.inl hx
        · have hl : d.legacyScheduler = false := by
            cases h' : d.legacyScheduler
            · rfl
            · exact absurd (by simp [h']) h1
          have ha : d.activelyPushing = true := by
            simp only [Bool.and_eq_true] at h2
            exact h2.1
          exact Or.inr (Or.inr ⟨d, hd, hx ▸ RecordStep.needForce p d hl ha h3⟩)
      · rw [← Except.ok.inj h] at hx; exact Or.inl hx
      · have hl : d.legacyScheduler = false := by
          cases h' : d.legacyScheduler
          · rfl
          · exact absurd (by simp [h']) h1
        rcases onPresent_records h x hx with hx | ⟨d0, hd0, hs⟩
        · exact Or.inl hx
        · have h0 : d0 = d := Option.some.inj (hd0.symm.trans hp)
          subst h0
          exact Or.inr (Or.inr ⟨d0, hd, RecordStep.needPresent w p d0 x hl hs⟩)
  | onPresent p fb =>
    rcases onPresent_records h x hx with hx | ⟨d, hd, hs⟩
    · exact Or.inl hx
    · exact Or.inr (Or.inr ⟨d, dataFor_mem hd, RecordStep.present w p fb d x hs⟩)
  | onFrame p =>
    simp only [step] at h
    cases hp : dataFor w.m_vSchedulingData p with
    | none => simp [onFrame, hp, RASSERT] at h
    | some d =>
      have hd : d ∈ w.m_vSchedulingData := dataFor_mem hp
      unfold onFrame at h
      rw [hp] at h
      simp only [RASSERT] at h
      split_ifs at h with h1
      · rw [← Except.ok.inj h] at hx; exact Or.inl hx
      · rw [← Except.ok.inj h] at hx
        rcases mem_storeFor hx with hx | hx
        · rw [renderMonitor_store] at hx; exact Or.inl hx
        · have hl : d.legacyScheduler = true := by simpa using h1
          exact Or.inr (Or.inr ⟨d, hd, hx ▸ RecordStep.frame w p d hl⟩)
  | gpuDone b =>
    simp only [step] at h
    cases hb : dataForBuffer w.m_vSchedulingData b with
    | none => simp [gpuDone, hb, RASSERT] at h
    | some d =>
      have hd : d ∈ w.m_vSchedulingData := dataForBuffer_mem hb
      cases hdel : d.delayed with
      | false =>
        simp [gpuDone, hb, RASSERT, hdel] at h
        rw [← h] at hx; exact Or.inl hx
      | true =>
        rw [gpuDone_delayed hb hdel] at h
        rw [← Except.ok.inj h] at hx
        rcases mem_storeForBuffer hx with hx | hx
        · exact Or.inl hx
        · exact Or.inr (Or.inr ⟨d, hd, hx ▸ RecordStep.gpu b d hdel⟩)
  | registerBuffer b p =>
    simp only [step] at h
    cases hp : dataFor w.m_vSchedulingData p with
    | none => simp [registerBuffer, hp, RASSERT] at h
    | some d =>
      have hd : d ∈ w.m_vSchedulingData := dataFor_mem hp
      unfold registerBuffer at h
      rw [hp] at h
      simp only [RASSERT] at h
      split_ifs at h with h1
      · rw [← Except.ok.inj h] at hx; exact Or.inl hx
      · rw [← Except.ok.inj h] at hx
        rcases mem_storeFor hx with hx | hx
        · exact Or.inl hx
        · exact Or.inr (Or.inr ⟨d, hd, hx ▸ RecordStep.addBuffer b p d (by simpa using h1)⟩)
  | dropBuffer b =>
    simp only [step, dropBuffer] at h
    rw [← Except.ok.inj h] at hx
    obtain ⟨d, hd, hdx⟩ := List.mem_map.1 hx
    exact Or.inr (Or.inr ⟨d, hd, hdx ▸ RecordStep.eraseBuffer b d⟩)
  | onVblankTimer i =>
    simp only [step, onPresentTimer] at h
    cases hi : w.m_vSchedulingData[i]? with
    | none => simp [hi] at h
    | some d =>
      simp only [hi] at h
      rw [← Except.ok.inj h] at hx
      rcases List.mem_or_eq_of_mem_set hx with hx | hx
      · exact Or.inl hx
      · exact Or.inr (Or.inr ⟨d, List.getElem?_mem hi, hx ▸ RecordStep.vblank i d⟩)
  | timerExpiry i =>
    simp only [step, timerExpiry] at h
    cases hi : w.m_vSchedulingData[i]? with
    | none =>
      simp only [hi] at h
      rw [← Except.ok.inj h] at hx; exact Or.inl hx
    | some d =>
      simp only [hi] at h
      cases ha : d.event.armed with
      | none =>
        simp only [ha] at h
        rw [← Except.ok.inj h] at hx; exact Or.inl hx
      | some ms =>
        simp only [ha] at h
        obtain ⟨s1, hs1⟩ : ∃ s1, s1 = w.m_vSchedulingData.set i
            { d with event := { d.event with armed := none } } := ⟨_, rfl⟩
        rw [← hs1] at h
        have hmem1 : ∀ y ∈ s1, y ∈ w.m_vSchedulingData ∨
            y = { d with event := { d.event with armed := none } } := by
          intro y hy
          rw [hs1] at hy
          exact List.mem_or_eq_of_mem_set hy
        cases hj : World.slotAt { w with m_vSchedulingData := s1 } d.event.data with
        | none => simp [hj] at h
        | some j =>
          simp only [hj, onPresentTimer] at h
          cases hsj : s1[j]? with
          | none => simp [hsj] at h
          | some dj =>
            simp only [hsj] at h
            rw [← Except.ok.inj h] at hx
            have hdj := hmem1 dj (List.getElem?_mem hsj)
            rcases List.mem_or_eq_of_mem_set hx with hx | hx
            · rcases hmem1 x hx with hx | hx
              · exact Or.inl hx
              · exact Or.inr (Or.inr ⟨d, List.getElem?_mem hi, hx ▸ RecordStep.disarm i d ms ha⟩)
            · rcases hdj with hdj | hdj
              · exact Or.inr (Or.inr ⟨dj, hdj, hx ▸ RecordStep.fired i dj⟩)
              · exact Or.inr (Or.inr ⟨d, List.getElem?_mem hi,
                  hx ▸ hdj ▸ RecordStep.expire i d ms ha⟩)
  | surroundings e =>
    simp only [step] at h
    rw [← Except.ok.inj h] at hx
    exact Or.inl hx


theorem renderMonitor_record (w : World) (d : SSchedulingData) :
    (renderMonitor w d).2 = d ∨ (renderMonitor w d).2 = { d with rendered := true } := by
  rcases renderMonitor_cases w d with h | h
  · exact Or.inl h.2
  · exact Or.inr h.2

theorem onVblankTimer_record (d : SSchedulingData) :
    (onVblankTimer d).1 = d ∨ (onVblankTimer d).1 = { d with delayed := true } := by
  unfold onVblankTimer
  split_ifs
  · exact Or.inl rfl
  · exact Or.inr rfl
  · exact Or.inl rfl

theorem cycleRecord_fields (w : World) (p : MonitorPtr)
    (fb : Option wlr_output_event_present) (d : SSchedulingData) :
    (cycleRecord w p fb d).pMonitor = d.pMonitor ∧
    (cycleRecord w p fb d).delayed = false ∧
    (cycleRecord w p fb d).forceFrames =
      (if d.forceFrames > 0 then d.forceFrames - 1 else d.forceFrames) ∧
    (cycleRecord w p fb d).legacyScheduler = d.legacyScheduler ∧
    (cycleRecord w p fb d).buffers = d.buffers ∧
    (cycleRecord w p fb d).delayedFrameSubmitted = d.delayedFrameSubmitted ∧
    (cycleRecord w p fb d).activelyPushing = true ∧
    (cycleRecord w p fb d).gpuReady = false := by
  unfold cycleRecord
  have ha := armTimer_fields
    (vblankComputation w (w.monitors p) fb (stateReset w d)).1
    (vblankComputation w (w.monitors p) fb (stateReset w d)).2
  have hv := vblankComputation_fields w (w.monitors p) fb (stateReset w d)
  have hs := stateReset_fields w d
  refine ⟨?_, ?_, ?_, ?_, ?_, ?_, ?_, ?_⟩
  · rw [ha.1, hv.1, hs.1]
  · rw [ha.2.1, hv.2.1, hs.2.1]
  · rw [ha.2.2.1, hv.2.2.1, hs.2.2.1]
  · rw [ha.2.2.2.1, hv.2.2.2.1, hs.2.2.2.1]
  · rw [ha.2.2.2.2.1, hv.2.2.2.2.1, hs.2.2.2.2.1]
  · rw [ha.2.2.2.2.2.1, hv.2.2.2.2.2.1, hs.2.2.2.2.2.1]
  · rw [ha.2.2.2.2.2.2.1, hv.2.2.2.2.2.2.1, hs.2.2.2.2.2.2.1]
  · rw [ha.2.2.2.2.2.2.2, hv.2.2.2.2.2.2.2.1, hs.2.2.2.2.2.2.2.1]

/-- A property of records that holds of fresh records and is kept by every `RecordStep` of
the permitted calls holds of all records after every run of permitted calls. -/
theorem run_invariant (P : SSchedulingData → Prop) (permitted : Call → Prop)
    (hfresh : ∀ p l a, P (freshRecord p l a))
    (hstep : ∀ c d n, permitted c → P d → RecordStep c d n → P n) :
    ∀ (cs : List Call) (w w' : World), (∀ c ∈ cs, permitted c) →
      (∀ d ∈ w.m_vSchedulingData, P d) → run w cs = .ok w' →
      ∀ d ∈ w'.m_vSchedulingData, P d := by
  intro cs
  induction cs with
  | nil =>
    intro w w' _ hw hrun d hd
    simp only [run] at hrun
    rw [← Except.ok.inj hrun] at hd
    exact hw d hd
  | cons c cs ih =>
    intro w w' hperm hw hrun
    simp only [run] at hrun
    cases hs : step w c with
    | error e => simp [hs] at hrun
    | ok w1 =>
      simp only [hs] at hrun
      refine ih w1 w' (fun c' hc' => hperm c' (List.mem_cons_of_mem _ hc')) ?_ hrun
      intro x hx
      rcases step_records hs x hx with h | ⟨p, l, a, _, h⟩ | ⟨d, hd, h⟩
      · exact hw x h
      · rw [h]; exact hfresh p l a
      · exact hstep c d x (hperm c (List.mem_cons_self _ _)) (hw d hd) h

theorem presentStep_forceSaturated {w : World} {p : MonitorPtr}
    {fb : Option wlr_output_event_present} {d n : SSchedulingData}
    (hd : forceSaturated d) (h : PresentStep w p fb d n) : forceSaturated n := by
  have hreset : (if d.forceFrames > 0 then d.forceFrames - 1 else d.forceFrames) = 0 := by
    rcases hd with hd | hd <;> simp [hd]
  cases h with
  | gated _ => exact hd
  | consume _ _ => exact hd
  | skip _ _ =>
    left
    show (stateReset w d).forceFrames = 0
    rw [(stateReset_fields w d).2.2.1]; exact hreset
  | render _ _ =>
    left
    have hc : (cycleRecord w p fb d).forceFrames = 0 := by
      rw [(cycleRecord_fields w p fb d).2.2.1]; exact hreset
    rcases renderMonitor_record w (cycleRecord w p fb d) with h | h
    · rw [h]; exact hc
    · rw [h]; exact hc

theorem recordStep_forceSaturated {c : Call} {d n : SSchedulingData}
    (hd : forceSaturated d) (h : RecordStep c d n) : forceSaturated n := by
  cases h with
  | needForce p _ _ _ hlt =>
    right
    show d.forceFrames + 1 = 1
    rcases hd with hd | hd
    · rw [hd]; rfl
    · rw [hd] at hlt; exact absurd hlt (by decide)
  | needPresent w p _ _ _ hs => exact presentStep_forceSaturated hd hs
  | present w p fb _ _ hs => exact presentStep_forceSaturated hd hs
  | frame w p _ _ =>
    rcases renderMonitor_record w d with h | h
    · rw [h]; exact hd
    · rw [h]; exact hd
  | gpu b _ _ => exact hd
  | addBuffer b p _ _ => exact hd
  | eraseBuffer b _ => exact hd
  | vblank i _ =>
    rcases onVblankTimer_record d with h | h
    · rw [h]; exact hd
    · rw [h]; exact hd
  | expire i _ ms _ =>
    rcases onVblankTimer_record { d with event := { d.event with armed := none } } with h | h
    · rw [h]; exact hd
    · rw [h]; exact hd
  | disarm i _ ms _ => exact hd
  | fired i _ =>
    rcases onVblankTimer_record d with h | h
    · rw [h]; exact hd
    · rw [h]; exact hd

/-! ## C4: force-frame saturation -/

/-- C4: starting from a store whose records all have `forceFrames = 0` (as freshly
registered records have), after every finite sequence of calls (`onFrameNeeded`,
`onPresent`, `onFrame`, `gpuDone`, `registerBuffer`, `dropBuffer`, `onVblankTimer`, and
also registrations, timer expiries and changes of the surroundings) every record's
`forceFrames` is 0 or 1. -/
theorem C4_forceFrames_saturates (w0 : World)
    (h0 : ∀ d ∈ w0.m_vSchedulingData, d.forceFrames = 0) (cs : List Call) (w : World)
    (hrun : run w0 cs = .ok w) :
    ∀ d ∈ w.m_vSchedulingData, d.forceFrames = 0 ∨ d.forceFrames = 1 :=
  run_invariant forceSaturated (fun _ => True) (fun _ _ _ => Or.inl rfl)
    (fun _ _ _ _ hd hs => recordStep_forceSaturated hd hs) cs w0 w (fun _ _ => trivial)
    (fun d hd => Or.inl (h0 d hd)) hrun


/-- C4, witness: `throttledTrace` from the two freshly registered outputs ends with
`forceFrames = 1` for output 1 and `forceFrames = 0` for output 2. -/
theorem C4_forceFrames_saturates_witness :
    ∃ w, run twoOutputs throttledTrace = .ok w ∧
      w.m_vSchedulingData.map (fun d => d.forceFrames) = [1, 0] ∧
      ∀ d ∈ w.m_vSchedulingData, d.forceFrames = 0 ∨ d.forceFrames = 1 := by
  cases h : run twoOutputs throttledTrace with
  | error e =>
    have : (observe (run twoOutputs throttledTrace)).isSome = true := by decide!
    rw [h] at this
    simp [observe] at this
  | ok w =>
    refine ⟨w, rfl, ?_, C4_forceFrames_saturates twoOutputs (by decide) throttledTrace w h⟩
    have : (observe (run twoOutputs throttledTrace)).map
        (fun r => r.1.map (fun d => d.forceFrames)) = some [1, 0] := by decide!
    rw [h] at this
    simpa [observe] using this


theorem onFrameNeeded_throttled {w : World} {p : MonitorPtr} {d : SSchedulingData}
    (hp : dataFor w.m_vSchedulingData p = some d)
    (ht : (w.monitors p).tearingState.activelyTearing = false)
    (hl : d.legacyScheduler = false) (ha : d.activelyPushing = true)
    (hms : d.lastPresent.getMillis w < 100) :
    onFrameNeeded w p =
      .ok (if d.forceFrames < 1 then w.storeFor p { d with forceFrames := d.forceFrames + 1 }
        else w) := by
  unfold onFrameNeeded
  rw [hp]
  simp only [RASSERT]
  rw [if_neg (by simp [ht, hl]), if_pos (by simp [ha, hms])]
  split_ifs <;> rfl

theorem foldl_or_false (f : Nat → Bool) (n : Nat) (h : ∀ i, i < n → f i = false) :
    (List.range n).foldl (fun acc i => acc || f i) false = false := by
  induction n with
  | zero => rfl
  | succ n ih =>
    rw [List.range_succ, List.foldl_append, ih (fun i hi => h i (Nat.lt_succ_of_lt hi))]
    simp [h n (Nat.lt_succ_self n)]

/-- Without damage in the current region and in the ring of previous regions the damage
check of `onPresent` finds nothing. -/
theorem hasDamage_eq_false {m : CMonitor}
    (hc : pixman_region32_not_empty m.damage.current = false)
    (hprev : ∀ i, i < WLR_DAMAGE_RING_PREVIOUS_LEN →
      pixman_region32_not_empty (m.damage.previous.getD i []) = false) :
    hasDamage m = false := by
  unfold hasDamage
  simp only [hc]
  exact foldl_or_false _ _ hprev

/-! ## C6: damage-free skip -/

/-- C6 (as amended): if the output's current damage region and all
`WLR_DAMAGE_RING_PREVIOUS_LEN` previous damage regions are empty and
`forceFrames + forceFullFrames <= 0`, then `onPresent` (with or without feedback) returns
without a renderer invocation and without touching the timer; it returns with
`activelyPushing = false` when the output is actively tearing, the record is legacy, or no
recovery render is pending; when a recovery render is pending on a non-legacy record of an
output that is not tearing, it only clears `delayedFrameSubmitted` and leaves
`activelyPushing` as it was. -/
theorem C6_damage_free_skip (w : World) (p : MonitorPtr) (d : SSchedulingData)
    (fb : Option wlr_output_event_present)
    (hp : dataFor w.m_vSchedulingData p = some d)
    (hc : pixman_region32_not_empty (w.monitors p).damage.current = false)
    (hprev : ∀ i, i < WLR_DAMAGE_RING_PREVIOUS_LEN →
      pixman_region32_not_empty ((w.monitors p).damage.previous.getD i []) = false)
    (hf : d.forceFrames + (w.monitors p).forceFullFrames ≤ 0) :
    ∃ w1 d1, onPresent w p fb = .ok w1 ∧ w1.renderCalls = w.renderCalls ∧
      dataFor w1.m_vSchedulingData p = some d1 ∧ d1.event = d.event ∧
      (((w.monitors p).tearingState.activelyTearing = true ∨ d.legacyScheduler = true ∨
          d.delayedFrameSubmitted = false) → d1.activelyPushing = false) ∧
      (((w.monitors p).tearingState.activelyTearing = false ∧ d.legacyScheduler = false ∧
          d.delayedFrameSubmitted = true) →
        d1 = { d with delayedFrameSubmitted := false }) := by
  have hpm : d.pMonitor = p := dataFor_pMonitor hp
  have hdmg : hasDamage (w.monitors p) = false := hasDamage_eq_false hc hprev
  by_cases hg : (w.monitors p).tearingState.activelyTearing = true ∨ d.legacyScheduler = true
  · refine ⟨_, _, onPresent_gated fb hp hg, rfl, dataFor_storeFor hp hpm, rfl,
      fun _ => rfl, ?_⟩
    rintro ⟨h1, h2, _⟩
    rcases hg with hg | hg
    · rw [h1] at hg; exact absurd hg (by decide)
    · rw [h2] at hg; exact absurd hg (by decide)
  · have ht : (w.monitors p).tearingState.activelyTearing = false := by
      cases h' : (w.monitors p).tearingState.activelyTearing
      · rfl
      · exact absurd (Or.inl h') hg
    have hl : d.legacyScheduler = false := by
      cases h' : d.legacyScheduler
      · rfl
      · exact absurd (Or.inr h') hg
    cases hs : d.delayedFrameSubmitted with
    | true =>
      refine ⟨_, _, onPresent_consumes fb hp ht hl hs, rfl, dataFor_storeFor hp hpm, rfl,
        ?_, fun _ => rfl⟩
      rintro (h | h | h)
      · rw [ht] at h; exact absurd h (by decide)
      · rw [hl] at h; exact absurd h (by decide)
      · exact absurd h (by decide)
    | false =>
      refine ⟨_, _, onPresent_skip fb hp ht hl hs hdmg hf, rfl,
        dataFor_storeFor hp ((stateReset_fields w d).1.trans hpm),
        (stateReset_fields w d).2.2.2.2.2.2.2.2.2, fun _ => rfl, ?_⟩
      rintro ⟨_, _, h⟩
      exact absurd h (by decide)

/-- C6, witness: the record `pushingRecord` of output 1 without damage. -/
theorem C6_damage_free_skip_witness :
    ∃ w1 d1, onPresent pushingWorld 1 none = .ok w1 ∧
      w1.renderCalls = pushingWorld.renderCalls ∧
      dataFor w1.m_vSchedulingData 1 = some d1 ∧ d1.event = pushingRecord.event ∧
      (((pushingWorld.monitors 1).tearingState.activelyTearing = true ∨
          pushingRecord.legacyScheduler = true ∨
          pushingRecord.delayedFrameSubmitted = false) → d1.activelyPushing = false) ∧
      (((pushingWorld.monitors 1).tearingState.activelyTearing = false ∧
          pushingRecord.legacyScheduler = false ∧
          pushingRecord.delayedFrameSubmitted = true) →
        d1 = { pushingRecord with delayedFrameSubmitted := false }) :=
  C6_damage_free_skip pushingWorld 1 pushingRecord none (by decide) (by decide)
    (by decide) (by decide)

/-- C6, counterexample: in `damageFreeRecoveryTrace` the last `onPresent` finds no damage
in the current and the previous regions and `forceFrames + forceFullFrames = 0`, performs
no renderer invocation, and returns with `activelyPushing = true`. -/
theorem C6_counterexample :
    hasDamage idleMonitor = false ∧ idleMonitor.forceFullFrames = 0 ∧
    (observe (run emptyWorld (damageFreeRecoveryTrace.take 7))).map
        (fun r => (r.1.map (fun d => (d.forceFrames, d.activelyPushing)), r.2)) =
      some ([(0, true)], [1, 1]) ∧
    (observe (run emptyWorld damageFreeRecoveryTrace)).map
        (fun r => (r.1.map (fun d => (d.forceFrames, d.activelyPushing)), r.2)) =
      some ([(0, true)], [1, 1]) := by
  refine ⟨by decide, by decide, by decide!, by decide!⟩


theorem storeFor_same {w : World} {p : MonitorPtr} {d : SSchedulingData}
    (hp : dataFor w.m_vSchedulingData p = some d) : w.storeFor p d = w := by
  unfold World.storeFor
  rw [replaceFirst_found hp]

theorem presentStep_legacy {w : World} {p : MonitorPtr}
    {fb : Option wlr_output_event_present} {d n : SSchedulingData}
    (h : PresentStep w p fb d n) : n.legacyScheduler = d.legacyScheduler := by
  cases h with
  | gated _ => rfl
  | consume _ _ => rfl
  | skip _ _ => exact (stateReset_fields w d).2.2.2.1
  | render _ _ =>
    rcases renderMonitor_record w (cycleRecord w p fb d) with h | h
    · rw [h]; exact (cycleRecord_fields w p fb d).2.2.2.1
    · rw [h]; exact (cycleRecord_fields w p fb d).2.2.2.1

theorem legacyQuiet_of_not_legacy {d : SSchedulingData} (h : d.legacyScheduler = false) :
    legacyQuiet d := by
  intro hl
  rw [h] at hl
  exact absurd hl (by decide)

theorem expire_legacyQuiet {d : SSchedulingData} {ms : Int} (hd : legacyQuiet d)
    (ha : d.event.armed = some ms) :
    legacyQuiet (onVblankTimer { d with event := { d.event with armed := none } }).1 := by
  intro hl
  have hl' : d.legacyScheduler = true := by
    rcases onVblankTimer_record { d with event := { d.event with armed := none } } with h | h
    · rw [h] at hl; exact hl
    · rw [h] at hl; exact hl
  have := (hd hl').2.2
  rw [ha] at this
  exact absurd this (by simp)

theorem recordStep_legacyQuiet {c : Call} {d n : SSchedulingData}
    (hc : c.isTimerCall = false) (hd : legacyQuiet d) (h : RecordStep c d n) :
    legacyQuiet n := by
  cases h with
  | needForce p _ hl _ _ => exact legacyQuiet_of_not_legacy hl
  | needPresent w p _ _ hl hs =>
    exact legacyQuiet_of_not_legacy ((presentStep_legacy hs).trans hl)
  | present w p fb _ _ hs =>
    cases hs with
    | gated _ =>
      intro hl
      exact ⟨rfl, (hd hl).2⟩
    | consume hl _ => exact legacyQuiet_of_not_legacy hl
    | skip hl hs =>
      exact legacyQuiet_of_not_legacy
        ((presentStep_legacy (@PresentStep.skip w p fb d hl hs)).trans hl)
    | render hl hs =>
      exact legacyQuiet_of_not_legacy
        ((presentStep_legacy (@PresentStep.render w p fb d hl hs)).trans hl)
  | frame w p _ _ =>
    rcases renderMonitor_record w d with h | h
    · rw [h]; exact hd
    · rw [h]; exact hd
  | gpu b _ hdel =>
    intro hl
    have := (hd hl).2.1
    rw [hdel] at this
    exact absurd this (by decide)
  | addBuffer b p _ _ => exact hd
  | eraseBuffer b _ => exact hd
  | vblank i _ => simp [Call.isTimerCall] at hc
  | expire i _ ms ha => simp [Call.isTimerCall] at hc
  | disarm i _ ms ha => simp [Call.isTimerCall] at hc
  | fired i _ => simp [Call.isTimerCall] at hc


/-- `onPresent` invokes the renderer at most once, and only for a non-legacy record. -/
theorem onPresent_renderCalls {w w' : World} {p : MonitorPtr}
    {fb : Option wlr_output_event_present} (h : onPresent w p fb = .ok w') :
    w'.renderCalls = w.renderCalls ∨
      ∃ d ∈ w.m_vSchedulingData, d.legacyScheduler = false ∧
        w'.renderCalls = w.renderCalls ++ [d.pMonitor] := by
  cases hp : dataFor w.m_vSchedulingData p with
  | none => simp [onPresent, hp, RASSERT] at h
  | some d =>
    by_cases hg : (w.monitors p).tearingState.activelyTearing = true ∨ d.legacyScheduler = true
    · rw [onPresent_gated fb hp hg] at h
      rw [← Except.ok.inj h]; exact Or.inl rfl
    · have ht : (w.monitors p).tearingState.activelyTearing = false := by
        cases h' : (w.monitors p).tearingState.activelyTearing
        · rfl
        · exact absurd (Or.inl h') hg
      have hl : d.legacyScheduler = false := by
        cases h' : d.legacyScheduler
        · rfl
        · exact absurd (Or.inr h') hg
      cases hs : d.delayedFrameSubmitted with
      | true =>
        rw [onPresent_consumes fb hp ht hl hs] at h
        rw [← Except.ok.inj h]; exact Or.inl rfl
      | false =>
        by_cases hdmg : hasDamage (w.monitors p) = false ∧
            d.forceFrames + (w.monitors p).forceFullFrames ≤ 0
        · rw [onPresent_skip fb hp ht hl hs hdmg.1 hdmg.2] at h
          rw [← Except.ok.inj h]; exact Or.inl rfl
        · have hdmg' : hasDamage (w.monitors p) = true ∨
              0 < d.forceFrames + (w.monitors p).forceFullFrames := by
            by_cases h1 : hasDamage (w.monitors p) = true
            · exact Or.inl h1
            · right
              have h2 : hasDamage (w.monitors p) = false := by simpa using h1
              by_contra hc
              exact hdmg ⟨h2, not_lt.1 hc⟩
          rw [onPresent_render fb hp ht hl hs hdmg'] at h
          rw [← Except.ok.inj h]
          rcases renderMonitor_cases w (cycleRecord w p fb d) with hc | hc
          · exact Or.inl hc.1
          · refine Or.inr ⟨d, dataFor_mem hp, hl, ?_⟩
            show (renderMonitor w (cycleRecord w p fb d)).1.renderCalls = _
            rw [hc.1, (cycleRecord_fields w p fb d).1]

/-- In a world whose legacy records are quiet, a call other than `onFrame` invokes the
renderer at most once, and only for a non-legacy record. -/
theorem step_renderCalls {w w' : World} {c : Call}
    (hinv : ∀ d ∈ w.m_vSchedulingData, legacyQuiet d) (hc : c.isOnFrame = false)
    (h : step w c = .ok w') :
    w'.renderCalls = w.renderCalls ∨
      ∃ d ∈ w.m_vSchedulingData, d.legacyScheduler = false ∧
        w'.renderCalls = w.renderCalls ++ [d.pMonitor] := by
  cases c with
  | registerMonitor p =>
    simp only [step, registerMonitor] at h
    rw [← Except.ok.inj h]
    left
    cases dataFor w.m_vSchedulingData p
    · exact reserveSlot_renderCalls w
    · rfl
  | unregisterMonitor p =>
    simp only [step, unregisterMonitor] at h
    rw [← Except.ok.inj h]; exact Or.inl rfl
  | onFrameNeeded p =>
    simp only [step] at h
    cases hp : dataFor w.m_vSchedulingData p with
    | none => simp [onFrameNeeded, hp, RASSERT] at h
    | some d =>
      unfold onFrameNeeded at h
      rw [hp] at h
      simp only [RASSERT] at h
      split_ifs at h
      · rw [← Except.ok.inj h]; exact Or.inl rfl
      · rw [← Except.ok.inj h]; exact Or.inl rfl
      · rw [← Except.ok.inj h]; exact Or.inl rfl
      · exact onPresent_renderCalls h
  | onPresent p fb => exact onPresent_renderCalls h
  | onFrame p => simp [Call.isOnFrame] at hc
  | gpuDone b =>
    simp only [step] at h
    cases hb : dataForBuffer w.m_vSchedulingData b with
    | none => simp [gpuDone, hb, RASSERT] at h
    | some d =>
      cases hdel : d.delayed with
      | false =>
        simp [gpuDone, hb, RASSERT, hdel] at h
        rw [← h]; exact Or.inl rfl
      | true =>
        rw [gpuDone_delayed hb hdel] at h
        rw [← Except.ok.inj h]
        refine Or.inr ⟨d, dataForBuffer_mem hb, ?_, rfl⟩
        cases hl : d.legacyScheduler with
        | false => rfl
        | true =>
          have := (hinv d (dataForBuffer_mem hb) hl).2.1
          rw [hdel] at this
          exact absurd this (by decide)
  | registerBuffer b p =>
    simp only [step] at h
    cases hp : dataFor w.m_vSchedulingData p with
    | none => simp [registerBuffer, hp, RASSERT] at h
    | some d =>
      unfold registerBuffer at h
      rw [hp] at h
      simp only [RASSERT] at h
      split_ifs at h
      · rw [← Except.ok.inj h]; exact Or.inl rfl
      · rw [← Except.ok.inj h]; exact Or.inl rfl
  | dropBuffer b =>
    simp only [step, dropBuffer] at h
    rw [← Except.ok.inj h]; exact Or.inl rfl
  | onVblankTimer i =>
    simp only [step, onPresentTimer] at h
    cases hi : w.m_vSchedulingData[i]? with
    | none => simp [hi] at h
    | some d =>
      simp only [hi] at h
      rw [← Except.ok.inj h]; exact Or.inl rfl
  | timerExpiry i =>
    simp only [step, timerExpiry] at h
    cases hi : w.m_vSchedulingData[i]? with
    | none =>
      simp only [hi] at h
      rw [← Except.ok.inj h]; exact Or.inl rfl
    | some d =>
      simp only [hi] at h
      cases ha : d.event.armed with
      | none =>
        simp only [ha] at h
        rw [← Except.ok.inj h]; exact Or.inl rfl
      | some ms =>
        simp only [ha] at h
        obtain ⟨s1, hs1⟩ : ∃ s1, s1 = w.m_vSchedulingData.set i
            { d with event := { d.event with armed := none } } := ⟨_, rfl⟩
        rw [← hs1] at h
        cases hj : World.slotAt { w with m_vSchedulingData := s1 } d.event.data with
        | none => simp [hj] at h
        | some j =>
          simp only [hj, onPresentTimer] at h
          cases hsj : s1[j]? with
          | none => simp [hsj] at h
          | some dj =>
            simp only [hsj] at h
            rw [← Except.ok.inj h]; exact Or.inl rfl
  | surroundings e =>
    simp only [step] at h
    rw [← Except.ok.inj h]; exact Or.inl rfl

/-! ## Rounding to `float` -/

theorem log2Aux_spec : ∀ fuel n, n ≤ fuel → 1 ≤ n →
    2 ^ log2Aux fuel n ≤ n ∧ n < 2 ^ (log2Aux fuel n + 1) := by
  intro fuel
  induction fuel with
  | zero => intro n h1 h2; omega
  | succ f ih =>
    intro n h1 h2
    unfold log2Aux
    by_cases h : n < 2
    · rw [if_pos h]; constructor <;> simp <;> omega
    · rw [if_neg h]
      have := ih (n / 2) (by omega) (by omega)
      obtain ⟨a, b⟩ := this
      constructor
      · rw [pow_succ]; omega
      · rw [pow_succ]; omega

theorem log2Floor_spec (n : Nat) (h : 1 ≤ n) :
    2 ^ log2Floor n ≤ n ∧ n < 2 ^ (log2Floor n + 1) :=
  log2Aux_spec n n le_rfl h

theorem le_roundHalfEven (m : ℤ) (y : ℚ) (h : (m : ℚ) ≤ y) : m ≤ roundHalfEven y := by
  have h1 : m ≤ ⌊y⌋ := Int.le_floor.mpr h
  unfold roundHalfEven
  split_ifs <;> omega

theorem roundHalfEven_le (m : ℤ) (y : ℚ) (h : y ≤ (m : ℚ)) : roundHalfEven y ≤ m := by
  have h1 : ⌊y⌋ ≤ m := by
    have := Int.floor_le y
    exact_mod_cast (this.trans h : ((⌊y⌋ : ℤ) : ℚ) ≤ m)
  by_cases hy : y = m
  · subst hy
    unfold roundHalfEven
    simp
  · have hlt : y < m := lt_of_le_of_ne h hy
    have h2 : ⌊y⌋ < m := Int.floor_lt.mpr hlt
    unfold roundHalfEven
    split_ifs <;> omega

theorem zpow_floorLog2_le (x : ℚ) (hx : 0 < x) : (2 : ℚ) ^ floorLog2 x ≤ x := by
  unfold floorLog2
  split_ifs with h
  · exact h
  · have hn : 0 < x.num := Rat.num_pos.mpr hx
    have hn1 : 1 ≤ x.num.natAbs := by omega
    have hd1 : 1 ≤ x.den := x.den_pos
    obtain ⟨ha, -⟩ := log2Floor_spec _ hn1
    obtain ⟨-, hb⟩ := log2Floor_spec _ hd1
    have hxe : x = (x.num.natAbs : ℚ) / (x.den : ℚ) := by
      have h1 : ((x.num.natAbs : ℕ) : ℚ) = ((x.num.natAbs : ℤ) : ℚ) := (Int.cast_natCast _).symm
      rw [h1, Int.natAbs_of_nonneg hn.le, Rat.num_div_den]
    have e1 : (2 : ℚ) ^ ((log2Floor x.num.natAbs : ℤ) - (log2Floor x.den : ℤ) - 1)
        = (2 : ℚ) ^ (log2Floor x.num.natAbs) / (2 : ℚ) ^ (log2Floor x.den + 1) := by
      rw [show ((log2Floor x.num.natAbs : ℤ) - (log2Floor x.den : ℤ) - 1)
        = (log2Floor x.num.natAbs : ℤ) - ((log2Floor x.den + 1 : ℕ) : ℤ) by push_cast; ring]
      rw [zpow_sub₀ (by norm_num), zpow_natCast, zpow_natCast]
    rw [e1]
    have ha' : (2 : ℚ) ^ (log2Floor x.num.natAbs) ≤ (x.num.natAbs : ℚ) := by exact_mod_cast ha
    have hb' : (x.den : ℚ) ≤ (2 : ℚ) ^ (log2Floor x.den + 1) := by exact_mod_cast hb.le
    have hdpos : (0 : ℚ) < x.den := by exact_mod_cast x.den_pos
    conv_rhs => rw [hxe]
    exact div_le_div₀ (by positivity) ha' hdpos hb'

/-- A positive `x` is rounded on the grid of the multiples of `2 ^ e`, with `e` such that
`2 ^ (e + p - 1) ≤ x`. -/
theorem roundBinary_pos (p : Nat) (x : ℚ) (hx : 0 < x) :
    ∃ e : ℤ, (2 : ℚ) ^ (e + ((p : ℤ) - 1)) ≤ x ∧
      roundBinary p x = (roundHalfEven (x / 2 ^ e) : ℚ) * 2 ^ e := by
  refine ⟨floorLog2 x - ((p : ℤ) - 1), ?_, ?_⟩
  · simpa using zpow_floorLog2_le x hx
  · unfold roundBinary
    rw [if_neg hx.ne', abs_of_pos hx]

/-- A whole number is a multiple of `2 ^ e` when `e ≤ 0`. -/
theorem int_on_grid (k : ℤ) (e : ℤ) (he : e ≤ 0) : ∃ m : ℤ, (m : ℚ) * 2 ^ e = k := by
  obtain ⟨n, hn⟩ : ∃ n : ℕ, e = -(n : ℤ) := ⟨(-e).toNat, by omega⟩
  subst hn
  refine ⟨k * 2 ^ n, ?_⟩
  push_cast
  rw [mul_assoc, zpow_neg, zpow_natCast, mul_inv_cancel₀ (by positivity), mul_one]

/-- Rounding does not cross a whole number of at most `p` bits from above: such a `k`
below `x` stays below the rounded `x`. -/
theorem le_roundBinary (p : Nat) (hp : 1 ≤ p) (k : ℤ) (hk1 : 1 ≤ k) (hk : (k : ℚ) ≤ 2 ^ p) (x : ℚ)
    (hx : (k : ℚ) ≤ x) : (k : ℚ) ≤ roundBinary p x := by
  have hk0 : (0 : ℚ) < k := by exact_mod_cast (by omega : 0 < k)
  have hx0 : 0 < x := lt_of_lt_of_le hk0 hx
  obtain ⟨e, hL, hr⟩ := roundBinary_pos p x hx0
  rw [hr]
  have he0 : (0 : ℚ) < 2 ^ e := by positivity
  have key : ∀ m : ℤ, (m : ℚ) * 2 ^ e ≤ x → (m : ℚ) * 2 ^ e ≤
      (roundHalfEven (x / 2 ^ e) : ℚ) * 2 ^ e := by
    intro m hm
    have : m ≤ roundHalfEven (x / 2 ^ e) :=
      le_roundHalfEven m _ ((le_div_iff₀ he0).mpr hm)
    have : (m : ℚ) ≤ roundHalfEven (x / 2 ^ e) := by exact_mod_cast this
    exact mul_le_mul_of_nonneg_right this he0.le
  by_cases hc : (k : ℚ) ≤ 2 ^ (e + ((p : ℤ) - 1))
  · rcases Nat.eq_zero_or_pos p with hp0 | -
    · omega
    · have hg : (((2 : ℤ) ^ (p - 1) : ℤ) : ℚ) * 2 ^ e = 2 ^ (e + ((p : ℤ) - 1)) := by
        push_cast
        rw [zpow_add₀ (by norm_num : (2 : ℚ) ≠ 0), mul_comm]
        congr 1
        rw [← zpow_natCast]
        congr 1
        omega
      have := key (2 ^ (p - 1)) (by rw [hg]; exact hL)
      rw [hg] at this
      exact hc.trans this
  · push_neg at hc
    have hlt : (2 : ℚ) ^ (e + ((p : ℤ) - 1)) < 2 ^ (p : ℤ) := by
      rw [zpow_natCast]; exact lt_of_lt_of_le hc hk
    have he : e + ((p : ℤ) - 1) < p := (zpow_lt_zpow_iff_right₀ (by norm_num : (1 : ℚ) < 2)).mp hlt
    obtain ⟨m, hm⟩ := int_on_grid k e (by omega)
    rw [← hm]
    exact key m (by rw [hm]; exact hx)

/-- Rounding does not cross a whole number of at most `p` bits from below. -/
theorem roundBinary_le (p : Nat) (hp : 1 ≤ p) (k : ℤ) (hk : (k : ℚ) ≤ 2 ^ p) (x : ℚ)
    (hx0 : 0 < x) (hx : x ≤ (k : ℚ)) : roundBinary p x ≤ (k : ℚ) := by
  obtain ⟨e, hL, hr⟩ := roundBinary_pos p x hx0
  rw [hr]
  have he0 : (0 : ℚ) < 2 ^ e := by positivity
  have key : ∀ m : ℤ, x ≤ (m : ℚ) * 2 ^ e →
      (roundHalfEven (x / 2 ^ e) : ℚ) * 2 ^ e ≤ (m : ℚ) * 2 ^ e := by
    intro m hm
    have : roundHalfEven (x / 2 ^ e) ≤ m :=
      roundHalfEven_le m _ ((div_le_iff₀ he0).mpr hm)
    have : (roundHalfEven (x / 2 ^ e) : ℚ) ≤ m := by exact_mod_cast this
    exact mul_le_mul_of_nonneg_right this he0.le
  have hle : (2 : ℚ) ^ (e + ((p : ℤ) - 1)) ≤ 2 ^ (p : ℤ) := by
    rw [zpow_natCast]; exact hL.trans (hx.trans hk)
  have he : e + ((p : ℤ) - 1) ≤ p := (zpow_le_zpow_iff_right₀ (by norm_num : (1 : ℚ) < 2)).mp hle
  by_cases he1 : e ≤ 0
  · obtain ⟨m, hm⟩ := int_on_grid k e he1
    rw [← hm]
    exact key m (by rw [hm]; exact hx)
  · have he2 : e = 1 := by omega
    subst he2
    have hk2 : (k : ℚ) = 2 ^ p := by
      apply le_antisymm hk
      have : (2 : ℚ) ^ ((1 : ℤ) + ((p : ℤ) - 1)) = 2 ^ p := by
        rw [← zpow_natCast]; congr 1; ring
      rw [← this]; exact hL.trans hx
    have hg : (((2 : ℤ) ^ (p - 1) : ℤ) : ℚ) * 2 ^ (1 : ℤ) = k := by
      rw [hk2]; push_cast
      rw [zpow_one, ← pow_succ]
      congr 1; omega
    rw [← hg]
    exact key _ (by rw [hg]; exact hx)

/-- The `float` sum `ms + 1` of a positive `ms` is at least 1. -/
theorem one_le_floor_toFloat (ms : ℚ) (h : ms > 0) : 1 ≤ ⌊toFloat (ms + 1)⌋ := by
  have h1 : ((1 : ℤ) : ℚ) ≤ toFloat (ms + 1) :=
    le_roundBinary 24 (by decide) 1 le_rfl (by norm_num) (ms + 1)
      (by push_cast; linarith)
  exact Int.le_floor.mpr h1

/-- The timer update arms the timer with the floor of the `float` sum `ms + 1` exactly
when `ms > 0`, and leaves the callback data of the timer as it is. -/
theorem armTimer_event (ms : ℚ) (d : SSchedulingData) :
    (armTimer ms d).event =
      (if ms > 0 then { d.event with armed := some ⌊toFloat (ms + 1)⌋ } else d.event) := by
  unfold armTimer
  by_cases h : ms > 0
  · rw [if_pos h, if_pos h]
    have hne : ¬ (⌊toFloat (ms + 1)⌋ = 0) := by
      have := one_le_floor_toFloat ms h
      omega
    simp only [wl_event_source_timer_update, if_neg hne]
    simp
  · rw [if_neg h, if_neg h]

theorem renderMonitor_event (w : World) (d : SSchedulingData) :
    (renderMonitor w d).2.event = d.event := by
  rcases renderMonitor_record w d with h | h <;> rw [h]

/-! ## Every call changes the store slot by slot -/

theorem forall₂_same {R : SSchedulingData → SSchedulingData → Prop} :
    ∀ s : List SSchedulingData, List.Forall₂ (fun d n => n = d ∨ R d n) s s
  | [] => List.Forall₂.nil
  | _ :: s => List.Forall₂.cons (Or.inl rfl) (forall₂_same s)

theorem forall₂_set {R : SSchedulingData → SSchedulingData → Prop}
    {s s1 : List SSchedulingData} (h : List.Forall₂ R s s1) :
    ∀ {j : Nat} {d x : SSchedulingData}, s[j]? = some d → R d x →
      List.Forall₂ R s (s1.set j x) := by
  induction h with
  | nil => intro j d x hj; simp at hj
  | cons hab _ ih =>
    intro j d x hj hR
    cases j with
    | zero =>
      simp only [List.getElem?_cons_zero, Option.some.injEq] at hj
      subst hj
      exact List.Forall₂.cons hR (by assumption)
    | succ j =>
      simp only [List.getElem?_cons_succ] at hj
      exact List.Forall₂.cons hab (ih hj hR)

theorem replaceFirst_eq_set {sel : SSchedulingData → Bool} {d n : SSchedulingData} :
    ∀ {s : List SSchedulingData}, s.find? sel = some d →
      ∃ k, s[k]? = some d ∧ replaceFirst sel n s = s.set k n := by
  intro s
  induction s with
  | nil => intro h; simp at h
  | cons a as ih =>
    intro h
    rw [find?_cons_ite] at h
    rw [replaceFirst_cons]
    by_cases ha : sel a = true
    · rw [if_pos ha] at h
      rw [if_pos ha]
      exact ⟨0, by simpa using Option.some.inj h, rfl⟩
    · rw [if_neg ha] at h
      rw [if_neg ha]
      obtain ⟨k, hk, he⟩ := ih h
      exact ⟨k + 1, by simpa using hk, by rw [he]; rfl⟩

theorem storeFor_pointwise {R : SSchedulingData → SSchedulingData → Prop} {w : World}
    {p : MonitorPtr} {d n : SSchedulingData} (hp : dataFor w.m_vSchedulingData p = some d)
    (hR : R d n) :
    List.Forall₂ (fun d n => n = d ∨ R d n) w.m_vSchedulingData
      (w.storeFor p n).m_vSchedulingData := by
  obtain ⟨k, hk, he⟩ := replaceFirst_eq_set (n := n) hp
  show List.Forall₂ _ _ (replaceFirst _ n w.m_vSchedulingData)
  rw [he]
  exact forall₂_set (forall₂_same _) hk (Or.inr hR)

theorem storeForBuffer_pointwise {R : SSchedulingData → SSchedulingData → Prop} {w : World}
    {b : BufferPtr} {d n : SSchedulingData}
    (hb : dataForBuffer w.m_vSchedulingData b = some d) (hR : R d n) :
    List.Forall₂ (fun d n => n = d ∨ R d n) w.m_vSchedulingData
      (w.storeForBuffer b n).m_vSchedulingData := by
  obtain ⟨k, hk, he⟩ := replaceFirst_eq_set (n := n) hb
  show List.Forall₂ _ _ (replaceFirst _ n w.m_vSchedulingData)
  rw [he]
  exact forall₂_set (forall₂_same _) hk (Or.inr hR)

theorem renderMonitor_allocation (w : World) (d : SSchedulingData) :
    (renderMonitor w d).1.allocation = w.allocation := by
  unfold renderMonitor
  simp only
  split_ifs <;> rfl

/-- `onPresent` keeps the storage of the vector and changes at most the slot of the output,
by a `PresentStep`. -/
theorem onPresent_pointwise {w w' : World} {p : MonitorPtr}
    {fb : Option wlr_output_event_present} (h : onPresent w p fb = .ok w') :
    w'.allocation = w.allocation ∧
      List.Forall₂ (fun d n => n = d ∨
          (dataFor w.m_vSchedulingData p = some d ∧ PresentStep w p fb d n))
        w.m_vSchedulingData w'.m_vSchedulingData := by
  cases hp : dataFor w.m_vSchedulingData p with
  | none => simp [onPresent, hp, RASSERT] at h
  | some d =>
    by_cases hg : (w.monitors p).tearingState.activelyTearing = true ∨ d.legacyScheduler = true
    · rw [onPresent_gated fb hp hg] at h
      have hw := Except.ok.inj h
      subst hw
      exact ⟨rfl, storeFor_pointwise hp ⟨rfl, PresentStep.gated d hg⟩⟩
    · have ht : (w.monitors p).tearingState.activelyTearing = false := by
        cases h' : (w.monitors p).tearingState.activelyTearing
        · rfl
        · exact absurd (Or.inl h') hg
      have hl : d.legacyScheduler = false := by
        cases h' : d.legacyScheduler
        · rfl
        · exact absurd (Or.inr h') hg
      cases hs : d.delayedFrameSubmitted with
      | true =>
        rw [onPresent_consumes fb hp ht hl hs] at h
        have hw := Except.ok.inj h
        subst hw
        exact ⟨rfl, storeFor_pointwise hp ⟨rfl, PresentStep.consume d hl hs⟩⟩
      | false =>
        by_cases hdmg : hasDamage (w.monitors p) = false ∧
            d.forceFrames + (w.monitors p).forceFullFrames ≤ 0
        · rw [onPresent_skip fb hp ht hl hs hdmg.1 hdmg.2] at h
          have hw := Except.ok.inj h
          subst hw
          exact ⟨rfl, storeFor_pointwise hp ⟨rfl, PresentStep.skip d hl hs⟩⟩
        · have hdmg' : hasDamage (w.monitors p) = true ∨
              0 < d.forceFrames + (w.monitors p).forceFullFrames := by
            by_cases h1 : hasDamage (w.monitors p) = true
            · exact Or.inl h1
            · right
              have h2 : hasDamage (w.monitors p) = false := by simpa using h1
              by_contra hc
              exact hdmg ⟨h2, not_lt.1 hc⟩
          rw [onPresent_render fb hp ht hl hs hdmg'] at h
          have hw := Except.ok.inj h
          subst hw
          refine ⟨renderMonitor_allocation w _, ?_⟩
          have := storeFor_pointwise
            (R := fun a b => some d = some a ∧ PresentStep w p fb a b)
            (w := (renderMonitor w (cycleRecord w p fb d)).1) (p := p)
            (n := (renderMonitor w (cycleRecord w p fb d)).2)
            (by rw [renderMonitor_store]; exact hp) ⟨rfl, PresentStep.render d hl hs⟩
          rw [renderMonitor_store] at this
          exact this

theorem forall₂_imp {R S : SSchedulingData → SSchedulingData → Prop}
    (hRS : ∀ d n, R d n → S d n) {s s1 : List SSchedulingData}
    (h : List.Forall₂ R s s1) : List.Forall₂ S s s1 := by
  induction h with
  | nil => exact List.Forall₂.nil
  | cons hab _ ih => exact List.Forall₂.cons (hRS _ _ hab) ih

/-- A call other than `registerMonitor` and `unregisterMonitor` keeps the storage of the
vector, and every slot holds the record it held or the result of a `RecordStep` of the call
on that record. -/
theorem step_pointwise {w w' : World} {c : Call} (hc : c.isRegistration = false)
    (h : step w c = .ok w') :
    w'.allocation = w.allocation ∧
      List.Forall₂ (fun d n => n = d ∨ RecordStep c d n) w.m_vSchedulingData
        w'.m_vSchedulingData := by
  cases c with
  | registerMonitor p => simp [Call.isRegistration] at hc
  | unregisterMonitor p => simp [Call.isRegistration] at hc
  | onFrameNeeded p =>
    simp only [step] at h
    cases hp : dataFor w.m_vSchedulingData p with
    | none => simp [onFrameNeeded, hp, RASSERT] at h
    | some d =>
      unfold onFrameNeeded at h
      rw [hp] at h
      simp only [RASSERT] at h
      split_ifs at h with h1 h2 h3
      · rw [← Except.ok.inj h]; exact ⟨rfl, forall₂_same _⟩
      · rw [← Except.ok.inj h]
        have hl : d.legacyScheduler = false := by
          cases h' : d.legacyScheduler
          · rfl
          · exact absurd (by simp [h']) h1
        have ha : d.activelyPushing = true := by
          cases h' : d.activelyPushing
          · simp [h'] at h2
          · rfl
        exact ⟨rfl, storeFor_pointwise hp (RecordStep.needForce p d hl ha h3)⟩
      · rw [← Except.ok.inj h]; exact ⟨rfl, forall₂_same _⟩
      · have hl : d.legacyScheduler = false := by
          cases h' : d.legacyScheduler
          · rfl
          · exact absurd (by simp [h']) h1
        obtain ⟨ha, hf⟩ := onPresent_pointwise h
        refine ⟨ha, forall₂_imp ?_ hf⟩
        rintro a b (hab | ⟨hpa, hab⟩)
        · exact Or.inl hab
        · rw [hp] at hpa
          rw [← Option.some.inj hpa] at hab ⊢
          exact Or.inr (RecordStep.needPresent w p d b hl hab)
  | onPresent p fb =>
    obtain ⟨ha, hf⟩ := onPresent_pointwise h
    refine ⟨ha, forall₂_imp ?_ hf⟩
    rintro a b (hab | ⟨_, hab⟩)
    · exact Or.inl hab
    · exact Or.inr (RecordStep.present w p fb a b hab)
  | onFrame p =>
    simp only [step] at h
    cases hp : dataFor w.m_vSchedulingData p with
    | none => simp [onFrame, hp, RASSERT] at h
    | some d =>
      unfold onFrame at h
      rw [hp] at h
      simp only [RASSERT] at h
      split_ifs at h with h1
      · rw [← Except.ok.inj h]; exact ⟨rfl, forall₂_same _⟩
      · rw [← Except.ok.inj h]
        have hl : d.legacyScheduler = true := by simpa using h1
        refine ⟨renderMonitor_allocation w _, ?_⟩
        have := storeFor_pointwise (R := RecordStep (.onFrame p))
          (w := (renderMonitor w d).1) (p := p) (n := (renderMonitor w d).2)
          (by rw [renderMonitor_store]; exact hp) (RecordStep.frame w p d hl)
        rw [renderMonitor_store] at this
        exact this
  | gpuDone b =>
    simp only [step] at h
    cases hb : dataForBuffer w.m_vSchedulingData b with
    | none => simp [gpuDone, hb, RASSERT] at h
    | some d =>
      cases hdel : d.delayed with
      | false =>
        simp [gpuDone, hb, RASSERT, hdel] at h
        rw [← h]; exact ⟨rfl, forall₂_same _⟩
      | true =>
        rw [gpuDone_delayed hb hdel] at h
        rw [← Except.ok.inj h]
        exact ⟨rfl, storeForBuffer_pointwise (w := w.callRenderer d.pMonitor) hb
          (RecordStep.gpu b d hdel)⟩
  | registerBuffer b p =>
    simp only [step] at h
    cases hp : dataFor w.m_vSchedulingData p with
    | none => simp [registerBuffer, hp, RASSERT] at h
    | some d =>
      unfold registerBuffer at h
      rw [hp] at h
      simp only [RASSERT] at h
      split_ifs at h with h1
      · rw [← Except.ok.inj h]; exact ⟨rfl, forall₂_same _⟩
      · rw [← Except.ok.inj h]
        exact ⟨rfl, storeFor_pointwise hp (RecordStep.addBuffer b p d (by simpa using h1))⟩
  | dropBuffer b =>
    simp only [step, dropBuffer] at h
    rw [← Except.ok.inj h]
    refine ⟨rfl, ?_⟩
    show List.Forall₂ _ w.m_vSchedulingData (w.m_vSchedulingData.map _)
    generalize w.m_vSchedulingData = s
    induction s with
    | nil => exact List.Forall₂.nil
    | cons a as ih => exact List.Forall₂.cons (Or.inr (RecordStep.eraseBuffer b a)) ih
  | onVblankTimer i =>
    simp only [step, onPresentTimer] at h
    cases hi : w.m_vSchedulingData[i]? with
    | none => simp [hi] at h
    | some d =>
      simp only [hi] at h
      rw [← Except.ok.inj h]
      exact ⟨rfl, forall₂_set (forall₂_same _) hi (Or.inr (RecordStep.vblank i d))⟩
  | timerExpiry i =>
    simp only [step, timerExpiry] at h
    cases hi : w.m_vSchedulingData[i]? with
    | none =>
      simp only [hi] at h
      rw [← Except.ok.inj h]; exact ⟨rfl, forall₂_same _⟩
    | some d =>
      simp only [hi] at h
      cases ha : d.event.armed with
      | none =>
        simp only [ha] at h
        rw [← Except.ok.inj h]; exact ⟨rfl, forall₂_same _⟩
      | some ms =>
        simp only [ha] at h
        obtain ⟨s1, hs1⟩ : ∃ s1, s1 = w.m_vSchedulingData.set i
            { d with event := { d.event with armed := none } } := ⟨_, rfl⟩
        rw [← hs1] at h
        cases hj : World.slotAt { w with m_vSchedulingData := s1 } d.event.data with
        | none => simp [hj] at h
        | some j =>
          simp only [hj, onPresentTimer] at h
          cases hsj : s1[j]? with
          | none => simp [hsj] at h
          | some dj =>
            simp only [hsj] at h
            rw [← Except.ok.inj h]
            refine ⟨rfl, ?_⟩
            show List.Forall₂ _ w.m_vSchedulingData (s1.set j (onVblankTimer dj).1)
            by_cases hji : j = i
            · subst hji
              have hlt : j < w.m_vSchedulingData.length := by
                rcases List.getElem?_eq_some.1 hi with ⟨hlt, _⟩
                exact hlt
              rw [hs1, List.getElem?_set_self hlt] at hsj
              rw [hs1, List.set_set, ← Option.some.inj hsj]
              exact forall₂_set (forall₂_same _) hi (Or.inr (RecordStep.expire j d ms ha))
            · have hsj' : w.m_vSchedulingData[j]? = some dj := by
                rw [hs1, List.getElem?_set_ne (Ne.symm hji)] at hsj
                exact hsj
              have h1 : List.Forall₂ (fun d n => n = d ∨ RecordStep (.timerExpiry i) d n)
                  w.m_vSchedulingData s1 := by
                rw [hs1]
                exact forall₂_set (forall₂_same _) hi (Or.inr (RecordStep.disarm i d ms ha))
              exact forall₂_set h1 hsj' (Or.inr (RecordStep.fired i dj))
  | surroundings e =>
    simp only [step] at h
    rw [← Except.ok.inj h]; exact ⟨rfl, forall₂_same _⟩

theorem map_of_forall₂ {β : Type} (f : SSchedulingData → β)
    {R : SSchedulingData → SSchedulingData → Prop} (hf : ∀ d n, R d n → f n = f d)
    {s s1 : List SSchedulingData} (h : List.Forall₂ (fun d n => n = d ∨ R d n) s s1) :
    s1.map f = s.map f := by
  induction h with
  | nil => rfl
  | cons hab _ ih =>
    simp only [List.map_cons, ih]
    rcases hab with hab | hab
    · rw [hab]
    · rw [hf _ _ hab]

/-! ## C7: legacy outputs -/

theorem armTimer_data (ms : ℚ) (d : SSchedulingData) :
    (armTimer ms d).event.data = d.event.data := by
  by_cases h : ms > 0 <;> simp [armTimer_event, h]

theorem presentStep_data {w : World} {p : MonitorPtr}
    {fb : Option wlr_output_event_present} {d n : SSchedulingData}
    (h : PresentStep w p fb d n) : n.event.data = d.event.data := by
  cases h with
  | gated _ => rfl
  | consume _ _ => rfl
  | skip _ _ =>
    show (stateReset w d).event.data = d.event.data
    rw [(stateReset_fields w d).2.2.2.2.2.2.2.2.2]
  | render _ _ =>
    rw [renderMonitor_event]
    unfold cycleRecord
    rw [armTimer_data, (vblankComputation_fields _ _ _ _).2.2.2.2.2.2.2.2,
      (stateReset_fields w d).2.2.2.2.2.2.2.2.2]

/-- No call changes the callback data of a timer. -/
theorem recordStep_data {c : Call} {d n : SSchedulingData} (h : RecordStep c d n) :
    n.event.data = d.event.data := by
  cases h with
  | needForce p _ _ _ _ => rfl
  | needPresent w p _ _ _ hs => exact presentStep_data hs
  | present w p fb _ _ hs => exact presentStep_data hs
  | frame w p _ _ => rw [renderMonitor_event]
  | gpu b _ _ => rfl
  | addBuffer b p _ _ => rfl
  | eraseBuffer b _ => rfl
  | vblank i _ =>
    rcases onVblankTimer_record d with h | h <;> rw [h]
  | expire i _ ms _ =>
    rcases onVblankTimer_record { d with event := { d.event with armed := none } }
      with h | h <;> rw [h]
  | disarm i _ ms _ => rfl
  | fired i _ =>
    rcases onVblankTimer_record d with h | h <;> rw [h]

theorem presentStep_legacyIdle {w : World} {p : MonitorPtr}
    {fb : Option wlr_output_event_present} {d n : SSchedulingData}
    (h : PresentStep w p fb d n) : legacyIdle n := by
  cases h with
  | gated _ => intro _; rfl
  | consume hl _ => intro h; rw [hl] at h; exact absurd h (by decide)
  | skip hl hs =>
    intro h
    have hn := (presentStep_legacy (@PresentStep.skip w p fb d hl hs)).trans hl
    exact absurd (hn.symm.trans h) (by decide)
  | render hl hs =>
    intro h
    have hn := (presentStep_legacy (@PresentStep.render w p fb d hl hs)).trans hl
    exact absurd (hn.symm.trans h) (by decide)

/-- Every call, the timer callback included, leaves a legacy record not pushing. -/
theorem recordStep_legacyIdle {c : Call} {d n : SSchedulingData}
    (hd : legacyIdle d) (h : RecordStep c d n) : legacyIdle n := by
  cases h with
  | needForce p _ hl _ _ => intro h; rw [hl] at h; exact absurd h (by decide)
  | needPresent w p _ _ _ hs => exact presentStep_legacyIdle hs
  | present w p fb _ _ hs => exact presentStep_legacyIdle hs
  | frame w p _ _ =>
    rcases renderMonitor_record w d with h | h
    · rw [h]; exact hd
    · rw [h]; exact hd
  | gpu b _ _ => exact hd
  | addBuffer b p _ _ => exact hd
  | eraseBuffer b _ => exact hd
  | vblank i _ =>
    rcases onVblankTimer_record d with h | h
    · rw [h]; exact hd
    · rw [h]; exact hd
  | expire i _ ms _ =>
    rcases onVblankTimer_record { d with event := { d.event with armed := none } }
      with h | h
    · rw [h]; exact hd
    · rw [h]; exact hd
  | disarm i _ ms _ => exact hd
  | fired i _ =>
    rcases onVblankTimer_record d with h | h
    · rw [h]; exact hd
    · rw [h]; exact hd

theorem forall₂_getElem? {R : SSchedulingData → SSchedulingData → Prop}
    {s s1 : List SSchedulingData} (h : List.Forall₂ R s s1) :
    ∀ {i : Nat} {n : SSchedulingData}, s1[i]? = some n → ∃ d, s[i]? = some d ∧ R d n := by
  induction h with
  | nil => intro i n hi; simp at hi
  | cons hab _ ih =>
    intro i n hi
    cases i with
    | zero =>
      simp only [List.getElem?_cons_zero, Option.some.injEq] at hi
      subst hi
      exact ⟨_, by simp, hab⟩
    | succ i =>
      simp only [List.getElem?_cons_succ] at hi
      simpa using ih hi

/-- What `registerMonitor` does for an output without a record. -/
theorem registerMonitor_append {w : World} {p : MonitorPtr}
    (hp : dataFor w.m_vSchedulingData p = none) :
    (registerMonitor w p).m_vSchedulingData = w.m_vSchedulingData ++
      [freshRecord p (!wlr_backend_is_drm (w.monitors p).output.backend)
        { allocation := w.reserveSlot.allocation, index := w.m_vSchedulingData.length }] ∧
    (registerMonitor w p).allocation = w.reserveSlot.allocation := by
  unfold registerMonitor
  rw [hp]
  simp [reserveSlot_store, reserveSlot_monitors, freshRecord]

/-- While the timers own their slots, an expiry runs the callback on the record whose timer
expired. -/
theorem timerExpiry_own {w w' : World} {i : Nat} (ho : timersOwnSlots w)
    (h : timerExpiry w i = .ok w') :
    w'.m_vSchedulingData = w.m_vSchedulingData ∨
      ∃ d ms, w.m_vSchedulingData[i]? = some d ∧ d.event.armed = some ms ∧
        w'.m_vSchedulingData = w.m_vSchedulingData.set i
          (onVblankTimer { d with event := { d.event with armed := none } }).1 := by
  unfold timerExpiry at h
  cases hi : w.m_vSchedulingData[i]? with
  | none =>
    simp only [hi] at h
    rw [← Except.ok.inj h]; exact Or.inl rfl
  | some d =>
    simp only [hi] at h
    cases ha : d.event.armed with
    | none =>
      simp only [ha] at h
      rw [← Except.ok.inj h]; exact Or.inl rfl
    | some ms =>
      simp only [ha] at h
      have hlt : i < w.m_vSchedulingData.length := by
        rcases List.getElem?_eq_some.1 hi with ⟨hlt, _⟩
        exact hlt
      right
      refine ⟨d, ms, rfl, ha, ?_⟩
      unfold World.slotAt at h
      simp only [List.length_set] at h
      by_cases hv : d.event.data.allocation = w.allocation ∧
          d.event.data.index < w.m_vSchedulingData.length
      · rw [if_pos hv] at h
        have hidx : d.event.data.index = i := (ho i d hi).2 hv.1
        rw [hidx] at h
        simp only [onPresentTimer, List.getElem?_set_self hlt, List.set_set] at h
        rw [← Except.ok.inj h]
      · rw [if_neg hv] at h
        simp at h

/-- After the vector has grown, the timer of the first record holds an address of the old
storage: the record of output 1 sits in slot 0 of the second storage, its timer still points
into the first, and the expiry of that timer, once armed, is a fault. -/
theorem timerExpiry_dangling :
    (observe (run emptyWorld [.registerMonitor 1, .registerMonitor 2,
        .surroundings (surroundingsWith damagedMonitor), .onPresent 1 (some feedback60)])).map
      (fun r => r.1.map (fun d => (d.pMonitor, d.event.armed, d.event.data.allocation))) =
      some [(1, some 12, 1), (2, none, 2)] ∧
    observe (run emptyWorld [.registerMonitor 1, .registerMonitor 2,
        .surroundings (surroundingsWith damagedMonitor), .onPresent 1 (some feedback60),
        .timerExpiry 0]) = none := by
  refine ⟨by decide!, by decide!⟩

/-- One call that is neither a direct call of the timer callback nor `unregisterMonitor`
keeps the legacy records quiet and the timers on their slots. -/
theorem step_legacyQuiet {w w' : World} {c : Call} (hd : c.isDirectTimerCall = false)
    (hu : c.isUnregisterMonitor = false)
    (hq : ∀ d ∈ w.m_vSchedulingData, legacyQuiet d) (ho : timersOwnSlots w)
    (h : step w c = .ok w') :
    (∀ d ∈ w'.m_vSchedulingData, legacyQuiet d) ∧ timersOwnSlots w' := by
  by_cases hreg : c.isRegistration = true
  · cases c with
    | registerMonitor p =>
      simp only [step] at h
      rw [← Except.ok.inj h]
      cases hp : dataFor w.m_vSchedulingData p with
      | some d =>
        have : registerMonitor w p = w := by
          unfold registerMonitor; rw [hp]
        rw [this]; exact ⟨hq, ho⟩
      | none =>
        obtain ⟨hs, ha⟩ := registerMonitor_append hp
        constructor
        · intro x hx
          rw [hs] at hx
          rcases List.mem_append.1 hx with hx | hx
          · exact hq x hx
          · rw [List.mem_singleton.1 hx]
            intro _
            exact ⟨rfl, rfl, rfl⟩
        · intro i x hx
          rw [hs] at hx
          rw [ha]
          have hle := reserveSlot_allocation w
          by_cases hi : i < w.m_vSchedulingData.length
          · rw [List.getElem?_append_left hi] at hx
            obtain ⟨h1, h2⟩ := ho i x hx
            refine ⟨h1.trans hle, fun he => h2 ?_⟩
            omega
          · rw [List.getElem?_append_right (not_lt.1 hi)] at hx
            cases hk : i - w.m_vSchedulingData.length with
            | zero =>
              rw [hk] at hx
              simp only [List.getElem?_cons_zero, Option.some.injEq] at hx
              rw [← hx]
              refine ⟨le_rfl, fun _ => ?_⟩
              show w.m_vSchedulingData.length = i
              omega
            | succ k =>
              rw [hk] at hx
              simp at hx
    | unregisterMonitor p => simp [Call.isUnregisterMonitor] at hu
    | onFrameNeeded p => simp [Call.isRegistration] at hreg
    | onPresent p fb => simp [Call.isRegistration] at hreg
    | onFrame p => simp [Call.isRegistration] at hreg
    | gpuDone b => simp [Call.isRegistration] at hreg
    | registerBuffer b p => simp [Call.isRegistration] at hreg
    | dropBuffer b => simp [Call.isRegistration] at hreg
    | onVblankTimer i => simp [Call.isRegistration] at hreg
    | timerExpiry i => simp [Call.isRegistration] at hreg
    | surroundings e => simp [Call.isRegistration] at hreg
  · have hreg' : c.isRegistration = false := by simpa using hreg
    obtain ⟨ha, hf⟩ := step_pointwise hreg' h
    refine ⟨?_, ?_⟩
    · by_cases ht : c.isTimerCall = true
      · cases c with
        | timerExpiry i =>
          simp only [step] at h
          rcases timerExpiry_own ho h with hs | ⟨d, ms, hi, harm, hs⟩
          · rw [hs]; exact hq
          · intro x hx
            rw [hs] at hx
            rcases List.mem_or_eq_of_mem_set hx with hx | hx
            · exact hq x hx
            · rw [hx]
              exact expire_legacyQuiet (hq d (List.getElem?_mem hi)) harm
        | onVblankTimer i => simp [Call.isDirectTimerCall] at hd
        | registerMonitor p => simp [Call.isTimerCall] at ht
        | unregisterMonitor p => simp [Call.isTimerCall] at ht
        | onFrameNeeded p => simp [Call.isTimerCall] at ht
        | onPresent p fb => simp [Call.isTimerCall] at ht
        | onFrame p => simp [Call.isTimerCall] at ht
        | gpuDone b => simp [Call.isTimerCall] at ht
        | registerBuffer b p => simp [Call.isTimerCall] at ht
        | dropBuffer b => simp [Call.isTimerCall] at ht
        | surroundings e => simp [Call.isTimerCall] at ht
      · have ht' : c.isTimerCall = false := by simpa using ht
        intro x hx
        obtain ⟨i, hi⟩ := List.getElem?_of_mem hx
        obtain ⟨d, hdi, hR⟩ := forall₂_getElem? hf hi
        rcases hR with hR | hR
        · rw [hR]; exact hq d (List.getElem?_mem hdi)
        · exact recordStep_legacyQuiet ht' (hq d (List.getElem?_mem hdi)) hR
    · intro i x hx
      obtain ⟨d, hdi, hR⟩ := forall₂_getElem? hf hx
      have hdata : x.event.data = d.event.data := by
        rcases hR with hR | hR
        · rw [hR]
        · exact recordStep_data hR
      rw [hdata, ha]
      exact ho i d hdi

/-- A run without direct calls of the timer callback and without `unregisterMonitor` keeps
the legacy records quiet and the timers on their slots. -/
theorem run_legacyQuiet :
    ∀ (cs : List Call) (w w' : World),
      (∀ c ∈ cs, c.isDirectTimerCall = false ∧ c.isUnregisterMonitor = false) →
      (∀ d ∈ w.m_vSchedulingData, legacyQuiet d) → timersOwnSlots w → run w cs = .ok w' →
      (∀ d ∈ w'.m_vSchedulingData, legacyQuiet d) ∧ timersOwnSlots w' := by
  intro cs
  induction cs with
  | nil =>
    intro w w' _ hq ho hrun
    simp only [run] at hrun
    rw [← Except.ok.inj hrun]
    exact ⟨hq, ho⟩
  | cons c cs ih =>
    intro w w' hperm hq ho hrun
    simp only [run] at hrun
    cases hs : step w c with
    | error e => simp [hs] at hrun
    | ok w1 =>
      simp only [hs] at hrun
      obtain ⟨hq1, ho1⟩ := step_legacyQuiet (hperm c (List.mem_cons_self _ _)).1
        (hperm c (List.mem_cons_self _ _)).2 hq ho hs
      exact ih w1 w' (fun c' hc' => hperm c' (List.mem_cons_of_mem _ hc')) hq1 ho1 hrun

/-- C7 (as amended): after every run from a store without records, for every output whose
record is legacy `onFrameNeeded` and `onPresent` return leaving the whole world, hence the
record and the renderer log, unchanged; and if the run has no `unregisterMonitor` call and
no call of the timer callback other than the expiry of an armed timer, then every call
other than `onFrame` invokes the renderer at most once and only for a non-legacy record. -/
theorem C7_legacy_bypass (w0 : World) (h0 : w0.m_vSchedulingData = []) (cs : List Call)
    (w : World) (hrun : run w0 cs = .ok w) :
    (∀ (p : MonitorPtr) (d : SSchedulingData) (fb : Option wlr_output_event_present),
      dataFor w.m_vSchedulingData p = some d → d.legacyScheduler = true →
      onFrameNeeded w p = .ok w ∧ onPresent w p fb = .ok w) ∧
    ((∀ c ∈ cs, c.isDirectTimerCall = false ∧ c.isUnregisterMonitor = false) →
      ∀ (c : Call) (w' : World), c.isOnFrame = false → step w c = .ok w' →
        w'.renderCalls = w.renderCalls ∨
          ∃ d ∈ w.m_vSchedulingData, d.legacyScheduler = false ∧
            w'.renderCalls = w.renderCalls ++ [d.pMonitor]) := by
  have hnil : ∀ (P : SSchedulingData → Prop), ∀ d ∈ w0.m_vSchedulingData, P d := by
    intro P d hd
    rw [h0] at hd
    exact absurd hd (List.not_mem_nil d)
  constructor
  · have hidle : ∀ d ∈ w.m_vSchedulingData, legacyIdle d :=
      run_invariant legacyIdle (fun _ => True) (fun _ _ _ _ => rfl)
        (fun _ _ _ _ hd hs => recordStep_legacyIdle hd hs) cs w0 w (fun _ _ => trivial)
        (hnil legacyIdle) hrun
    intro p d fb hp hl
    have hq := hidle d (dataFor_mem hp) hl
    constructor
    · unfold onFrameNeeded
      rw [hp]
      simp only [RASSERT]
      rw [if_pos (by simp [hl])]
    · rw [onPresent_gated fb hp (Or.inr hl)]
      have hd : { d with activelyPushing := false } = d := by
        cases d
        simp only [SSchedulingData.mk.injEq, true_and, and_true]
        exact hq.symm
      rw [hd, storeFor_same hp]
  · intro hcs c w' hc hs
    have hown : timersOwnSlots w0 := by
      intro i d hd
      rw [h0] at hd
      simp at hd
    exact step_renderCalls (run_legacyQuiet cs w0 w hcs (hnil legacyQuiet) hown hrun).1 hc hs

/-- C7, witness: `legacyFirstTrace` from `emptyWorld`, a run without `unregisterMonitor`
and without direct calls of the timer callback; the timer of the non-legacy output 1
expires and marks its own record delayed, the legacy record of output 5 stays as `onFrame`
left it, and `gpuDone(7)` does not invoke the renderer. -/
theorem C7_legacy_bypass_witness :
    ∃ w, run emptyWorld legacyFirstTrace = .ok w ∧
      (w.m_vSchedulingData.map (fun d => (d.pMonitor, d.legacyScheduler, d.delayed)),
        w.renderCalls) = ([(5, true, false), (1, false, true)], [5, 1]) ∧
      (∀ (p : MonitorPtr) (d : SSchedulingData) (fb : Option wlr_output_event_present),
        dataFor w.m_vSchedulingData p = some d → d.legacyScheduler = true →
        onFrameNeeded w p = .ok w ∧ onPresent w p fb = .ok w) ∧
      (∀ (c : Call) (w' : World), c.isOnFrame = false → step w c = .ok w' →
        w'.renderCalls = w.renderCalls ∨
          ∃ d ∈ w.m_vSchedulingData, d.legacyScheduler = false ∧
            w'.renderCalls = w.renderCalls ++ [d.pMonitor]) := by
  have hl : (observe (run emptyWorld legacyFirstTrace)).map
      (fun r => (r.1.map (fun d => (d.pMonitor, d.legacyScheduler, d.delayed)), r.2)) =
      some ([(5, true, false), (1, false, true)], [5, 1]) := by
    decide!
  cases h : run emptyWorld legacyFirstTrace with
  | error e =>
    rw [h] at hl
    simp [observe] at hl
  | ok w =>
    rw [h] at hl
    have hC := C7_legacy_bypass emptyWorld rfl legacyFirstTrace w h
    exact ⟨w, rfl, by simpa [observe] using hl, hC.1, hC.2 (by decide)⟩

/-- C7, counterexample: two runs from `emptyWorld` in which `gpuDone` invokes the renderer
for a legacy output.  In `legacyTimerTrace` the record of output 3 is legacy; `onFrame`
invokes the renderer once; the timer callback, called on that record, sets `delayed`; and
`gpuDone(7)` then invokes the renderer for the legacy output a second time.  In
`staleTimerTrace` no call runs the timer callback directly: the timer of the non-legacy
output 3 was created with the address of slot 2, `unregisterMonitor(2)` moves the record
to slot 1, the legacy output 5 is registered into slot 2 and rendered by `onFrame`; the
present of output 3 arms the timer, its expiry runs the callback on slot 2 and sets
`delayed` of the legacy record, and `gpuDone(7)` invokes the renderer for output 5. -/
theorem C7_counterexample :
    (observe (run emptyWorld (legacyTimerTrace.take 4))).map
        (fun r => (r.1.map (fun d => (d.legacyScheduler, d.rendered, d.delayed)), r.2)) =
      some ([(true, true, false)], [3]) ∧
    (observe (run emptyWorld (legacyTimerTrace.take 5))).map
        (fun r => (r.1.map (fun d => (d.legacyScheduler, d.rendered, d.delayed)), r.2)) =
      some ([(true, true, true)], [3]) ∧
    (observe (run emptyWorld legacyTimerTrace)).map
        (fun r => (r.1.map (fun d => (d.legacyScheduler, d.rendered, d.delayed)), r.2)) =
      some ([(true, true, true)], [3, 3]) ∧
    (∀ c ∈ staleTimerTrace, c.isDirectTimerCall = false) ∧
    (observe (run emptyWorld (staleTimerTrace.take 9))).map
        (fun r => r.1.map (fun d => (d.pMonitor, d.event.armed, d.event.data.index))) =
      some [(1, none, 0), (3, some 12, 2), (5, none, 2)] ∧
    (observe (run emptyWorld (staleTimerTrace.take 9))).map
        (fun r => (r.1.map (fun d => (d.pMonitor, d.legacyScheduler, d.delayed)), r.2)) =
      some ([(1, false, false), (3, false, false), (5, true, false)], [5, 3]) ∧
    (observe (run emptyWorld (staleTimerTrace.take 10))).map
        (fun r => (r.1.map (fun d => (d.pMonitor, d.legacyScheduler, d.delayed)), r.2)) =
      some ([(1, false, false), (3, false, false), (5, true, true)], [5, 3]) ∧
    (observe (run emptyWorld staleTimerTrace)).map
        (fun r => (r.1.map (fun d => (d.pMonitor, d.legacyScheduler, d.delayed)), r.2)) =
      some ([(1, false, false), (3, false, false), (5, true, true)], [5, 3, 5]) := by
  refine ⟨by decide, by decide, by decide, by decide, by decide!, by decide!, by decide!,
    by decide!⟩

/-! ## C8: unknown outputs and buffers -/

theorem dataFor_isSome_iff (s : List SSchedulingData) (M : MonitorPtr) :
    (dataFor s M).isSome = true ↔ M ∈ s.map (fun d => d.pMonitor) := by
  induction s with
  | nil => simp [dataFor]
  | cons a as ih =>
    rw [dataFor_cons]
    by_cases ha : a.pMonitor = M
    · simp [ha]
    · rw [if_neg ha, ih]
      simp only [List.map_cons, List.mem_cons]
      constructor
      · exact Or.inr
      · rintro (h | h)
        · exact absurd h.symm ha
        · exact h

theorem dataFor_eq_none_iff (s : List SSchedulingData) (M : MonitorPtr) :
    dataFor s M = none ↔ M ∉ s.map (fun d => d.pMonitor) := by
  rw [← dataFor_isSome_iff]
  cases dataFor s M <;> simp

/-- `registerMonitor` on a registered output changes nothing. -/
theorem registerMonitor_registered {w : World} {M : MonitorPtr} {d : SSchedulingData}
    (h : dataFor w.m_vSchedulingData M = some d) : registerMonitor w M = w := by
  unfold registerMonitor
  rw [h]

/-- `unregisterMonitor` on an absent output changes nothing. -/
theorem unregisterMonitor_absent {w : World} {M : MonitorPtr}
    (h : dataFor w.m_vSchedulingData M = none) : unregisterMonitor w M = w := by
  unfold unregisterMonitor
  have hall : w.m_vSchedulingData.filter (fun d => !(d.pMonitor == M)) =
      w.m_vSchedulingData := by
    rw [List.filter_eq_self]
    intro a ha
    have hnone := List.find?_eq_none.1 h a ha
    simpa using hnone
  rw [hall]

/-- `dropBuffer` for a buffer tracked by no record changes nothing. -/
theorem dropBuffer_untracked {w : World} {b : BufferPtr}
    (h : dataForBuffer w.m_vSchedulingData b = none) : dropBuffer w b = w := by
  unfold dropBuffer
  have hall : w.m_vSchedulingData.map (fun (d : SSchedulingData) =>
      { d with buffers := d.buffers.filter (fun x => !(x == b)) }) = w.m_vSchedulingData := by
    conv_rhs => rw [← List.map_id w.m_vSchedulingData]
    apply List.map_congr_left
    intro d hd
    show _ = d
    have hnot : ¬ d.buffers.contains b = true := List.find?_eq_none.1 h d hd
    have hkeep : d.buffers.filter (fun x => !(x == b)) = d.buffers := by
      rw [List.filter_eq_self]
      intro x hx
      have hxb : ¬ x = b := by
        intro hxb
        subst hxb
        exact hnot (by simpa using hx)
      simp [hxb]
    rw [hkeep]
  simp only [hall]

/-- C8 (as amended): for every store state, `gpuDone(b)` for a buffer tracked by no record,
and `onFrameNeeded`, `onPresent`, `onFrame` and `registerBuffer` for an output that has no
record, do not complete normally: each fails its `RASSERT` before it reads or writes
anything, so no record is modified and the renderer is not invoked, but the call is a
fatal assertion failure and not a no-op.  The calls that are no-ops on an unknown identity
are `unregisterMonitor` and `dropBuffer`, and `isMonitorUsingLegacyScheduler` answers
`true`. -/
theorem C8_unknown_identity_asserts (w : World) :
    (∀ b : BufferPtr, dataForBuffer w.m_vSchedulingData b = none →
      gpuDone w b = .error Fault.assertionFailed ∧ dropBuffer w b = w) ∧
    (∀ p : MonitorPtr, dataFor w.m_vSchedulingData p = none →
      onFrameNeeded w p = .error Fault.assertionFailed ∧
      (∀ fb, onPresent w p fb = .error Fault.assertionFailed) ∧
      onFrame w p = .error Fault.assertionFailed ∧
      (∀ b, registerBuffer w b p = .error Fault.assertionFailed) ∧
      unregisterMonitor w p = w ∧ isMonitorUsingLegacyScheduler w p = true) := by
  constructor
  · intro b hb
    exact ⟨by simp [gpuDone, hb, RASSERT], dropBuffer_untracked hb⟩
  · intro p hp
    refine ⟨?_, ?_, ?_, ?_, unregisterMonitor_absent hp, ?_⟩
    · simp [onFrameNeeded, hp, RASSERT]
    · intro fb
      simp [onPresent, hp, RASSERT]
    · simp [onFrame, hp, RASSERT]
    · intro b
      simp [registerBuffer, hp, RASSERT]
    · simp [isMonitorUsingLegacyScheduler, hp]

/-- C8, witness: buffer 7 and output 1 in the world without records. -/
theorem C8_unknown_identity_asserts_witness :
    (gpuDone emptyWorld 7 = .error Fault.assertionFailed ∧ dropBuffer emptyWorld 7 = emptyWorld) ∧
    onFrameNeeded emptyWorld 1 = .error Fault.assertionFailed ∧
    (∀ fb, onPresent emptyWorld 1 fb = .error Fault.assertionFailed) ∧
    onFrame emptyWorld 1 = .error Fault.assertionFailed ∧
    (∀ b, registerBuffer emptyWorld b 1 = .error Fault.assertionFailed) ∧
    unregisterMonitor emptyWorld 1 = emptyWorld ∧
    isMonitorUsingLegacyScheduler emptyWorld 1 = true :=
  ⟨(C8_unknown_identity_asserts emptyWorld).1 7 (by decide),
   (C8_unknown_identity_asserts emptyWorld).2 1 (by decide)⟩

/-- C8, counterexample: with outputs 1 and 2 registered and no buffer tracked,
`gpuDone(7)` ends in an assertion failure, and so does `onPresent(3)` for the unknown
output 3. -/
theorem C8_counterexample :
    dataForBuffer twoOutputs.m_vSchedulingData 7 = none ∧
    gpuDone twoOutputs 7 = .error Fault.assertionFailed ∧
    dataFor twoOutputs.m_vSchedulingData 3 = none ∧
    onPresent twoOutputs 3 none = .error Fault.assertionFailed := by
  refine ⟨by decide, rfl, by decide, rfl⟩


theorem mem_registerMonitor (w : World) (p M : MonitorPtr) :
    M ∈ (registerMonitor w p).m_vSchedulingData.map (fun d => d.pMonitor) ↔
      M = p ∨ M ∈ w.m_vSchedulingData.map (fun d => d.pMonitor) := by
  unfold registerMonitor
  cases hp : dataFor w.m_vSchedulingData p with
  | some d =>
    simp only
    constructor
    · exact Or.inr
    · rintro (h | h)
      · rw [h, ← dataFor_isSome_iff, hp]; rfl
      · exact h
  | none =>
    simp only [reserveSlot_store, List.map_append, List.mem_append, List.map_cons,
      List.map_nil, List.mem_singleton]
    constructor
    · rintro (h | h)
      · exact Or.inr h
      · exact Or.inl h
    · rintro (h | h)
      · exact Or.inr h
      · exact Or.inl h

theorem nodup_registerMonitor (w : World) (p : MonitorPtr)
    (h : (w.m_vSchedulingData.map (fun d => d.pMonitor)).Nodup) :
    ((registerMonitor w p).m_vSchedulingData.map (fun d => d.pMonitor)).Nodup := by
  unfold registerMonitor
  cases hp : dataFor w.m_vSchedulingData p with
  | some d => exact h
  | none =>
    simp only [reserveSlot_store, List.map_append, List.map_cons, List.map_nil]
    rw [List.nodup_append]
    refine ⟨h, List.nodup_singleton _, ?_⟩
    intro a ha hb
    rw [List.mem_singleton] at hb
    subst hb
    exact (dataFor_eq_none_iff _ _).1 hp ha

theorem map_unregisterMonitor (w : World) (p : MonitorPtr) :
    (unregisterMonitor w p).m_vSchedulingData.map (fun d => d.pMonitor) =
      (w.m_vSchedulingData.map (fun d => d.pMonitor)).filter (fun q => !(q == p)) := by
  unfold unregisterMonitor
  simp only [List.filter_map]
  rfl


theorem registeredAfter_cons (init : Bool) (c : Call) (cs : List Call) (M : MonitorPtr) :
    registeredAfter init (c :: cs) M =
      registeredAfter
        (match c with
          | .registerMonitor p => if p = M then true else init
          | .unregisterMonitor p => if p = M then false else init
          | _ => init) cs M := rfl

/-- A run of hotplug calls returns, keeps one record per output, and leaves exactly the
outputs registered whose last hotplug call was a registration. -/
theorem run_hotplug (cs : List Call) :
    ∀ w : World, (∀ c ∈ cs, c.isHotplug = true) →
      (w.m_vSchedulingData.map (fun d => d.pMonitor)).Nodup →
      ∃ w', run w cs = .ok w' ∧ (w'.m_vSchedulingData.map (fun d => d.pMonitor)).Nodup ∧
        ∀ M, M ∈ w'.m_vSchedulingData.map (fun d => d.pMonitor) ↔
          registeredAfter (decide (M ∈ w.m_vSchedulingData.map (fun d => d.pMonitor)))
            cs M = true := by
  induction cs with
  | nil =>
    intro w _ hn
    exact ⟨w, rfl, hn, fun M => by simp [registeredAfter]⟩
  | cons c cs ih =>
    intro w hcs hn
    have hrest : ∀ c' ∈ cs, c'.isHotplug = true :=
      fun c' hc' => hcs c' (List.mem_cons_of_mem _ hc')
    have hc : c.isHotplug = true := hcs c (List.mem_cons_self _ _)
    cases c with
    | registerMonitor p =>
      obtain ⟨w', hrun, hn', hmem⟩ := ih (registerMonitor w p) hrest
        (nodup_registerMonitor w p hn)
      refine ⟨w', by simp only [run, step]; exact hrun, hn', fun M => ?_⟩
      rw [hmem M, registeredAfter_cons]
      have : decide (M ∈ (registerMonitor w p).m_vSchedulingData.map (fun d => d.pMonitor)) =
          (if p = M then true
            else decide (M ∈ w.m_vSchedulingData.map (fun d => d.pMonitor))) := by
        by_cases hpM : p = M
        · rw [if_pos hpM]
          exact decide_eq_true ((mem_registerMonitor w p M).2 (Or.inl hpM.symm))
        · rw [if_neg hpM]
          apply decide_eq_decide.2
          rw [mem_registerMonitor]
          constructor
          · rintro (h | h)
            · exact absurd h.symm hpM
            · exact h
          · exact Or.inr
      rw [this]
    | unregisterMonitor p =>
      have hn1 : ((unregisterMonitor w p).m_vSchedulingData.map (fun d => d.pMonitor)).Nodup := by
        rw [map_unregisterMonitor]
        exact hn.filter _
      obtain ⟨w', hrun, hn', hmem⟩ := ih (unregisterMonitor w p) hrest hn1
      refine ⟨w', by simp only [run, step]; exact hrun, hn', fun M => ?_⟩
      rw [hmem M, registeredAfter_cons]
      have : decide (M ∈ (unregisterMonitor w p).m_vSchedulingData.map
            (fun d => d.pMonitor)) =
          (if p = M then false
            else decide (M ∈ w.m_vSchedulingData.map (fun d => d.pMonitor))) := by
        rw [map_unregisterMonitor]
        by_cases hpM : p = M
        · rw [if_pos hpM]
          apply decide_eq_false
          rw [List.mem_filter]
          rintro ⟨_, h⟩
          simp [hpM] at h
        · rw [if_neg hpM]
          apply decide_eq_decide.2
          rw [List.mem_filter]
          constructor
          · exact fun h => h.1
          · intro h
            refine ⟨h, ?_⟩
            have : ¬ M = p := fun h' => hpM h'.symm
            simp [this]
      rw [this]
    | surroundings e =>
      obtain ⟨w', hrun, hn', hmem⟩ := ih (w.withSurroundings e) hrest hn
      exact ⟨w', by simp only [run, step]; exact hrun, hn', fun M => by
        rw [hmem M, registeredAfter_cons]; rfl⟩
    | onFrameNeeded p => simp [Call.isHotplug] at hc
    | onPresent p fb => simp [Call.isHotplug] at hc
    | onFrame p => simp [Call.isHotplug] at hc
    | gpuDone b => simp [Call.isHotplug] at hc
    | registerBuffer b p => simp [Call.isHotplug] at hc
    | dropBuffer b => simp [Call.isHotplug] at hc
    | onVblankTimer i => simp [Call.isHotplug] at hc
    | timerExpiry i => simp [Call.isHotplug] at hc

/-! ## C9: the store and the registered outputs -/

/-- C9: every finite sequence of `registerMonitor`/`unregisterMonitor` calls (interleaved
with changes of the surroundings) from the empty store returns; afterwards the store holds
at most one record per output, and holds a record for output `M` exactly when the last
register/unregister call naming `M` was a register.  In every world, whatever the flags and
buffers of its records, `registerMonitor` on a registered output leaves the whole world,
hence the store and that record, unchanged, and `unregisterMonitor` on an absent output
leaves the whole world unchanged. -/
theorem C9_store_models_registered_outputs :
    (∀ (w0 : World) (cs : List Call), w0.m_vSchedulingData = [] →
      (∀ c ∈ cs, c.isHotplug = true) →
      ∃ w, run w0 cs = .ok w ∧
        (w.m_vSchedulingData.map (fun d => d.pMonitor)).Nodup ∧
        (∀ M, (dataFor w.m_vSchedulingData M).isSome = registeredAfter false cs M)) ∧
    (∀ (w : World) (M : MonitorPtr) (d : SSchedulingData),
      dataFor w.m_vSchedulingData M = some d → registerMonitor w M = w) ∧
    (∀ (w : World) (M : MonitorPtr),
      dataFor w.m_vSchedulingData M = none → unregisterMonitor w M = w) := by
  refine ⟨?_, fun w M d h => registerMonitor_registered h,
    fun w M h => unregisterMonitor_absent h⟩
  intro w0 cs h0 hcs
  obtain ⟨w, hrun, hn, hmem⟩ := run_hotplug cs w0 hcs (by rw [h0]; exact List.nodup_nil)
  refine ⟨w, hrun, hn, fun M => ?_⟩
  have h := hmem M
  rw [h0] at h
  simp only [List.map_nil, List.not_mem_nil, decide_False] at h
  rw [Bool.eq_iff_iff, dataFor_isSome_iff]
  exact h

/-- C9, witness: `hotplugTrace` from the world without records ends with output 2 alone
registered; `registerMonitor(1)` leaves `delayedWorld`, whose record of output 1 has flags
set and tracks buffer 7, unchanged; and `unregisterMonitor(2)` leaves it unchanged. -/
theorem C9_store_models_registered_outputs_witness :
    (∃ w, run emptyWorld hotplugTrace = .ok w ∧
      (w.m_vSchedulingData.map (fun d => d.pMonitor)).Nodup ∧
      (∀ M, (dataFor w.m_vSchedulingData M).isSome = registeredAfter false hotplugTrace M)) ∧
    registerMonitor delayedWorld 1 = delayedWorld ∧
    unregisterMonitor delayedWorld 2 = delayedWorld :=
  ⟨C9_store_models_registered_outputs.1 emptyWorld hotplugTrace rfl (by decide),
   C9_store_models_registered_outputs.2.1 delayedWorld 1 delayedRecord (by decide),
   C9_store_models_registered_outputs.2.2 delayedWorld 2 (by decide)⟩

theorem truncToInt_intCast (n : Int) : truncToInt (n : ℚ) = n := by
  unfold truncToInt
  split_ifs
  · exact Int.floor_intCast n
  · exact Int.ceil_intCast n

/-- With feedback that reports a refresh period, the vblank computation yields
`msUntilVblank = refresh / 10^6 - (whole milliseconds from when to now)`, computed in
`double` and stored in a `float`, and stores
`nextVblank = system_clock::now() + (now - when) + refresh`, the period being the refresh
period converted to `float` and back. -/
theorem vblankComputation_feedback (w : World) (m : CMonitor) (pd : wlr_output_event_present)
    (d : SSchedulingData) (hr : pd.refresh ≠ 0) :
    (vblankComputation w m (some pd) d).1 =
      toFloat (toDouble (toDouble ((pd.refresh : ℚ) / 1000000) - toDouble
        ((Int.tdiv (w.clockMonotonic.toNanos - pd.when.toNanos) 1000000 : Int) : ℚ))) ∧
    (vblankComputation w m (some pd) d).2.nextVblank =
      w.systemClock + (w.clockMonotonic.toNanos - pd.when.toNanos) +
        truncToInt (toFloat (pd.refresh : ℚ)) := by
  unfold vblankComputation LASTVBLANK
  simp only [if_pos hr]
  exact ⟨trivial, trivial⟩

/-- With both clocks on one time line the stored `nextVblank` is `when + refresh` plus
twice the time elapsed since `when`, the refresh period being rounded to a `float`. -/
theorem vblankComputation_one_time_line (w : World) (m : CMonitor)
    (pd : wlr_output_event_present) (d : SSchedulingData) (hr : pd.refresh ≠ 0)
    (hclk : w.systemClock = w.clockMonotonic.toNanos) :
    (vblankComputation w m (some pd) d).2.nextVblank =
      pd.when.toNanos + truncToInt (toFloat (pd.refresh : ℚ)) +
        2 * (w.clockMonotonic.toNanos - pd.when.toNanos) := by
  rw [(vblankComputation_feedback w m pd d hr).2, hclk]
  ring

/-! ## C10: vblank prediction from feedback -/

/-- C10, the code at the claim's witness: output 1, feedback `when = t0 = 1 s`,
`refresh = 16667000 ns`, both clocks at `t0 + 5 ms`, damage present.  The present reaches
the vblank computation, `msUntilVblank` is `16.667 - 5 = 11.667` (as a `float`: the
`float` nearest to 11.667, less than a millionth of a millisecond away from it), and
`onPresent` leaves `nextVblank = t0 + 26.667 ms`, whereas `when + refresh` is
`t0 + 16.667 ms`. -/
theorem C10_nextVblank_at_witness :
    emptyWorld.systemClock = emptyWorld.clockMonotonic.toNanos ∧
    emptyWorld.clockMonotonic.toNanos = feedback60.when.toNanos + 5000000 ∧
    (vblankComputation emptyWorld damagedMonitor (some feedback60) { pMonitor := 1 }).1 =
      toFloat (11667 / 1000) ∧
    |(vblankComputation emptyWorld damagedMonitor (some feedback60) { pMonitor := 1 }).1 -
      11667 / 1000| < 1 / 1000000 ∧
    (observe (run emptyWorld feedbackTrace)).map
        (fun r => (r.1.map (fun d => d.nextVblank), r.2)) =
      some ([feedback60.when.toNanos + 26667000], [1]) ∧
    feedback60.when.toNanos + feedback60.refresh = feedback60.when.toNanos + 16667000 := by
  refine ⟨by decide, by decide, by decide!, by decide!, by decide!, by decide⟩

/-! ## C11: the policy of onFrameNeeded -/

/-- C11: in every state reached from a store of fresh records (`forceFrames = 0`), for
every registered output: (a) if the output is actively tearing or its record is legacy,
`onFrameNeeded` returns leaving the whole world unchanged; (b) otherwise, if
`activelyPushing` is set and fewer than 100 ms have passed since `lastPresent`, it returns
without a renderer invocation, having changed nothing but `forceFrames` of the output's
record, which is 1 afterwards (the timer `event` included in what is unchanged); (c)
otherwise it is `onPresent(output, no feedback)`. -/
theorem C11_onFrameNeeded_policy (w0 : World)
    (h0 : ∀ d ∈ w0.m_vSchedulingData, d.forceFrames = 0) (cs : List Call) (w : World)
    (hrun : run w0 cs = .ok w) (p : MonitorPtr) (d : SSchedulingData)
    (hp : dataFor w.m_vSchedulingData p = some d) :
    (((w.monitors p).tearingState.activelyTearing = true ∨ d.legacyScheduler = true) →
      onFrameNeeded w p = .ok w) ∧
    (((w.monitors p).tearingState.activelyTearing = false ∧ d.legacyScheduler = false ∧
        d.activelyPushing = true ∧ d.lastPresent.getMillis w < 100) →
      onFrameNeeded w p = .ok (w.storeFor p { d with forceFrames := 1 }) ∧
      (w.storeFor p { d with forceFrames := 1 }).renderCalls = w.renderCalls ∧
      dataFor (w.storeFor p { d with forceFrames := 1 }).m_vSchedulingData p =
        some { d with forceFrames := 1 }) ∧
    (((w.monitors p).tearingState.activelyTearing = false ∧ d.legacyScheduler = false ∧
        ¬ (d.activelyPushing = true ∧ d.lastPresent.getMillis w < 100)) →
      onFrameNeeded w p = onPresent w p none) := by
  have hsat : forceSaturated d :=
    run_invariant forceSaturated (fun _ => True) (fun _ _ _ => Or.inl rfl)
      (fun _ _ _ _ hd hs => recordStep_forceSaturated hd hs) cs w0 w (fun _ _ => trivial)
      (fun d hd => Or.inl (h0 d hd)) hrun d (dataFor_mem hp)
  have hpm : d.pMonitor = p := dataFor_pMonitor hp
  refine ⟨?_, ?_, ?_⟩
  · intro hg
    unfold onFrameNeeded
    rw [hp]
    simp only [RASSERT]
    rw [if_pos (by simpa using hg)]
  · rintro ⟨ht, hl, ha, hms⟩
    refine ⟨?_, rfl, dataFor_storeFor hp hpm⟩
    rw [onFrameNeeded_throttled hp ht hl ha hms]
    rcases hsat with hf | hf
    · rw [if_pos (by rw [hf]; decide), hf]
      rfl
    · rw [if_neg (by rw [hf]; decide)]
      have hd : { d with forceFrames := 1 } = d := by
        cases d
        simp only [SSchedulingData.mk.injEq, true_and, and_true]
        exact hf.symm
      rw [hd, storeFor_same hp]
  · rintro ⟨ht, hl, hna⟩
    unfold onFrameNeeded
    rw [hp]
    simp only [RASSERT]
    rw [if_neg (by simp [ht, hl]), if_neg]
    simpa using hna

/-- C11, witness: the record `pushingRecord` of output 1, 5 ms into its present cycle. -/
theorem C11_onFrameNeeded_policy_witness :
    (((pushingWorld.monitors 1).tearingState.activelyTearing = true ∨
        pushingRecord.legacyScheduler = true) →
      onFrameNeeded pushingWorld 1 = .ok pushingWorld) ∧
    (((pushingWorld.monitors 1).tearingState.activelyTearing = false ∧
        pushingRecord.legacyScheduler = false ∧
        pushingRecord.activelyPushing = true ∧
        pushingRecord.lastPresent.getMillis pushingWorld < 100) →
      onFrameNeeded pushingWorld 1 =
        .ok (pushingWorld.storeFor 1 { pushingRecord with forceFrames := 1 }) ∧
      (pushingWorld.storeFor 1 { pushingRecord with forceFrames := 1 }).renderCalls =
        pushingWorld.renderCalls ∧
      dataFor (pushingWorld.storeFor 1
          { pushingRecord with forceFrames := 1 }).m_vSchedulingData 1 =
        some { pushingRecord with forceFrames := 1 }) ∧
    (((pushingWorld.monitors 1).tearingState.activelyTearing = false ∧
        pushingRecord.legacyScheduler = false ∧
        ¬ (pushingRecord.activelyPushing = true ∧
          pushingRecord.lastPresent.getMillis pushingWorld < 100)) →
      onFrameNeeded pushingWorld 1 = onPresent pushingWorld 1 none) :=
  C11_onFrameNeeded_policy pushingWorld (by decide) [] pushingWorld rfl 1 pushingRecord
    (by decide)

theorem recordStep_pushing {c : Call} {d n : SSchedulingData}
    (hc : c.isPresentOrNeeded = false) (h : RecordStep c d n) :
    d.pMonitor = n.pMonitor ∧ d.activelyPushing = n.activelyPushing ∧
      d.lastPresent = n.lastPresent := by
  cases h with
  | needForce p _ _ _ _ => simp [Call.isPresentOrNeeded] at hc
  | needPresent w p _ _ _ _ => simp [Call.isPresentOrNeeded] at hc
  | present w p fb _ _ _ => simp [Call.isPresentOrNeeded] at hc
  | frame w p _ _ =>
    rcases renderMonitor_record w d with h | h <;> rw [h] <;> exact ⟨rfl, rfl, rfl⟩
  | gpu b _ _ => exact ⟨rfl, rfl, rfl⟩
  | addBuffer b p _ _ => exact ⟨rfl, rfl, rfl⟩
  | eraseBuffer b _ => exact ⟨rfl, rfl, rfl⟩
  | vblank i _ =>
    rcases onVblankTimer_record d with h | h <;> rw [h] <;> exact ⟨rfl, rfl, rfl⟩
  | expire i _ ms _ =>
    rcases onVblankTimer_record { d with event := { d.event with armed := none } }
      with h | h <;> rw [h] <;> exact ⟨rfl, rfl, rfl⟩
  | disarm i _ ms _ => exact ⟨rfl, rfl, rfl⟩
  | fired i _ =>
    rcases onVblankTimer_record d with h | h <;> rw [h] <;> exact ⟨rfl, rfl, rfl⟩

/-! ## C12: at most one present in flight -/

/-- C12 (as amended): `activelyPushing` and `lastPresent` are written only by `onPresent`
and `onFrameNeeded`.  A call of any other handler, a timer expiry or a change of the
surroundings leaves the output, the `activelyPushing` and the `lastPresent` of the record
in every slot of the store as they were; `registerMonitor` leaves the world unchanged or
appends one fresh record (whose `activelyPushing` is false) to the unchanged records; and
`unregisterMonitor` removes the records of its output and leaves the others unchanged.
While `activelyPushing` is true and fewer than 100 ms have passed since `lastPresent`,
`onFrameNeeded` returns without a renderer invocation and without the state reset: at most
`forceFrames` of the record changes.  Once 100 ms have passed, `onFrameNeeded` on an output
that is neither tearing nor legacy is `onPresent` without feedback, although
`activelyPushing` is still true. -/
theorem C12_in_flight_present :
    (∀ (w w' : World) (c : Call), c.isPresentOrNeeded = false → step w c = .ok w' →
      (c.isRegistration = false →
        w'.m_vSchedulingData.map (fun d => (d.pMonitor, d.activelyPushing, d.lastPresent)) =
          w.m_vSchedulingData.map (fun d => (d.pMonitor, d.activelyPushing, d.lastPresent))) ∧
      (∀ p, c = .registerMonitor p → w' = w ∨
        ∃ l a, w'.m_vSchedulingData = w.m_vSchedulingData ++ [freshRecord p l a]) ∧
      (∀ p, c = .unregisterMonitor p →
        w'.m_vSchedulingData = w.m_vSchedulingData.filter (fun d => !(d.pMonitor == p)))) ∧
    (∀ (w : World) (p : MonitorPtr) (d : SSchedulingData),
      dataFor w.m_vSchedulingData p = some d → d.activelyPushing = true →
      d.lastPresent.getMillis w < 100 →
      ∃ w' n, onFrameNeeded w p = .ok w' ∧ w'.renderCalls = w.renderCalls ∧
        dataFor w'.m_vSchedulingData p = some n ∧
        n = { d with forceFrames := n.forceFrames }) ∧
    (∀ (w : World) (p : MonitorPtr) (d : SSchedulingData),
      dataFor w.m_vSchedulingData p = some d →
      (w.monitors p).tearingState.activelyTearing = false → d.legacyScheduler = false →
      d.activelyPushing = true → 100 ≤ d.lastPresent.getMillis w →
      onFrameNeeded w p = onPresent w p none) := by
  refine ⟨?_, ?_, ?_⟩
  · intro w w' c hc hs
    refine ⟨?_, ?_, ?_⟩
    · intro hreg
      refine map_of_forall₂ _ ?_ (step_pointwise hreg hs).2
      intro d n hR
      obtain ⟨h1, h2, h3⟩ := recordStep_pushing hc hR
      rw [h1, h2, h3]
    · intro p hcp
      subst hcp
      simp only [step] at hs
      rw [← Except.ok.inj hs]
      cases hp : dataFor w.m_vSchedulingData p with
      | some d => exact Or.inl (registerMonitor_registered hp)
      | none => exact Or.inr ⟨_, _, (registerMonitor_append hp).1⟩
    · intro p hcp
      subst hcp
      simp only [step] at hs
      rw [← Except.ok.inj hs]
      rfl
  · intro w p d hp ha hms
    have hpm : d.pMonitor = p := dataFor_pMonitor hp
    by_cases hg : (w.monitors p).tearingState.activelyTearing = true ∨ d.legacyScheduler = true
    · refine ⟨w, d, ?_, rfl, hp, rfl⟩
      unfold onFrameNeeded
      rw [hp]
      simp only [RASSERT]
      rw [if_pos (by simpa using hg)]
    · have ht : (w.monitors p).tearingState.activelyTearing = false := by
        cases h' : (w.monitors p).tearingState.activelyTearing
        · rfl
        · exact absurd (Or.inl h') hg
      have hl : d.legacyScheduler = false := by
        cases h' : d.legacyScheduler
        · rfl
        · exact absurd (Or.inr h') hg
      rw [onFrameNeeded_throttled hp ht hl ha hms]
      by_cases hf : d.forceFrames < 1
      · rw [if_pos hf]
        exact ⟨_, _, rfl, rfl, dataFor_storeFor hp hpm, rfl⟩
      · rw [if_neg hf]
        exact ⟨w, d, rfl, rfl, hp, rfl⟩
  · intro w p d hp ht hl ha hms
    unfold onFrameNeeded
    rw [hp]
    simp only [RASSERT]
    rw [if_neg (by simp [ht, hl]), if_neg]
    simp only [Bool.and_eq_true, decide_eq_true_eq, not_and, not_lt]
    exact fun _ => hms

/-- C12, witness: `dropBuffer(7)` and `registerMonitor(2)` on `pushingWorld`, the throttled
record `pushingRecord`, and the same record 200 ms later. -/
theorem C12_in_flight_present_witness :
    (dropBuffer pushingWorld 7).m_vSchedulingData.map
        (fun d => (d.pMonitor, d.activelyPushing, d.lastPresent)) =
      pushingWorld.m_vSchedulingData.map
        (fun d => (d.pMonitor, d.activelyPushing, d.lastPresent)) ∧
    (registerMonitor pushingWorld 2 = pushingWorld ∨
      ∃ l a, (registerMonitor pushingWorld 2).m_vSchedulingData =
        pushingWorld.m_vSchedulingData ++ [freshRecord 2 l a]) ∧
    (∃ w' n, onFrameNeeded pushingWorld 1 = .ok w' ∧
      w'.renderCalls = pushingWorld.renderCalls ∧
      dataFor w'.m_vSchedulingData 1 = some n ∧
      n = { pushingRecord with forceFrames := n.forceFrames }) ∧
    onFrameNeeded (pushingWorld.withSurroundings laterSurroundings) 1 =
      onPresent (pushingWorld.withSurroundings laterSurroundings) 1 none :=
  ⟨(C12_in_flight_present.1 pushingWorld (dropBuffer pushingWorld 7) (.dropBuffer 7)
      rfl rfl).1 rfl,
   (C12_in_flight_present.1 pushingWorld (registerMonitor pushingWorld 2)
      (.registerMonitor 2) rfl rfl).2.1 2 rfl,
   C12_in_flight_present.2.1 pushingWorld 1 pushingRecord (by decide) (by decide)
     (by decide),
   C12_in_flight_present.2.2 (pushingWorld.withSurroundings laterSurroundings) 1
     pushingRecord (by decide) (by decide) (by decide) (by decide) (by decide)⟩

/-- C12, counterexample: in `staleCycleTrace` the first `onFrameNeeded` starts a synthetic
present and sets `activelyPushing`; no present event follows; 200 ms later `onFrameNeeded`
runs the state reset again (`lastPresent` moves from 1.005 s to 1.205 s) and invokes the
renderer a second time while `activelyPushing` is still true. -/
theorem C12_counterexample :
    (observe (run emptyWorld (staleCycleTrace.take 4))).map
        (fun r => (r.1.map (fun d => (d.activelyPushing, d.lastPresent.m_tpLastReset)), r.2)) =
      some ([(true, 1005000000)], [1]) ∧
    (observe (run emptyWorld staleCycleTrace)).map
        (fun r => (r.1.map (fun d => (d.activelyPushing, d.lastPresent.m_tpLastReset)), r.2)) =
      some ([(true, 1205000000)], [1, 1]) := by
  refine ⟨by decide!, by decide!⟩

/-! ## C13: the three outcomes of onVblankTimer -/

/-- C13: on every record `onVblankTimer` returns 0 and changes no field other than
`delayed`, which becomes true if `rendered && !gpuReady` held and keeps its value
otherwise; run as the timer callback on a slot of the store it performs no renderer
invocation and touches no other slot. -/
theorem C13_onVblankTimer_outcome :
    (∀ DATA : SSchedulingData,
      (onVblankTimer DATA).2 = 0 ∧
      (onVblankTimer DATA).1 =
        { DATA with delayed := (DATA.rendered && !DATA.gpuReady) || DATA.delayed }) ∧
    (∀ (w : World) (data : Nat) (DATA : SSchedulingData),
      w.m_vSchedulingData[data]? = some DATA →
      ∃ w', onPresentTimer w data = .ok (w', 0) ∧ w'.renderCalls = w.renderCalls ∧
        w'.m_vSchedulingData = w.m_vSchedulingData.set data
          { DATA with delayed := (DATA.rendered && !DATA.gpuReady) || DATA.delayed }) := by
  have hrec : ∀ DATA : SSchedulingData,
      (onVblankTimer DATA).2 = 0 ∧
      (onVblankTimer DATA).1 =
        { DATA with delayed := (DATA.rendered && !DATA.gpuReady) || DATA.delayed } := by
    intro DATA
    refine ⟨onVblankTimer_snd DATA, ?_⟩
    unfold onVblankTimer
    cases DATA with
    | mk pm ev lg ap lp ff rn gr dl ds nv bf =>
      cases rn <;> cases gr <;> cases dl <;> simp
  refine ⟨hrec, ?_⟩
  intro w data DATA h
  obtain ⟨n, hn⟩ : ∃ n : SSchedulingData,
      n = { DATA with delayed := (DATA.rendered && !DATA.gpuReady) || DATA.delayed } :=
    ⟨_, rfl⟩
  rw [← hn]
  refine ⟨{ w with m_vSchedulingData := w.m_vSchedulingData.set data n }, ?_, rfl, rfl⟩
  rw [hn]
  unfold onPresentTimer
  rw [h]
  simp only
  rw [(hrec DATA).1, (hrec DATA).2]

/-- C13, witness: the timer callback on slot 0 of `pushingWorld` (rendered, GPU not
ready). -/
theorem C13_onVblankTimer_outcome_witness :
    ∃ w', onPresentTimer pushingWorld 0 = .ok (w', 0) ∧
      w'.renderCalls = pushingWorld.renderCalls ∧
      w'.m_vSchedulingData = pushingWorld.m_vSchedulingData.set 0
        { pushingRecord with
          delayed := (pushingRecord.rendered && !pushingRecord.gpuReady) ||
            pushingRecord.delayed } :=
  C13_onVblankTimer_outcome.2 pushingWorld 0 pushingRecord (by decide)

/-! ## C14: the render of gpuDone -/

/-- For a delayed record `gpuDone` calls the renderer whatever the session state and the
enabled flag of the output are, and leaves `rendered` as it was. -/
theorem gpuDone_renders_unconditionally (w : World) (b : BufferPtr) (d : SSchedulingData)
    (hb : dataForBuffer w.m_vSchedulingData b = some d) (hd : d.delayed = true) :
    ∃ w', gpuDone w b = .ok w' ∧ w'.renderCalls = w.renderCalls ++ [d.pMonitor] ∧
      dataForBuffer w'.m_vSchedulingData b = some { d with delayedFrameSubmitted := true } :=
  ⟨_, gpuDone_delayed hb hd, rfl,
    dataForBuffer_storeForBuffer (w := w.callRenderer d.pMonitor) hb (dataForBuffer_holds (d := d) hb)⟩

/-- C14, the code at the failing input: in `suspendedRecoveryTrace` the session is inactive
when `gpuDone(7)` arrives for the delayed record of output 1.  Render dispatch
(`renderMonitor`) on that record would not invoke the renderer, but `gpuDone` does: the
renderer log grows from `[1]` to `[1, 1]`. -/
theorem C14_gpuDone_at_inactive_session :
    sessionInactive suspendedSurroundings.g_pCompositor = true ∧
    (observe (run emptyWorld (suspendedRecoveryTrace.take 6))).map
        (fun r => (r.1.map (fun d => (d.delayed, d.buffers)), r.2)) =
      some ([(true, [7])], [1]) ∧
    (renderMonitor (delayedWorld.withSurroundings suspendedSurroundings)
        delayedRecord).1.renderCalls = [] ∧
    (observe (gpuDone (delayedWorld.withSurroundings suspendedSurroundings) 7)).map
        (fun r => r.2) = some [1] ∧
    (observe (run emptyWorld suspendedRecoveryTrace)).map
        (fun r => (r.1.map (fun d => d.delayedFrameSubmitted), r.2)) =
      some ([true], [1, 1]) := by
  refine ⟨by decide, by decide!, by decide, by decide, by decide!⟩

theorem presentStep_buffers {w : World} {p : MonitorPtr}
    {fb : Option wlr_output_event_present} {d n : SSchedulingData}
    (h : PresentStep w p fb d n) : n.buffers = d.buffers := by
  cases h with
  | gated _ => rfl
  | consume _ _ => rfl
  | skip _ _ => exact (stateReset_fields w d).2.2.2.2.1
  | render _ _ =>
    rcases renderMonitor_record w (cycleRecord w p fb d) with h | h
    · rw [h]; exact (cycleRecord_fields w p fb d).2.2.2.2.1
    · rw [h]; exact (cycleRecord_fields w p fb d).2.2.2.2.1

theorem recordStep_nodup {c : Call} {d n : SSchedulingData}
    (hd : d.buffers.Nodup) (h : RecordStep c d n) : n.buffers.Nodup := by
  cases h with
  | needForce p _ _ _ _ => exact hd
  | needPresent w p _ _ _ hs => rw [presentStep_buffers hs]; exact hd
  | present w p fb _ _ hs => rw [presentStep_buffers hs]; exact hd
  | frame w p _ _ =>
    rcases renderMonitor_record w d with h | h <;> rw [h] <;> exact hd
  | gpu b _ _ => exact hd
  | addBuffer b p _ hb =>
    show (d.buffers ++ [b]).Nodup
    rw [List.nodup_append]
    refine ⟨hd, List.nodup_singleton b, ?_⟩
    intro a ha hab
    rw [List.mem_singleton] at hab
    subst hab
    have : ¬ a ∈ d.buffers := by simpa using hb
    exact this ha
  | eraseBuffer b _ => exact hd.filter _
  | vblank i _ =>
    rcases onVblankTimer_record d with h | h <;> rw [h] <;> exact hd
  | expire i _ ms _ =>
    rcases onVblankTimer_record { d with event := { d.event with armed := none } }
      with h | h <;> rw [h] <;> exact hd
  | disarm i _ ms _ => exact hd
  | fired i _ =>
    rcases onVblankTimer_record d with h | h <;> rw [h] <;> exact hd

theorem registerBuffer_idempotent {w : World} {b : BufferPtr} {M : MonitorPtr}
    {d : SSchedulingData} (h : dataFor w.m_vSchedulingData M = some d) :
    ∃ w1, registerBuffer w b M = .ok w1 ∧ registerBuffer w1 b M = .ok w1 := by
  have hpm : d.pMonitor = M := dataFor_pMonitor h
  by_cases hc : d.buffers.contains b = true
  · have h1 : registerBuffer w b M = .ok w := by
      unfold registerBuffer
      rw [h]
      simp only [RASSERT]
      rw [if_pos hc]
    exact ⟨w, h1, h1⟩
  · obtain ⟨w1, hw1⟩ : ∃ w1, w1 = w.storeFor M { d with buffers := d.buffers ++ [b] } :=
      ⟨_, rfl⟩
    have h1 : registerBuffer w b M = .ok w1 := by
      unfold registerBuffer
      rw [h]
      simp only [RASSERT]
      rw [if_neg hc, hw1]
    have hp1 : dataFor w1.m_vSchedulingData M = some { d with buffers := d.buffers ++ [b] } := by
      rw [hw1]; exact dataFor_storeFor h hpm
    refine ⟨w1, h1, ?_⟩
    unfold registerBuffer
    rw [hp1]
    simp only [RASSERT]
    rw [if_pos (by simp)]

theorem mem_dropBuffer {w : World} {b : BufferPtr} {x : SSchedulingData}
    (h : x ∈ (dropBuffer w b).m_vSchedulingData) : b ∉ x.buffers := by
  unfold dropBuffer at h
  obtain ⟨d, _, hdx⟩ := List.mem_map.1 h
  rw [← hdx]
  simp


/-! ## C15: buffer tracking -/

/-- C15: for every world, registered output `M` and buffer `b`, `registerBuffer(b, M)`
returns, and applied again to its result returns that same world; in every state reached
from the empty store no record's buffers list contains a duplicate, so that after
`registerBuffer(b, M)` the buffer occurs exactly once in the list of `M`'s record; and after
`dropBuffer(b)` no record's list contains `b`, the lookup by buffer returns no record for
`b`, and for every record the membership of every other buffer and every other field are
as before. -/
theorem C15_buffer_tracking :
    (∀ (w : World) (b : BufferPtr) (M : MonitorPtr) (d : SSchedulingData),
      dataFor w.m_vSchedulingData M = some d →
      ∃ w1, registerBuffer w b M = .ok w1 ∧ registerBuffer w1 b M = .ok w1) ∧
    (∀ (w0 w : World) (cs : List Call), w0.m_vSchedulingData = [] → run w0 cs = .ok w →
      (∀ d ∈ w.m_vSchedulingData, d.buffers.Nodup) ∧
      ∀ (b : BufferPtr) (M : MonitorPtr) (d : SSchedulingData),
        dataFor w.m_vSchedulingData M = some d →
        ∃ w1 d1, registerBuffer w b M = .ok w1 ∧ dataFor w1.m_vSchedulingData M = some d1 ∧
          d1.buffers.count b = 1) ∧
    (∀ (w : World) (b : BufferPtr),
      (∀ d ∈ (dropBuffer w b).m_vSchedulingData, b ∉ d.buffers) ∧
      dataForBuffer (dropBuffer w b).m_vSchedulingData b = none ∧
      (∀ b', b' ≠ b →
        (dropBuffer w b).m_vSchedulingData.map (fun d => d.buffers.contains b') =
          w.m_vSchedulingData.map (fun d => d.buffers.contains b')) ∧
      (dropBuffer w b).m_vSchedulingData.map (fun d => { d with buffers := [] }) =
        w.m_vSchedulingData.map (fun d => { d with buffers := [] }) ∧
      (dropBuffer w b).renderCalls = w.renderCalls) := by
  refine ⟨fun w b M d h => registerBuffer_idempotent h, ?_, ?_⟩
  · intro w0 w cs h0 hrun
    have hnodup : ∀ d ∈ w.m_vSchedulingData, d.buffers.Nodup :=
      run_invariant (fun d => d.buffers.Nodup) (fun _ => True)
        (fun _ _ _ => List.nodup_nil) (fun _ _ _ _ hd hs => recordStep_nodup hd hs)
        cs w0 w (fun _ _ => trivial)
        (by rw [h0]; intro d hd; exact absurd hd (List.not_mem_nil d)) hrun
    refine ⟨hnodup, ?_⟩
    intro b M d hp
    have hpm : d.pMonitor = M := dataFor_pMonitor hp
    by_cases hc : d.buffers.contains b = true
    · refine ⟨w, d, ?_, hp, ?_⟩
      · unfold registerBuffer
        rw [hp]
        simp only [RASSERT]
        rw [if_pos hc]
      · exact List.count_eq_one_of_mem (hnodup d (dataFor_mem hp)) (by simpa using hc)
    · refine ⟨_, { d with buffers := d.buffers ++ [b] }, ?_, dataFor_storeFor hp hpm, ?_⟩
      · unfold registerBuffer
        rw [hp]
        simp only [RASSERT]
        rw [if_neg hc]
      · have hnot : ¬ b ∈ d.buffers := by simpa using hc
        show (d.buffers ++ [b]).count b = 1
        rw [List.count_append, List.count_eq_zero_of_not_mem hnot]
        simp
  · intro w b
    refine ⟨fun d hd => mem_dropBuffer hd, ?_, ?_, ?_, rfl⟩
    · unfold dataForBuffer
      rw [List.find?_eq_none]
      intro x hx
      have := mem_dropBuffer hx
      simpa using this
    · intro b' hb'
      unfold dropBuffer
      simp only [List.map_map]
      apply List.map_congr_left
      intro d _
      simp only [Function.comp_apply]
      rw [Bool.eq_iff_iff]
      simp only [List.contains_eq_any_beq, List.any_eq_true, List.mem_filter]
      constructor
      · rintro ⟨x, ⟨hx, _⟩, hxb⟩
        exact ⟨x, hx, hxb⟩
      · rintro ⟨x, hx, hxb⟩
        refine ⟨x, ⟨hx, ?_⟩, hxb⟩
        have hx' : b' = x := by simpa using hxb
        subst hx'
        simp [hb']
    · unfold dropBuffer
      simp only [List.map_map]
      apply List.map_congr_left
      intro d _
      rfl

/-- C15, witness: output 1 and buffer 7 in the world `twoOutputs`, reached from
`emptyWorld` by two registrations. -/
theorem C15_buffer_tracking_witness :
    (∃ w1, registerBuffer twoOutputs 7 1 = .ok w1 ∧ registerBuffer w1 7 1 = .ok w1) ∧
    ((∀ d ∈ twoOutputs.m_vSchedulingData, d.buffers.Nodup) ∧
      ∀ (b : BufferPtr) (M : MonitorPtr) (d : SSchedulingData),
        dataFor twoOutputs.m_vSchedulingData M = some d →
        ∃ w1 d1, registerBuffer twoOutputs b M = .ok w1 ∧
          dataFor w1.m_vSchedulingData M = some d1 ∧ d1.buffers.count b = 1) :=
  ⟨C15_buffer_tracking.1 twoOutputs 7 1
     (freshRecord 1 false { allocation := 1, index := 0 }) (by decide),
   C15_buffer_tracking.2.1 emptyWorld twoOutputs [.registerMonitor 1, .registerMonitor 2]
     rfl rfl⟩

/-- Render dispatch invokes the renderer exactly when `dispatchReachesRenderer` holds, and
sets `rendered` exactly then. -/
theorem renderMonitor_dispatch (w : World) (d : SSchedulingData) :
    (renderMonitor w d).1.renderCalls =
      (if dispatchReachesRenderer w d = true then w.renderCalls ++ [d.pMonitor]
        else w.renderCalls) ∧
    (renderMonitor w d).2 =
      (if dispatchReachesRenderer w d = true then { d with rendered := true } else d) := by
  unfold renderMonitor dispatchReachesRenderer
  rcases Bool.eq_false_or_eq_true (sessionInactive w.g_pCompositor) with hs | hs
  · simp only [hs, if_true, Bool.not_true, Bool.false_and]
    split_ifs
    · contradiction
    · exact ⟨rfl, rfl⟩
    · contradiction
    · exact ⟨rfl, rfl⟩
  · rcases Bool.eq_false_or_eq_true (w.monitors d.pMonitor).m_bEnabled with he | he
    · rcases Bool.eq_false_or_eq_true
        (w.monitors d.pMonitor).tearingState.activelyTearing with ht | ht
      · rcases Bool.eq_false_or_eq_true
          (w.recheckSolitaryForMonitor (w.monitors d.pMonitor)).isSome with hc | hc
        · rcases Bool.eq_false_or_eq_true
            (w.monitors d.pMonitor).tearingState.frameScheduledWhileBusy with hf | hf
          · simp [hs, he, ht, hc, hf, World.callRenderer, World.setMonitor]
          · simp [hs, he, ht, hc, hf, World.callRenderer, World.setMonitor]
        · simp [hs, he, ht, hc, World.callRenderer, World.setMonitor]
      · simp [hs, he, ht, World.callRenderer, World.setMonitor]
    · simp [hs, he]

/-! ## C16: the legacy frame path -/

/-- The armed delay `floor(ms + 1)`, the sum being a `float`, lies between `floor(ms) + 1`
and `ceil(ms) + 1` for a positive `ms` below `2 ^ 24 - 1`. -/
theorem floor_toFloat_bounds (ms : ℚ) (h0 : ms > 0) (h1 : ms < 16777215) :
    ⌊ms⌋ + 1 ≤ ⌊toFloat (ms + 1)⌋ ∧ ⌊toFloat (ms + 1)⌋ ≤ ⌈ms⌉ + 1 := by
  have hfl : (0 : ℤ) ≤ ⌊ms⌋ := Int.floor_nonneg.2 h0.le
  have hfu : ⌊ms⌋ < 16777215 := by
    have : ((⌊ms⌋ : ℤ) : ℚ) < ((16777215 : ℤ) : ℚ) :=
      lt_of_le_of_lt (Int.floor_le ms) (by push_cast; exact h1)
    exact_mod_cast this
  have hcu : ⌈ms⌉ ≤ 16777215 := Int.ceil_le.2 (by push_cast; exact h1.le)
  have hcl : (0 : ℤ) < ⌈ms⌉ := Int.ceil_pos.2 h0
  constructor
  · apply Int.le_floor.mpr
    refine le_roundBinary 24 (by decide) (⌊ms⌋ + 1) (by omega) ?_ (ms + 1) ?_
    · have : ((⌊ms⌋ + 1 : ℤ) : ℚ) ≤ ((16777216 : ℤ) : ℚ) := by exact_mod_cast (by omega)
      refine this.trans ?_
      norm_num
    · push_cast
      linarith [Int.floor_le ms]
  · have h2 : toFloat (ms + 1) ≤ ((⌈ms⌉ + 1 : ℤ) : ℚ) := by
      refine roundBinary_le 24 (by decide) (⌈ms⌉ + 1) ?_ (ms + 1) (by linarith) ?_
      · have : ((⌈ms⌉ + 1 : ℤ) : ℚ) ≤ ((16777216 : ℤ) : ℚ) := by exact_mod_cast (by omega)
        refine this.trans ?_
        norm_num
      · push_cast
        linarith [Int.le_ceil ms]
    have h3 : ((⌊toFloat (ms + 1)⌋ : ℤ) : ℚ) ≤ ((⌈ms⌉ + 1 : ℤ) : ℚ) :=
      (Int.floor_le _).trans h2
    exact_mod_cast h3

/-- C17 (as amended): in every `onPresent` call that reaches the vblank computation with the
`float` milliseconds-until-vblank `ms` (the `int` sum of line 113 not overflowing), the call
returns; if `ms` is not positive the timer of the record is left as it was; if `ms` is
positive (and below `2 ^ 24 - 1`, about 4.6 hours, so that the delay is an `int`) the timer
is armed afterwards, with the delay `floor(ms + 1)`, the sum being a `float` sum.  The
delay is at least `floor(ms) + 1` and at most `ceil(ms) + 1`, and it is later than `ms`,
hence never earlier than the predicted vblank. -/
theorem C17_timer_arming (w : World) (p : MonitorPtr) (d : SSchedulingData)
    (fb : Option wlr_output_event_present)
    (hp : dataFor w.m_vSchedulingData p = some d)
    (ht : (w.monitors p).tearingState.activelyTearing = false)
    (hl : d.legacyScheduler = false) (hs : d.delayedFrameSubmitted = false)
    (hd : hasDamage (w.monitors p) = true ∨
      0 < d.forceFrames + (w.monitors p).forceFullFrames)
    (_hint : -2147483648 ≤ d.forceFrames + (w.monitors p).forceFullFrames ∧
      d.forceFrames + (w.monitors p).forceFullFrames ≤ 2147483647) :
    ∃ w' n, onPresent w p fb = .ok w' ∧ dataFor w'.m_vSchedulingData p = some n ∧
      (¬ msUntilVblank w p fb d > 0 → n.event = d.event) ∧
      (msUntilVblank w p fb d > 0 → msUntilVblank w p fb d < 16777215 →
        n.event =
          { d.event with armed := some ⌊toFloat (msUntilVblank w p fb d + 1)⌋ } ∧
        ⌊msUntilVblank w p fb d⌋ + 1 ≤ ⌊toFloat (msUntilVblank w p fb d + 1)⌋ ∧
        ⌊toFloat (msUntilVblank w p fb d + 1)⌋ ≤ ⌈msUntilVblank w p fb d⌉ + 1 ∧
        msUntilVblank w p fb d < ((⌊toFloat (msUntilVblank w p fb d + 1)⌋ : Int) : ℚ)) := by
  have hpm : d.pMonitor = p := dataFor_pMonitor hp
  have hcp : (cycleRecord w p fb d).pMonitor = p := (cycleRecord_fields w p fb d).1.trans hpm
  have hev : (cycleRecord w p fb d).event =
      (if msUntilVblank w p fb d > 0
        then { d.event with armed := some ⌊toFloat (msUntilVblank w p fb d + 1)⌋ }
        else d.event) := by
    unfold cycleRecord msUntilVblank
    rw [armTimer_event, (vblankComputation_fields _ _ _ _).2.2.2.2.2.2.2.2,
      (stateReset_fields w d).2.2.2.2.2.2.2.2.2]
  have hrec : (renderMonitor w (cycleRecord w p fb d)).2.pMonitor = p := by
    rcases renderMonitor_record w (cycleRecord w p fb d) with h | h <;> rw [h] <;> exact hcp
  refine ⟨_, _, onPresent_render fb hp ht hl hs hd,
    dataFor_storeFor (w := (renderMonitor w (cycleRecord w p fb d)).1)
      (by rw [renderMonitor_store]; exact hp) hrec, ?_, ?_⟩
  · intro h0
    rw [renderMonitor_event, hev, if_neg h0]
  · intro h0 h1
    obtain ⟨hlow, hup⟩ := floor_toFloat_bounds _ h0 h1
    refine ⟨by rw [renderMonitor_event, hev, if_pos h0], hlow, hup, ?_⟩
    have h2 : msUntilVblank w p fb d < ((⌊msUntilVblank w p fb d⌋ + 1 : ℤ) : ℚ) := by
      push_cast
      exact Int.lt_floor_add_one _
    have h3 : ((⌊msUntilVblank w p fb d⌋ + 1 : ℤ) : ℚ) ≤
        ((⌊toFloat (msUntilVblank w p fb d + 1)⌋ : ℤ) : ℚ) := by exact_mod_cast hlow
    exact lt_of_lt_of_le h2 h3

/-- C17, witness: a present with feedback for the record of output 1 in `damagedWorld`. -/
theorem C17_timer_arming_witness :
    ∃ w' n, onPresent damagedWorld 1 (some feedback60) = .ok w' ∧
      dataFor w'.m_vSchedulingData 1 = some n ∧
      (¬ feedbackMs > 0 → n.event = firstRecord.event) ∧
      (feedbackMs > 0 → feedbackMs < 16777215 →
        n.event = { firstRecord.event with armed := some ⌊toFloat (feedbackMs + 1)⌋ } ∧
        ⌊feedbackMs⌋ + 1 ≤ ⌊toFloat (feedbackMs + 1)⌋ ∧
        ⌊toFloat (feedbackMs + 1)⌋ ≤ ⌈feedbackMs⌉ + 1 ∧
        feedbackMs < ((⌊toFloat (feedbackMs + 1)⌋ : Int) : ℚ)) :=
  C17_timer_arming damagedWorld 1 firstRecord (some feedback60) (by decide) (by decide)
    (by decide) (by decide) (Or.inl (by decide)) (by decide)

/-- C17, counterexample: at the claim's witness (refresh 16667000 ns, 5 ms elapsed) the
present reaches the vblank computation with `ms` the `float` nearest to 11.667;
`ceil(ms) + 1` is 13, and `onPresent` arms the timer with 12. -/
theorem C17_counterexample :
    feedbackMs = toFloat (11667 / 1000) ∧
    ⌈feedbackMs⌉ + 1 = 13 ∧
    ⌈(11667 / 1000 : ℚ)⌉ + 1 = 13 ∧
    (observe (onPresent damagedWorld 1 (some feedback60))).map
        (fun r => (r.1.map (fun d => d.event.armed), r.2)) =
      some ([some 12, none], [1]) := by
  refine ⟨by decide!, by decide!, by decide!, by decide!⟩

/-- The arithmetic is that of `float`: with a refresh period of 33999999 ns and no time
elapsed since the reported vblank, `msUntilVblank` is the `float` 34 (33.999999 is not a
`float`), and the timer is armed with 35. -/
theorem onPresent_refresh_33999999 :
    msUntilVblank damagedWorld 1 (some feedback34) firstRecord = 34 ∧
    (observe (onPresent damagedWorld 1 (some feedback34))).map
        (fun r => (r.1.map (fun d => d.event.armed), r.2)) =
      some ([some 35, none], [1]) := by
  refine ⟨by decide!, by decide!⟩

/-- With feedback that reports no refresh period, `msUntilVblank` is computed from
`refreshRate / 1000` and `nextVblank` from `1000000000 / refreshRate`, the latter a `float`
division. -/
theorem vblankComputation_fallback (w : World) (m : CMonitor) (pd : wlr_output_event_present)
    (d : SSchedulingData) (hr : pd.refresh = 0) :
    (vblankComputation w m (some pd) d).1 =
      toFloat (toDouble (toDouble (m.refreshRate / 1000) - toDouble
        ((Int.tdiv (w.clockMonotonic.toNanos - pd.when.toNanos) 1000000 : Int) : ℚ))) ∧
    (vblankComputation w m (some pd) d).2.nextVblank =
      w.systemClock + (w.clockMonotonic.toNanos - pd.when.toNanos) +
        truncToInt (toFloat (toFloat 1000000000 / m.refreshRate)) := by
  unfold vblankComputation LASTVBLANK
  simp only [hr, ne_eq, not_true_eq_false, if_false]
  exact ⟨trivial, trivial⟩

/-! ## C18: the fallback refresh period -/

/-- C18, the code at a failing input: feedback with `refresh = 0` for an output with
nominal refresh rate 60, 5 ms after the reported vblank.  The period `msUntilVblank` is
taken from is `60 / 1000 = 0.06` ms: `msUntilVblank` is the `float` nearest to `0.06 - 5`,
between -4.95 and -4.93, so the timer is not armed; while the period added to obtain
`nextVblank` is the `float` quotient `1000000000 / 60 = 16666667` ns, which is
16.666667 ms. -/
theorem C18_fallback_at_60Hz :
    damagedMonitor.refreshRate = 60 ∧ unreportedFeedback.refresh = 0 ∧
    LASTVBLANK damagedWorld unreportedFeedback = 5000000 ∧
    msUntilVblank damagedWorld 1 (some unreportedFeedback) firstRecord =
      toFloat (60 / 1000 - 5) ∧
    -495 / 100 < msUntilVblank damagedWorld 1 (some unreportedFeedback) firstRecord ∧
    msUntilVblank damagedWorld 1 (some unreportedFeedback) firstRecord < -493 / 100 ∧
    toFloat (toFloat 1000000000 / damagedMonitor.refreshRate) = 16666667 ∧
    (vblankComputation damagedWorld damagedMonitor (some unreportedFeedback)
        firstRecord).2.nextVblank =
      damagedWorld.systemClock + LASTVBLANK damagedWorld unreportedFeedback + 16666667 ∧
    (observe (onPresent damagedWorld 1 (some unreportedFeedback))).map
        (fun r => (r.1.map (fun d => (d.event.armed, d.nextVblank)), r.2)) =
      some ([(none, 1026666667), (none, 0)], [1]) := by
  refine ⟨by decide, by decide, by decide, by decide!, by decide!, by decide!, by decide!,
    by decide!, by decide!⟩

/-! ## C19: render dispatch -/

/-- C19: for every world and record, `renderMonitor` invokes the renderer at most once, and
does so exactly when the session is active and safe, the output is enabled, and it is not
the case that the output is actively tearing with a solitary client (as rechecked) while
`frameScheduledWhileBusy` is false; `rendered` is set to true exactly when the renderer was
invoked and the record is unchanged otherwise; and when it renders while the output is
tearing with a solitary client, `nextRenderTorn` is true and `frameScheduledWhileBusy` is
false afterwards. -/
theorem C19_render_dispatch (w : World) (d : SSchedulingData) :
    (renderMonitor w d).1.renderCalls =
      (if dispatchReachesRenderer w d = true then w.renderCalls ++ [d.pMonitor]
        else w.renderCalls) ∧
    (renderMonitor w d).2 =
      (if dispatchReachesRenderer w d = true then { d with rendered := true } else d) ∧
    (dispatchReachesRenderer w d = true →
      (w.monitors d.pMonitor).tearingState.activelyTearing = true →
      (w.recheckSolitaryForMonitor (w.monitors d.pMonitor)).isSome = true →
      ((renderMonitor w d).1.monitors d.pMonitor).tearingState.nextRenderTorn = true ∧
      ((renderMonitor w d).1.monitors d.pMonitor).tearingState.frameScheduledWhileBusy =
        false) := by
  refine ⟨(renderMonitor_dispatch w d).1, (renderMonitor_dispatch w d).2, ?_⟩
  intro hc ht hsol
  unfold dispatchReachesRenderer at hc
  simp only [ht, hsol, Bool.true_and, Bool.and_eq_true, Bool.not_eq_true',
    Bool.not_eq_false'] at hc
  obtain ⟨⟨hs, he⟩, hf⟩ := hc
  unfold renderMonitor
  simp [hs, he, ht, hsol, hf, World.callRenderer, World.setMonitor]

/-- C19, witness: the record `pushingRecord` in `tornWorld`, whose monitor tears for a
solitary client with a frame scheduled while busy. -/
theorem C19_render_dispatch_witness :
    (renderMonitor tornWorld pushingRecord).1.renderCalls = [1] ∧
    ((renderMonitor tornWorld pushingRecord).1.monitors 1).tearingState.nextRenderTorn =
      true ∧
    ((renderMonitor tornWorld pushingRecord).1.monitors
      1).tearingState.frameScheduledWhileBusy = false :=
  ⟨(C19_render_dispatch tornWorld pushingRecord).1,
   (C19_render_dispatch tornWorld pushingRecord).2.2 (by decide) (by decide) (by decide)⟩

theorem presentStep_gpuReady {w : World} {p : MonitorPtr}
    {fb : Option wlr_output_event_present} {d n : SSchedulingData}
    (hd : d.gpuReady = false) (h : PresentStep w p fb d n) : n.gpuReady = false := by
  cases h with
  | gated _ => exact hd
  | consume _ _ => exact hd
  | skip _ _ => exact (stateReset_fields w d).2.2.2.2.2.2.2.1
  | render _ _ =>
    rcases renderMonitor_record w (cycleRecord w p fb d) with h | h
    · rw [h]; exact (cycleRecord_fields w p fb d).2.2.2.2.2.2.2
    · rw [h]; exact (cycleRecord_fields w p fb d).2.2.2.2.2.2.2

theorem recordStep_gpuReady {c : Call} {d n : SSchedulingData}
    (hd : d.gpuReady = false) (h : RecordStep c d n) : n.gpuReady = false := by
  cases h with
  | needForce p _ _ _ _ => exact hd
  | needPresent w p _ _ _ hs => exact presentStep_gpuReady hd hs
  | present w p fb _ _ hs => exact presentStep_gpuReady hd hs
  | frame w p _ _ =>
    rcases renderMonitor_record w d with h | h <;> rw [h] <;> exact hd
  | gpu b _ _ => exact hd
  | addBuffer b p _ _ => exact hd
  | eraseBuffer b _ => exact hd
  | vblank i _ =>
    rcases onVblankTimer_record d with h | h <;> rw [h] <;> exact hd
  | expire i _ ms _ =>
    rcases onVblankTimer_record { d with event := { d.event with armed := none } }
      with h | h <;> rw [h] <;> exact hd
  | disarm i _ ms _ => exact hd
  | fired i _ =>
    rcases onVblankTimer_record d with h | h <;> rw [h] <;> exact hd

/-! ## C20: gpuReady is never set -/

/-- C20: after every finite sequence of calls from a store without records (registrations,
`onFrameNeeded`, `onPresent`, `onFrame`, `gpuDone`, `registerBuffer`, `dropBuffer`,
`onVblankTimer`, timer expiries and changes of the surroundings) every record has
`gpuReady = false`; consequently `onVblankTimer` never finds `rendered && gpuReady`, and on
every record with `rendered = true` it sets `delayed = true`. -/
theorem C20_gpuReady_never_set (w0 : World) (h0 : w0.m_vSchedulingData = [])
    (cs : List Call) (w : World) (hrun : run w0 cs = .ok w) :
    ∀ d ∈ w.m_vSchedulingData,
      d.gpuReady = false ∧ (d.rendered && d.gpuReady) = false ∧
      (d.rendered = true → onVblankTimer d = ({ d with delayed := true }, 0)) := by
  intro d hd
  have hg : d.gpuReady = false :=
    run_invariant (fun d => d.gpuReady = false) (fun _ => True) (fun _ _ _ => rfl)
      (fun _ _ _ _ hd hs => recordStep_gpuReady hd hs) cs w0 w (fun _ _ => trivial)
      (by rw [h0]; intro d hd; exact absurd hd (List.not_mem_nil d)) hrun d hd
  refine ⟨hg, by rw [hg]; simp, ?_⟩
  intro hr
  simp [onVblankTimer, hr, hg]

/-- C20, witness: `repeatedRecoveryTrace` from `emptyWorld`, which renders, misses a vblank
and recovers. -/
theorem C20_gpuReady_never_set_witness :
    ∃ w, run emptyWorld repeatedRecoveryTrace = .ok w ∧
      w.m_vSchedulingData.map (fun d => (d.rendered, d.gpuReady)) = [(true, false)] ∧
      ∀ d ∈ w.m_vSchedulingData,
        d.gpuReady = false ∧ (d.rendered && d.gpuReady) = false ∧
        (d.rendered = true → onVblankTimer d = ({ d with delayed := true }, 0)) := by
  cases h : run emptyWorld repeatedRecoveryTrace with
  | error e =>
    have : (observe (run emptyWorld repeatedRecoveryTrace)).isSome = true := by decide!
    rw [h] at this
    simp [observe] at this
  | ok w =>
    refine ⟨w, rfl, ?_, C20_gpuReady_never_set emptyWorld rfl repeatedRecoveryTrace w h⟩
    have : (observe (run emptyWorld repeatedRecoveryTrace)).map
        (fun r => r.1.map (fun d => (d.rendered, d.gpuReady))) = some [(true, false)] := by
      decide!
    rw [h] at this
    simpa [observe] using this

end FrameSched
